import Mathlib

/-!
# Askademy front end: session state, token decoding and request interception

A shallow embedding of `frontend/src/context/AuthContext.js` (with the parts of
`services/api.js` and `utils/errorMessages.js` it calls), of the conditions
under which the components `QuestionsTab`, `Answer`, `CourseCard` and
`GuideTab` offer their controls, of the route guard, and of what `Register`,
`Navbar` and `QuestionsTab` compute from the form and from the lists of the
server, with the properties of them that the specification states.

JavaScript strings are lists of UTF-16 code units, JavaScript values are the
inductive type `JSVal`, and an operation that can throw returns `Except JSError`.
The browser built-ins the code calls (`split`, `replace`, `atob`,
`decodeURIComponent`, `toString(16)`, `slice`) are embedded after their
standards; `JSON.parse` is a parameter of `decodeToken`, so that what is proved
of `decodeToken` holds for every behaviour of the parser.
-/

namespace Askademy

/-! ## JavaScript values -/

/-- A JavaScript string, as the list of its UTF-16 code units. -/
abbrev JSString := List Nat

/-- The UTF-16 code units of one Unicode code point. -/
def utf16Units (cp : Nat) : List Nat :=
  if cp < 0x10000 then [cp]
  else [0xD800 + (cp - 0x10000) / 0x400, 0xDC00 + (cp - 0x10000) % 0x400]

/-- The JavaScript string written by a Lean string literal. -/
def js (s : String) : JSString := s.data.flatMap fun c => utf16Units c.toNat

/-- The errors a JavaScript operation of this program can throw. -/
inductive JSError where
  | typeError
  | uriError
  | syntaxError
  | invalidCharacterError
  deriving DecidableEq, Repr

/-- A JavaScript value. A number is kept as the decimal `± mant × 10 ^ exp` it
was written with; `fn` is a built-in function object, named by its path. -/
inductive JSVal where
  | undefined
  | null
  | bool (b : Bool)
  | num (neg : Bool) (mant : Nat) (exp : Int)
  | str (s : JSString)
  | arr (items : List JSVal)
  | obj (props : List (JSString × JSVal))
  | fn (name : JSString)

/-- Whether the double nearest to `mant × 10 ^ exp` is not zero: the decimal
must exceed `2 ^ (-1075)`, half of the least positive double. -/
def numNonZero (mant : Nat) (exp : Int) : Bool :=
  match exp with
  | Int.ofNat _ => decide (0 < mant)
  | Int.negSucc k => decide (10 ^ (k + 1) < mant * 2 ^ 1075)

/-- JavaScript `ToBoolean`. -/
def JSVal.truthy : JSVal → Bool
  | .undefined => false
  | .null => false
  | .bool b => b
  | .num _ mant exp => numNonZero mant exp
  | .str s => !s.isEmpty
  | .arr _ => true
  | .obj _ => true
  | .fn _ => true

/-- The value of the last property named `key` in a property list (a later
duplicate key of a JSON text overwrites an earlier one). -/
def lookupProp (key : JSString) : List (JSString × JSVal) → JSVal
  | [] => .undefined
  | (k, v) :: rest =>
    match lookupProp key rest with
    | .undefined => if k = key then v else .undefined
    | w => w

/-- Property read `v.key` on a value that is neither `null` nor `undefined`,
for the property names this program reads from parsed JSON (`sub`, `role`,
`userId`, `message`, `author`, `id`, `verified`, `anonymous`, `firstname`,
`lastname`, `email`, `answers`, `name`, `title`, `createdAt`): an own property of an object, else what the prototype
chain gives, which is `String.prototype.sub` for `sub` on a string and
nothing otherwise. -/
def JSVal.get (v : JSVal) (key : JSString) : JSVal :=
  match v with
  | .obj props => lookupProp key props
  | .str _ => if key = js "sub" then .fn (js "String.prototype.sub") else .undefined
  | _ => .undefined

/-! ## String built-ins -/

/-- `s.split(sep)` for a one-character separator. -/
def split (sep : Nat) : JSString → List JSString
  | [] => [[]]
  | c :: cs =>
    if c = sep then [] :: split sep cs
    else
      match split sep cs with
      | [] => [[c]]
      | seg :: segs => (c :: seg) :: segs

/-- `s.replace(/a/g, b)` for one-character `a` and `b`. -/
def replaceAll (a b : Nat) (s : JSString) : JSString :=
  s.map fun c => if c = a then b else c

/-- `s.slice(-2)`: the last two code units of `s` (all of it when shorter). -/
def sliceLast2 (s : JSString) : JSString := s.drop (s.length - 2)

/-- One lower-case hexadecimal digit. -/
def hexDigit (d : Nat) : Nat := if d < 10 then 48 + d else 87 + d

/-- The digits of `n` in base 16, most significant first, in front of `acc`. -/
def toString16Aux : Nat → Nat → JSString → JSString
  | 0, _, acc => acc
  | fuel + 1, n, acc =>
    if n < 16 then hexDigit n :: acc
    else toString16Aux fuel (n / 16) (hexDigit (n % 16) :: acc)

/-- `n.toString(16)` for a non-negative integer. -/
def toString16 (n : Nat) : JSString := toString16Aux (n + 1) n []

/-! ## `atob` (forgiving-base64 decode of the HTML standard) -/

/-- ASCII whitespace: TAB, LF, FF, CR, SPACE. -/
def isAsciiWhitespace (c : Nat) : Bool :=
  c == 9 || c == 10 || c == 12 || c == 13 || c == 32

/-- The six-bit value of a character of the base64 alphabet. -/
def base64Value (c : Nat) : Option Nat :=
  if 65 ≤ c ∧ c ≤ 90 then some (c - 65)
  else if 97 ≤ c ∧ c ≤ 122 then some (c - 71)
  else if 48 ≤ c ∧ c ≤ 57 then some (c + 4)
  else if c = 43 then some 62
  else if c = 47 then some 63
  else none

/-- Removal of one or two trailing `=` from data whose length is a multiple of 4. -/
def stripPadding (d : JSString) : JSString :=
  if d.length % 4 = 0 then
    match d.reverse with
    | 61 :: 61 :: r => r.reverse
    | 61 :: r => r.reverse
    | _ => d
  else d

/-- The bytes of a sequence of six-bit values: three bytes for each four
values, and for a rest of three or two values two bytes or one, the surplus
low bits being discarded. -/
def decodeSextets : List Nat → List Nat
  | a :: b :: c :: d :: rest =>
    let n := ((a * 64 + b) * 64 + c) * 64 + d
    n / 65536 :: n / 256 % 256 :: n % 256 :: decodeSextets rest
  | [a, b, c] =>
    let n := ((a * 64 + b) * 64 + c) / 4
    [n / 256, n % 256]
  | [a, b] => [(a * 64 + b) / 16]
  | _ => []

/-- The six-bit values of a string, when all its characters are of the base64
alphabet. -/
def base64Values : JSString → Option (List Nat)
  | [] => some []
  | c :: cs =>
    match base64Value c, base64Values cs with
    | some v, some vs => some (v :: vs)
    | _, _ => none

/-- The window function `atob`: the binary string (one code unit below 256 for
each byte) encoded by `data`, or an `InvalidCharacterError`. -/
def atob (data : JSString) : Except JSError JSString :=
  let d := stripPadding (data.filter fun c => !isAsciiWhitespace c)
  if d.length % 4 = 1 then .error .invalidCharacterError
  else
    match base64Values d with
    | none => .error .invalidCharacterError
    | some sextets => .ok (decodeSextets sextets)

/-! ## `decodeURIComponent` -/

/-- The value of a hexadecimal digit, of either case. -/
def hexValue (c : Nat) : Option Nat :=
  if 48 ≤ c ∧ c ≤ 57 then some (c - 48)
  else if 97 ≤ c ∧ c ≤ 102 then some (c - 87)
  else if 65 ≤ c ∧ c ≤ 70 then some (c - 55)
  else none

/-- A piece of a URI component: a literal code unit or an escaped octet `%XX`. -/
inductive UriItem where
  | lit (c : Nat)
  | octet (b : Nat)
  deriving DecidableEq, Repr

/-- Reading of the escapes of a string: a `%` must be followed by two
hexadecimal digits. -/
def uriLex : JSString → Except JSError (List UriItem)
  | [] => .ok []
  | c :: rest =>
    if c = 37 then
      match rest with
      | h1 :: h2 :: rest2 =>
        match hexValue h1, hexValue h2 with
        | some a, some b =>
          match uriLex rest2 with
          | .ok items => .ok (.octet (16 * a + b) :: items)
          | .error e => .error e
        | _, _ => .error .uriError
      | _ => .error .uriError
    else
      match uriLex rest with
      | .ok items => .ok (.lit c :: items)
      | .error e => .error e

/-- A continuation octet `10xxxxxx`. -/
def isCont (b : Nat) : Bool := decide (0x80 ≤ b ∧ b < 0xC0)

/-- The code units `units` in front of a decoded rest. -/
def emit (units : JSString) : Except JSError JSString → Except JSError JSString
  | .ok s => .ok (units ++ s)
  | .error e => .error e

/-- A UTF-8 sequence under way: the continuation octets still to come, the
bits read so far, and the least code point a sequence of this length may
encode. -/
structure Pending where
  need : Nat
  bits : Nat
  least : Nat

/-- Decoding of the octets as UTF-8 into UTF-16 code units: an octet below
0x80 is itself, a lead octet announces one to three continuation octets, and
anything that is not the UTF-8 encoding of a Unicode scalar value (a stray
continuation, a missing one, an overlong form, a surrogate, a value above
0x10FFFF) is a `URIError`. Literal code units pass unchanged. -/
def uriDecodeItems (pending : Option Pending) : List UriItem → Except JSError JSString
  | [] =>
    match pending with
    | none => .ok []
    | some _ => .error .uriError
  | .lit c :: rest =>
    match pending with
    | none => emit [c] (uriDecodeItems none rest)
    | some _ => .error .uriError
  | .octet b :: rest =>
    match pending with
    | none =>
      if b < 0x80 then emit [b] (uriDecodeItems none rest)
      else if b < 0xC0 then .error .uriError
      else if b < 0xE0 then uriDecodeItems (some ⟨1, b - 0xC0, 0x80⟩) rest
      else if b < 0xF0 then uriDecodeItems (some ⟨2, b - 0xE0, 0x800⟩) rest
      else if b < 0xF8 then uriDecodeItems (some ⟨3, b - 0xF0, 0x10000⟩) rest
      else .error .uriError
    | some p =>
      if isCont b then
        let v := p.bits * 64 + (b - 0x80)
        if p.need ≤ 1 then
          if p.least ≤ v ∧ v < 0x110000 ∧ ¬ (0xD800 ≤ v ∧ v < 0xE000) then
            emit (utf16Units v) (uriDecodeItems none rest)
          else .error .uriError
        else uriDecodeItems (some ⟨p.need - 1, v, p.least⟩) rest
      else .error .uriError

/-- The global function `decodeURIComponent`. -/
def decodeURIComponent (s : JSString) : Except JSError JSString :=
  match uriLex s with
  | .ok items => uriDecodeItems none items
  | .error e => .error e

/-! ## `decodeToken` (AuthContext.js, lines 12-29) -/

/-- The callback of the `map` in `decodeToken`:
`'%' + ('00' + c.charCodeAt(0).toString(16)).slice(-2)`. -/
def percentEscape (c : Nat) : JSString :=
  37 :: sliceLast2 (js "00" ++ toString16 c)

/-- The `try` block of `decodeToken`. -/
def decodeTokenTry (parse : JSString → Except JSError JSVal) (token : JSString) :
    Except JSError JSVal :=
  match (split 46 token)[1]? with
  | none => .error .typeError
  | some base64Url =>
    let base64 := replaceAll 95 47 (replaceAll 45 43 base64Url)
    match atob base64 with
    | .error e => .error e
    | .ok binary =>
      match decodeURIComponent ((binary.map percentEscape).flatten) with
      | .error e => .error e
      | .ok jsonPayload => parse jsonPayload

/-- The function `decodeToken`: the `try` block, and `null` from the `catch`
block for whatever was thrown (the warning the `catch` block logs in
development has no part in the result). -/
def decodeToken (parse : JSString → Except JSError JSVal) (token : JSString) :
    Except JSError JSVal :=
  match decodeTokenTry parse token with
  | .ok v => .ok v
  | .error _ => .ok .null

/-! ## A model of `JSON.parse`

`decodeToken` takes the parser as a parameter. This model of it, a
recursive-descent parser of the JSON grammar, instantiates the parameter where
a concrete run is evaluated. -/

/-- JSON whitespace: space, TAB, LF, CR. -/
def isJsonWs (c : Nat) : Bool := c == 32 || c == 9 || c == 10 || c == 13

/-- The input without its leading whitespace. -/
def skipWs : JSString → JSString
  | [] => []
  | c :: cs => if isJsonWs c then skipWs cs else c :: cs

/-- The rest of the input after the literal `lit`, when it starts with it. -/
def stripLit : JSString → JSString → Option JSString
  | [], s => some s
  | _ :: _, [] => none
  | l :: ls, c :: cs => if l = c then stripLit ls cs else none

/-- The leading decimal digits of the input, as digit values, and the rest. -/
def takeDigits : JSString → List Nat × JSString
  | [] => ([], [])
  | c :: cs =>
    if 48 ≤ c ∧ c ≤ 57 then
      let r := takeDigits cs
      ((c - 48) :: r.1, r.2)
    else ([], c :: cs)

/-- The number with the given decimal digits, most significant first. -/
def digitsValue (ds : List Nat) : Nat := ds.foldl (fun n d => 10 * n + d) 0

/-- The code unit an escape `\c` stands for (other than `\u`). -/
def escapeChar (c : Nat) : Option Nat :=
  if c = 34 then some 34
  else if c = 92 then some 92
  else if c = 47 then some 47
  else if c = 98 then some 8
  else if c = 102 then some 12
  else if c = 110 then some 10
  else if c = 114 then some 13
  else if c = 116 then some 9
  else none

/-- The characters of a JSON string after its opening quote, up to the closing
quote, and the rest of the input. -/
def parseStringBody : Nat → JSString → Option (JSString × JSString)
  | 0, _ => none
  | _ + 1, [] => none
  | fuel + 1, c :: cs =>
    if c = 34 then some ([], cs)
    else if c = 92 then
      match cs with
      | [] => none
      | e :: cs2 =>
        if e = 117 then
          match cs2 with
          | h1 :: h2 :: h3 :: h4 :: cs3 =>
            match hexValue h1, hexValue h2, hexValue h3, hexValue h4 with
            | some a, some b, some c4, some d =>
              match parseStringBody fuel cs3 with
              | some (s, r) => some ((((a * 16 + b) * 16 + c4) * 16 + d) :: s, r)
              | none => none
            | _, _, _, _ => none
          | _ => none
        else
          match escapeChar e with
          | some x =>
            match parseStringBody fuel cs2 with
            | some (s, r) => some (x :: s, r)
            | none => none
          | none => none
    else if c < 32 then none
    else
      match parseStringBody fuel cs with
      | some (s, r) => some (c :: s, r)
      | none => none

/-- The exponent part of a JSON number, if there is one: its value and the rest. -/
def parseExponent (s : JSString) : Option (Int × JSString) :=
  match s with
  | c :: cs =>
    if c = 101 ∨ c = 69 then
      let signed : Bool × JSString :=
        match cs with
        | 45 :: r => (true, r)
        | 43 :: r => (false, r)
        | _ => (false, cs)
      match takeDigits signed.2 with
      | ([], _) => none
      | (ds, r) => some (if signed.1 then - (digitsValue ds : Int) else (digitsValue ds : Int), r)
    else some (0, s)
  | [] => some (0, s)

/-- A JSON number without its sign: integer part (no leading zero unless it is
`0`), optional fraction, optional exponent. -/
def parseUnsigned (neg : Bool) (s : JSString) : Option (JSVal × JSString) :=
  match takeDigits s with
  | ([], _) => none
  | (d :: ds, r) =>
    if d = 0 ∧ ds ≠ [] then none
    else
      let frac : Option (List Nat × JSString) :=
        match r with
        | 46 :: r2 =>
          match takeDigits r2 with
          | ([], _) => none
          | (fs, r3) => some (fs, r3)
        | _ => some ([], r)
      match frac with
      | none => none
      | some (fs, r3) =>
        match parseExponent r3 with
        | none => none
        | some (e, r4) =>
          some (.num neg (digitsValue (d :: ds ++ fs)) (e - (fs.length : Int)), r4)

mutual

/-- A JSON value at the head of the input (after whitespace), and the rest. -/
def parseValue : Nat → JSString → Option (JSVal × JSString)
  | 0, _ => none
  | fuel + 1, s =>
    match skipWs s with
    | [] => none
    | c :: cs =>
      if c = 123 then
        match skipWs cs with
        | 125 :: r => some (.obj [], r)
        | _ =>
          match parseMembers fuel cs with
          | some (ps, r) => some (.obj ps, r)
          | none => none
      else if c = 91 then
        match skipWs cs with
        | 93 :: r => some (.arr [], r)
        | _ =>
          match parseElements fuel cs with
          | some (xs, r) => some (.arr xs, r)
          | none => none
      else if c = 34 then
        match parseStringBody (cs.length + 1) cs with
        | some (str, r) => some (.str str, r)
        | none => none
      else if c = 45 then parseUnsigned true cs
      else if c = 116 then (stripLit (js "rue") cs).map fun r => (.bool true, r)
      else if c = 102 then (stripLit (js "alse") cs).map fun r => (.bool false, r)
      else if c = 110 then (stripLit (js "ull") cs).map fun r => (.null, r)
      else parseUnsigned false (c :: cs)

/-- The elements of an array after `[`, up to and including `]`. -/
def parseElements : Nat → JSString → Option (List JSVal × JSString)
  | 0, _ => none
  | fuel + 1, s =>
    match parseValue fuel s with
    | none => none
    | some (v, r) =>
      match skipWs r with
      | 93 :: r2 => some ([v], r2)
      | 44 :: r2 =>
        match parseElements fuel r2 with
        | some (vs, r3) => some (v :: vs, r3)
        | none => none
      | _ => none

/-- The members of an object after `{`, up to and including `}`. -/
def parseMembers : Nat → JSString → Option (List (JSString × JSVal) × JSString)
  | 0, _ => none
  | fuel + 1, s =>
    match skipWs s with
    | 34 :: cs =>
      match parseStringBody (cs.length + 1) cs with
      | none => none
      | some (key, r) =>
        match skipWs r with
        | 58 :: r2 =>
          match parseValue fuel r2 with
          | none => none
          | some (v, r3) =>
            match skipWs r3 with
            | 125 :: r4 => some ([(key, v)], r4)
            | 44 :: r4 =>
              match parseMembers fuel r4 with
              | some (ps, r5) => some ((key, v) :: ps, r5)
              | none => none
            | _ => none
        | _ => none
    | _ => none

end

/-- The model of `JSON.parse`: one JSON value between optional whitespace, or
a `SyntaxError`. -/
def jsonParse (text : JSString) : Except JSError JSVal :=
  match parseValue (2 * text.length + 2) text with
  | some (v, r) =>
    match skipWs r with
    | [] => .ok v
    | _ => .error .syntaxError
  | none => .error .syntaxError

/-! ## Error messages (utils/errorMessages.js) -/

namespace ERROR_MESSAGES

def NETWORK_ERROR : JSString :=
  js "We're having trouble connecting to the server. Please check your internet connection and try again."

def TIMEOUT_ERROR : JSString :=
  js "The request is taking longer than expected. Please try again in a moment."

def INVALID_CREDENTIALS : JSString :=
  js "The email or password you entered is incorrect. Please double-check and try again."

def UNAUTHORIZED : JSString :=
  js "Your session has expired. Please log in again to continue."

def COURSE_NOT_FOUND : JSString :=
  js "We couldn't find that course. It may have been removed or you may not have access."

def ALREADY_ENROLLED : JSString := js "You're already enrolled in this course!"

def SERVER_ERROR : JSString :=
  js "Something went wrong on our end. We're working to fix it. Please try again later."

def UNKNOWN_ERROR : JSString :=
  js "An unexpected error occurred. If this persists, please contact support."

def PERMISSION_DENIED : JSString := js "You don't have permission to perform this action."

end ERROR_MESSAGES

/-- Whether `hay` starts with `needle`. -/
def startsWith : JSString → JSString → Bool
  | [], _ => true
  | _ :: _, [] => false
  | n :: ns, c :: cs => n == c && startsWith ns cs

/-- `hay.includes(needle)` on strings. -/
def includesStr (needle : JSString) : JSString → Bool
  | [] => needle.isEmpty
  | c :: cs => startsWith needle (c :: cs) || includesStr needle cs

/-- Whether a value is the string `s`. -/
def JSVal.isStr (s : JSString) : JSVal → Bool
  | .str t => t == s
  | _ => false

/-- The method call `v.includes(needle)` with a string argument, on a truthy
value `v` taken from parsed JSON: `String.prototype.includes` on a string,
`Array.prototype.includes` on an array, and a `TypeError` on anything else,
which has no callable `includes`. -/
def JSVal.includes (v : JSVal) (needle : JSString) : Except JSError Bool :=
  match v with
  | .str s => .ok (includesStr needle s)
  | .arr items => .ok (items.any (JSVal.isStr needle))
  | _ => .error .typeError

/-- The function `getErrorMessageByStatus`. -/
def getErrorMessageByStatus (status : Nat) : JSString :=
  if status = 400 then
    js "The information you provided isn't quite right. Please review and try again."
  else if status = 401 then ERROR_MESSAGES.UNAUTHORIZED
  else if status = 403 then ERROR_MESSAGES.PERMISSION_DENIED
  else if status = 404 then
    js "We couldn't find what you're looking for. It may have been moved or deleted."
  else if status = 408 then ERROR_MESSAGES.TIMEOUT_ERROR
  else if status = 500 then ERROR_MESSAGES.SERVER_ERROR
  else if status = 502 then
    js "Our server is temporarily unavailable. Please try again in a few minutes."
  else if status = 503 then
    js "We're currently performing maintenance. Please check back soon."
  else ERROR_MESSAGES.UNKNOWN_ERROR

/-- The `response` of a failed request: its status and its body `data`. -/
structure ErrorResponse where
  status : Nat
  data : JSVal

/-- The error a request is rejected with, as far as the program reads it:
`error.config?.url` and `error.response`. -/
structure RequestError where
  url : Option JSString
  response : Option ErrorResponse

/-- The branch of `parseErrorMessage` for a non-empty string body. -/
def parseStringBodyMessage (data : JSString) : JSString :=
  if includesStr (js "Invalid email or password") data then ERROR_MESSAGES.INVALID_CREDENTIALS
  else if includesStr (js "Email already exists") data then
    js "An account with this email already exists. Please sign in instead."
  else if includesStr (js "Registration failed") data then
    js "Registration failed. Please check your information and try again."
  else data

/-- The optional read `data?.message`. -/
def optionalMessage (data : JSVal) : JSVal :=
  match data with
  | .undefined => .undefined
  | .null => .undefined
  | d => d.get (js "message")

/-- The function `parseErrorMessage`; it throws where `data.message.includes`
is not callable. -/
def parseErrorMessage (error : RequestError) : Except JSError JSVal :=
  match error.response with
  | none => .ok (.str ERROR_MESSAGES.NETWORK_ERROR)
  | some response =>
    let viaMessage : Except JSError JSVal :=
      let message := optionalMessage response.data
      if message.truthy then
        match message.includes (js "not found") with
        | .error e => .error e
        | .ok true => .ok (.str ERROR_MESSAGES.COURSE_NOT_FOUND)
        | .ok false =>
          match message.includes (js "Invalid credentials") with
          | .error e => .error e
          | .ok true => .ok (.str ERROR_MESSAGES.INVALID_CREDENTIALS)
          | .ok false =>
            match message.includes (js "already enrolled") with
            | .error e => .error e
            | .ok true => .ok (.str ERROR_MESSAGES.ALREADY_ENROLLED)
            | .ok false => .ok message
      else .ok (.str (getErrorMessageByStatus response.status))
    match response.data with
    | .str data =>
      if 0 < data.length then .ok (.str (parseStringBodyMessage data))
      else viaMessage
    | _ => viaMessage

/-! ## The session (AuthContext.js, services/api.js) -/

/-- The object held in the `user` state. -/
structure User where
  id : JSVal
  email : JSVal
  role : JSVal

/-- The state of `AuthProvider` (`user`, `token`, `loading`) with the two
pieces of the browser it reads and writes: the item `token` of tab storage
(`stored`) and `window.location.href`. -/
structure AppState where
  user : Option User
  token : Option JSString
  loading : Bool
  stored : Option JSString
  href : JSString

/-- Truthiness of a string-or-null value. -/
def truthyString : Option JSString → Bool
  | none => false
  | some s => !s.isEmpty

/-- The initial state of `AuthProvider`: `user` null, `token` the stored
credential or null (`getItem('token') || null`), `loading` true. -/
def initialState (stored : Option JSString) (href : JSString) : AppState :=
  { user := none
    token := if truthyString stored then stored else none
    loading := true
    stored := stored
    href := href }

/-- The body of the effect of `AuthProvider` (lines 37-51). -/
def effect (parse : JSString → Except JSError JSVal) (s : AppState) : Except JSError AppState :=
  match s.token with
  | some token =>
    if truthyString (some token) then
      match decodeToken parse token with
      | .error e => .error e
      | .ok decoded =>
        if decoded.truthy && (decoded.get (js "sub")).truthy then
          .ok { s with
                user := some { email := decoded.get (js "sub")
                               role := decoded.get (js "role")
                               id := decoded.get (js "userId") }
                loading := false }
        else .ok { s with loading := false }
    else .ok { s with loading := false }
  | none => .ok { s with loading := false }

/-- What follows a state change: the effect has the dependency list `[token]`,
so it runs again exactly when `token` differs from its value at the previous
render. -/
def afterUpdate (parse : JSString → Except JSError JSVal) (previous : Option JSString)
    (s : AppState) : Except JSError AppState :=
  if s.token = previous then .ok s else effect parse s

/-- Application start: the first render of `AuthProvider`, after which the
effect runs (restore). -/
def mount (parse : JSString → Except JSError JSVal) (stored : Option JSString)
    (href : JSString) : Except JSError AppState :=
  effect parse (initialState stored href)

/-- The error handler of the response interceptor of `api`: on a 401 from a
URL that does not contain `/auth/` it removes the stored credential and sets
the location to `/login`; the error is passed on as it is. -/
def responseInterceptor (error : RequestError) (s : AppState) : AppState :=
  let isAuthEndpoint : Bool :=
    match error.url with
    | some url => includesStr (js "/auth/") url
    | none => false
  let status401 : Bool :=
    match error.response with
    | some response => response.status == 401
    | none => false
  if status401 && !isAuthEndpoint then { s with stored := none, href := js "/login" }
  else s

/-- How a request through `api` ends: fulfilled with the response body, or
rejected, with or without a response. -/
inductive Outcome (α : Type) where
  | fulfilled (data : α)
  | rejected (response : Option ErrorResponse)

/-- The body of a successful login response. -/
structure LoginData where
  token : JSString
  id : JSVal
  email : JSVal
  role : JSVal

/-- What `login` and `register` return: `{ success: true }` or
`{ success: false, message }`. -/
structure AuthResult where
  success : Bool
  message : Option JSVal

/-- The error `api.post(url, ...)` is rejected with. -/
def postError (url : JSString) (response : Option ErrorResponse) : RequestError :=
  { url := some url, response := response }

/-- The `catch` block shared by `login` and `register`. -/
def failureResult (error : RequestError) : Except JSError AuthResult :=
  match parseErrorMessage error with
  | .ok message => .ok { success := false, message := some message }
  | .error e => .error e

/-- The value the promise of `login` settles with. -/
def loginResult (outcome : Outcome LoginData) : Except JSError AuthResult :=
  match outcome with
  | .fulfilled _ => .ok { success := true, message := none }
  | .rejected response => failureResult (postError (js "/auth/login") response)

/-- The state once `login` has settled, the effect included. -/
def loginState (parse : JSString → Except JSError JSVal) (outcome : Outcome LoginData)
    (s : AppState) : Except JSError AppState :=
  match outcome with
  | .fulfilled data =>
    afterUpdate parse s.token
      { s with
        token := some data.token
        user := some { id := data.id, email := data.email, role := data.role }
        stored := some data.token }
  | .rejected response =>
    .ok (responseInterceptor (postError (js "/auth/login") response) s)

/-- The value the promise of `register` settles with. -/
def registerResult (outcome : Outcome Unit) : Except JSError AuthResult :=
  match outcome with
  | .fulfilled _ => .ok { success := true, message := none }
  | .rejected response => failureResult (postError (js "/auth/register") response)

/-- The state once `register` has settled. -/
def registerState (outcome : Outcome Unit) (s : AppState) : AppState :=
  match outcome with
  | .fulfilled _ => s
  | .rejected response => responseInterceptor (postError (js "/auth/register") response) s

/-- The state after `logout`, the effect included. -/
def logoutState (parse : JSString → Except JSError JSVal) (s : AppState) :
    Except JSError AppState :=
  afterUpdate parse s.token { s with user := none, token := none, stored := none }

/-- A failure inside the `try` block of `decodeToken`: there is no second
segment to read, or `atob` rejects it, or its bytes are not UTF-8, or the text
is not JSON. -/
inductive DecodeFailure (parse : JSString → Except JSError JSVal) (token : JSString) : Prop where
  | split : (split 46 token)[1]? = none → DecodeFailure parse token
  | base64 (segment : JSString) (e : JSError) :
    (split 46 token)[1]? = some segment →
    atob (replaceAll 95 47 (replaceAll 45 43 segment)) = .error e → DecodeFailure parse token
  | utf8 (segment binary : JSString) (e : JSError) :
    (split 46 token)[1]? = some segment →
    atob (replaceAll 95 47 (replaceAll 45 43 segment)) = .ok binary →
    decodeURIComponent ((binary.map percentEscape).flatten) = .error e →
    DecodeFailure parse token
  | json (segment binary text : JSString) (e : JSError) :
    (split 46 token)[1]? = some segment →
    atob (replaceAll 95 47 (replaceAll 45 43 segment)) = .ok binary →
    decodeURIComponent ((binary.map percentEscape).flatten) = .ok text →
    parse text = .error e → DecodeFailure parse token

/-- An operation of the session. -/
inductive Action where
  | login (outcome : Outcome LoginData)
  | register (outcome : Outcome Unit)
  | logout

/-- One operation, run to its settled state. -/
def step (parse : JSString → Except JSError JSVal) (s : AppState) :
    Action → Except JSError AppState
  | .login outcome => loginState parse outcome s
  | .register outcome => .ok (registerState outcome s)
  | .logout => logoutState parse s

/-- A sequence of operations from a state. -/
def run (parse : JSString → Except JSError JSVal) (s : AppState) :
    List Action → Except JSError AppState
  | [] => .ok s
  | a :: rest =>
    match step parse s a with
    | .ok s1 => run parse s1 rest
    | .error e => .error e

/-- The session reached from application start by a sequence of operations. -/
def session (parse : JSString → Except JSError JSVal) (stored : Option JSString)
    (href : JSString) (actions : List Action) : Except JSError AppState :=
  match mount parse stored href with
  | .ok s => run parse s actions
  | .error e => .error e

/-- The guard of the effect on a token: the token is truthy and `decodeToken`
gives a truthy value with a truthy `sub`. -/
def passesGuard (parse : JSString → Except JSError JSVal) (token : Option JSString) : Bool :=
  match token with
  | none => false
  | some t =>
    truthyString (some t) &&
      match decodeToken parse t with
      | .ok decoded => decoded.truthy && (decoded.get (js "sub")).truthy
      | .error _ => false

/-- Whether an operation is a login that the server accepted. -/
def Action.isLoginSuccess : Action → Bool
  | .login (.fulfilled _) => true
  | _ => false

/-- Modelled from the spec: a credential is present and `decodeToken` succeeds
on it with a `sub` claim. The decoded payload is an object, and its `sub` is
truthy (a `sub` that is absent, empty or zero is no claim to the guard of the
effect). -/
def hasSubClaim (parse : JSString → Except JSError JSVal) (token : Option JSString) : Bool :=
  match token with
  | none => false
  | some t =>
    match decodeToken parse t with
    | .ok (.obj props) => (lookupProp (js "sub") props).truthy
    | _ => false

/-- Whether `decodeToken` gives a non-empty string on the credential: the
payload is a JSON string, which has no claims. -/
def hasTextPayload (parse : JSString → Except JSError JSVal) (token : Option JSString) : Bool :=
  match token with
  | none => false
  | some t =>
    match decodeToken parse t with
    | .ok (.str text) => !text.isEmpty
    | _ => false

/-- The accepted login in force after one operation, `current` being the one
in force before it: an accepted login takes its place, a logout ends it, a
failed login and a registration leave it. -/
def Action.loginInForce (current : Option LoginData) : Action → Option LoginData
  | .login (.fulfilled data) => some data
  | .login (.rejected _) => current
  | .register _ => current
  | .logout => none

/-- The accepted login in force after a sequence of operations: the response
of the most recent accepted login, unless a logout came after it. -/
def loginInForce (current : Option LoginData) (actions : List Action) : Option LoginData :=
  actions.foldl Action.loginInForce current

/-! ## The issuing side of a credential

The program only decodes credentials. The encoding that the specification
describes (JSON text, UTF-8, base64url, middle segment of three) is defined
here to state what decoding gives on a credential built that way. -/

/-- A Unicode scalar value: a code point that is not a surrogate. -/
def IsScalar (cp : Nat) : Prop := cp < 0xD800 ∨ (0xE000 ≤ cp ∧ cp < 0x110000)

/-- The UTF-8 encoding of a code point. -/
def utf8Encode (cp : Nat) : List Nat :=
  if cp < 0x80 then [cp]
  else if cp < 0x800 then [0xC0 + cp / 64, 0x80 + cp % 64]
  else if cp < 0x10000 then [0xE0 + cp / 4096, 0x80 + cp / 64 % 64, 0x80 + cp % 64]
  else [0xF0 + cp / 262144, 0x80 + cp / 4096 % 64, 0x80 + cp / 64 % 64, 0x80 + cp % 64]

/-- The character of the base64url alphabet (`A-Z a-z 0-9 - _`) for a six-bit value. -/
def base64urlChar (v : Nat) : Nat :=
  if v < 26 then 65 + v
  else if v < 52 then 71 + v
  else if v < 62 then v - 4
  else if v = 62 then 45
  else 95

/-- The six-bit values of the base64 encoding of a byte sequence. -/
def encodeSextets : List Nat → List Nat
  | x :: y :: z :: rest =>
    x / 4 :: (x % 4 * 16 + y / 16) :: (y % 16 * 4 + z / 64) :: z % 64 :: encodeSextets rest
  | [x, y] => [x / 4, x % 4 * 16 + y / 16, y % 16 * 4]
  | [x] => [x / 4, x % 4 * 16]
  | [] => []

/-- The base64url encoding of a byte sequence, with the `=` padding to a
multiple of four characters when `pad` is set, and without it otherwise. -/
def base64urlEncode (pad : Bool) (bytes : List Nat) : JSString :=
  let body := (encodeSextets bytes).map base64urlChar
  if pad then body ++ List.replicate ((4 - body.length % 4) % 4) 61 else body

/-- A three-segment credential whose middle segment is the base64url encoding
of the UTF-8 encoding of `text`, a list of code points. -/
def credential (pad : Bool) (header : JSString) (text : List Nat) (signature : JSString) :
    JSString :=
  header ++ 46 :: (base64urlEncode pad (text.flatMap utf8Encode) ++ 46 :: signature)

/-- The code points of a Lean string literal. -/
def codePoints (s : String) : List Nat := s.data.map Char.toNat

instance : DecidablePred IsScalar := fun cp => by
  unfold IsScalar
  infer_instance

/-- The JavaScript string of a list of code points. -/
def toUtf16 (text : List Nat) : JSString := text.flatMap utf16Units

/-! ## Equality of values -/

/-- The floor of the binary logarithm of a positive number (0 for 0). -/
def log2Floor : Nat → Nat → Nat
  | 0, _ => 0
  | fuel + 1, n => if 2 ≤ n then log2Floor fuel (n / 2) + 1 else 0

/-- The fraction `n / d` divided by `2 ^ e`, as a fraction. -/
def scaleByPow2 (n d : Nat) (e : Int) : Nat × Nat :=
  match e with
  | Int.ofNat k => (n, d * 2 ^ k)
  | Int.negSucc k => (n * 2 ^ (k + 1), d)

/-- The integer nearest to `n / d`, a tie going to the even one. -/
def roundHalfEven (n d : Nat) : Nat :=
  let q := n / d
  let r := n % d
  if d < 2 * r ∨ (2 * r = d ∧ q % 2 = 1) then q + 1 else q

/-- The magnitude of the double nearest to the decimal `mant × 10 ^ exp`:
`some (m, e)` is `m × 2 ^ e` with `m < 2 ^ 53` and `e` the least exponent that
allows it (not below -1074), `some (0, 0)` is zero and `none` is infinity. -/
def toBinary64 (mant : Nat) (exp : Int) : Option (Nat × Int) :=
  if mant = 0 then some (0, 0)
  else
    let frac : Nat × Nat :=
      match exp with
      | Int.ofNat k => (mant * 10 ^ k, 1)
      | Int.negSucc k => (mant, 10 ^ (k + 1))
    let b : Int := (log2Floor frac.1 frac.1 : Int) - (log2Floor frac.2 frac.2 : Int)
    let atB := scaleByPow2 frac.1 frac.2 b
    let lg : Int := if atB.2 ≤ atB.1 then b else b - 1
    let e : Int := max (lg - 52) (-1074)
    let atE := scaleByPow2 frac.1 frac.2 e
    let q := roundHalfEven atE.1 atE.2
    if q = 0 then some (0, 0)
    else if q = 2 ^ 53 then (if 971 < e + 1 then none else some (2 ^ 52, e + 1))
    else if 971 < e then none
    else some (q, e)

/-- Equality of two numbers, which are doubles: the nearest doubles of the two
decimals are the same, a zero being equal to a zero of either sign. -/
def numberEquals (neg1 : Bool) (mant1 : Nat) (exp1 : Int) (neg2 : Bool) (mant2 : Nat)
    (exp2 : Int) : Bool :=
  let d1 := toBinary64 mant1 exp1
  let d2 := toBinary64 mant2 exp2
  d1 == d2 && (neg1 == neg2 || d1 == some (0, 0))

/-- The type of a value, as `==` and `===` distinguish types: an array and a
function are objects. -/
inductive JSType where
  | undefined
  | null
  | boolean
  | number
  | string
  | object
  deriving DecidableEq, Repr

/-- The type of a value. -/
def JSVal.type : JSVal → JSType
  | .undefined => .undefined
  | .null => .null
  | .bool _ => .boolean
  | .num _ _ _ => .number
  | .str _ => .string
  | .arr _ => .object
  | .obj _ => .object
  | .fn _ => .object

/-- Whether a value is `null` or `undefined`. -/
def JSVal.isNullish : JSVal → Bool
  | .undefined => true
  | .null => true
  | _ => false

/-- Strict equality `a === b`. Objects are equal when they are the same
object: the operands of the comparisons of this program come from different
sources (the session, a response of the server), so an array or an object is
never the same as the other operand; a built-in function is itself. -/
def strictEquals : JSVal → JSVal → Bool
  | .undefined, .undefined => true
  | .null, .null => true
  | .bool a, .bool b => a == b
  | .num n1 m1 e1, .num n2 m2 e2 => numberEquals n1 m1 e1 n2 m2 e2
  | .str a, .str b => a == b
  | .fn a, .fn b => a == b
  | _, _ => false

/-- Loose equality `a == b`: operands of one type are compared strictly,
`null` and `undefined` are equal to each other and to nothing else, and the
result for two operands of different types, neither of them `null` or
`undefined`, comes from the conversions `ToNumber` and `ToPrimitive`, which
the parameter `mixed` stands for. -/
def looseEquals (mixed : JSVal → JSVal → Bool) (a b : JSVal) : Bool :=
  if a.type = b.type then strictEquals a b
  else if a.isNullish && b.isNullish then true
  else if a.isNullish || b.isNullish then false
  else mixed a b

/-- The optional read `v?.key`. -/
def JSVal.optionalGet (v : JSVal) (key : JSString) : JSVal :=
  match v with
  | .undefined => .undefined
  | .null => .undefined
  | d => d.get key

/-! ## The request interceptor (services/api.js, lines 12-24) -/

/-- A request config as the interceptor receives it from axios: the object
`headers`, and the other properties of the config. -/
structure RequestConfig where
  headers : List (JSString × JSVal)
  rest : List (JSString × JSVal)

/-- The assignment `object.key = value` on the properties of an object: the
property is overwritten where it exists and added at the end otherwise. -/
def setProp (key : JSString) (value : JSVal) (props : List (JSString × JSVal)) :
    List (JSString × JSVal) :=
  if props.any (fun p => p.1 == key) then
    props.map fun p => if p.1 = key then (key, value) else p
  else props ++ [(key, value)]

/-- The request interceptor of `api`, given the stored credential. -/
def requestInterceptor (stored : Option JSString) (config : RequestConfig) : RequestConfig :=
  match stored with
  | some token =>
    if truthyString (some token) then
      { config with
        headers := setProp (js "Authorization") (.str (js "Bearer " ++ token)) config.headers }
    else config
  | none => config

/-- The error handler of the response interceptor with what it returns: the
promise rejected with the error it received, and the state it leaves. -/
def responseErrorHandler (error : RequestError) (s : AppState) : RequestError × AppState :=
  (error, responseInterceptor error s)

/-! ## What the views offer (components) -/

/-- The read `user?.id` on the `user` of the session. -/
def userId (user : Option User) : JSVal :=
  match user with
  | some u => u.id
  | none => .undefined

/-- The read `user?.role` on the `user` of the session. -/
def userRole (user : Option User) : JSVal :=
  match user with
  | some u => u.role
  | none => .undefined

/-- The read `entity.author?.id` on a question or an answer. -/
def authorId (entity : JSVal) : JSVal := (entity.get (js "author")).optionalGet (js "id")

namespace QuestionsTab

/-- The constant `isProfessor` of `QuestionsTab` (line 27). -/
def isProfessor (user : Option User) : Bool := strictEquals (userRole user) (.str (js "PROFESSOR"))

/-- The constant `isAdmin` of `QuestionsTab` (line 28). -/
def isAdmin (user : Option User) : Bool := strictEquals (userRole user) (.str (js "ADMIN"))

/-- The condition of the delete button of a question in the grouped view
(line 417). -/
def groupedDeleteQuestion (user : Option User) (mainQuestion : JSVal) : Bool :=
  strictEquals (userId user) (authorId mainQuestion) || isProfessor user || isAdmin user

/-- The condition of the delete button of a question in the regular view
(line 867). -/
def regularDeleteQuestion (mixed : JSVal → JSVal → Bool) (user : Option User)
    (question : JSVal) : Bool :=
  looseEquals mixed (userId user) (authorId question) || isProfessor user || isAdmin user

/-- The condition of the delete button of an answer in the grouped view
(line 714). -/
def groupedDeleteAnswer (user : Option User) (answer : JSVal) : Bool :=
  strictEquals (userId user) (authorId answer) || isProfessor user || isAdmin user

/-- The condition of the delete button of an answer in the regular view
(line 955). -/
def regularDeleteAnswer (mixed : JSVal → JSVal → Bool) (user : Option User)
    (answer : JSVal) : Bool :=
  looseEquals mixed (userId user) (authorId answer) || isProfessor user || isAdmin user

/-- The condition of the verify button of an answer in the grouped view
(line 706). -/
def groupedVerifyAnswer (user : Option User) (answer : JSVal) : Bool :=
  isProfessor user && !(answer.get (js "verified")).truthy

/-- The condition of the verify button of an answer in the regular view
(line 946). -/
def regularVerifyAnswer (user : Option User) (answer : JSVal) : Bool :=
  isProfessor user && !(answer.get (js "verified")).truthy

end QuestionsTab

namespace Answer

/-- The truthiness of the constant `isAuthor` of `Answer` (line 8):
`user && answer.author && user.id === answer.author.id`. -/
def isAuthor (user : Option User) (answer : JSVal) : Bool :=
  match user with
  | none => false
  | some u =>
    (answer.get (js "author")).truthy &&
      strictEquals u.id ((answer.get (js "author")).get (js "id"))

/-- The truthiness of the constant `isProfessor` of `Answer` (line 9):
`user && user.role === 'PROFESSOR'`. -/
def isProfessor (user : Option User) : Bool :=
  match user with
  | none => false
  | some u => strictEquals u.role (.str (js "PROFESSOR"))

/-- The condition of the verify button (line 98); `onVerify` tells whether the
component was given the callback. -/
def verifyOffered (user : Option User) (onVerify : Bool) : Bool :=
  isProfessor user && onVerify

/-- The condition of the delete button (line 115); `onDelete` tells whether
the component was given the callback. -/
def deleteOffered (user : Option User) (answer : JSVal) (onDelete : Bool) : Bool :=
  (isAuthor user answer || isProfessor user) && onDelete

end Answer

namespace CourseCard

/-- The constant `isOwner` of `CourseCard` (line 23); the course is not read. -/
def isOwner (user : Option User) (_course : JSVal) : Bool :=
  strictEquals (userRole user) (.str (js "PROFESSOR"))

/-- The condition of the delete button of a course (line 31). -/
def deleteOffered (user : Option User) (course : JSVal) (onDelete : Bool) : Bool :=
  isOwner user course && onDelete

end CourseCard

namespace GuideTab

/-- The constant `isProfessor` of `GuideTab` (line 31). -/
def isProfessor (user : Option User) : Bool :=
  strictEquals (userRole user) (.str (js "PROFESSOR"))

/-- The condition of the edit button of the grading guide (line 42); the
course is not read. -/
def editOffered (user : Option User) (_course : JSVal) (isEditing : Bool) : Bool :=
  isProfessor user && !isEditing

end GuideTab

/-! ## The route guard -/

/-- The outcome of the guard for a navigation to a guarded view. -/
inductive GateState where
  | pending
  | allowed
  | deniedUnauthenticated
  | deniedForbidden
  deriving DecidableEq, Repr

/-- Modelled from the spec: the component `ProtectedRoute`
(`components/ProtectedRoute.js`), which `App.js` imports and wraps the guarded
routes in, is not among the sources. After section 4.4 of the specification:
pending while the session is loading; then denied-unauthenticated without an
identity; then denied-forbidden when the view declares a set of required roles
and the role of the identity is not a member of it; allowed otherwise. -/
def roleGate (loading : Bool) (user : Option User) (roles : Option (List JSString)) :
    GateState :=
  if loading then .pending
  else
    match user with
    | none => .deniedUnauthenticated
    | some u =>
      match roles with
      | none => .allowed
      | some required =>
        if required.any (fun r => strictEquals u.role (.str r)) then .allowed
        else .deniedForbidden

/-- The guarded routes of `App.js` (lines 25-51) with the `roles` they pass to
`ProtectedRoute`: only `/admin` declares a set of roles. -/
def protectedRoutes : List (JSString × Option (List JSString)) :=
  [(js "/dashboard", none), (js "/courses/:id", none), (js "/guide", none),
    (js "/admin", some [js "ADMIN"])]

/-! ## Elapsed time (Answer.js, QuestionsTab.js, Navbar.js)

The three formatters take a date; what they print depends on it through the
number of elapsed seconds `Math.floor((now - date) / 1000)`, an integer, and
in the last case through `date.toLocaleDateString()`. `Math.floor(x / n)` on
an integer `x` and a positive `n` is the division of `Int`, which rounds
down. -/

/-- What a formatter prints: `just now`, a number followed by `m ago`,
`h ago` or `d ago`, or the date in the format of the locale. -/
inductive TimeAgo where
  | justNow
  | minutes (n : Int)
  | hours (n : Int)
  | days (n : Int)
  | localeDate
  deriving DecidableEq, Repr

namespace Answer

/-- The function `getTimeAgo` of `Answer` (lines 12-25), on the elapsed seconds. -/
def getTimeAgo (seconds : Int) : TimeAgo :=
  if seconds < 60 then .justNow
  else
    let minutes := seconds / 60
    if minutes < 60 then .minutes minutes
    else
      let hours := minutes / 60
      if hours < 24 then .hours hours
      else
        let days := hours / 24
        if days < 7 then .days days
        else .localeDate

end Answer

namespace QuestionsTab

/-- The function `formatTimeAgo` of `QuestionsTab` (lines 138-148), on the
elapsed seconds. -/
def formatTimeAgo (diffInSeconds : Int) : TimeAgo :=
  if diffInSeconds < 60 then .justNow
  else if diffInSeconds < 3600 then .minutes (diffInSeconds / 60)
  else if diffInSeconds < 86400 then .hours (diffInSeconds / 3600)
  else if diffInSeconds < 604800 then .days (diffInSeconds / 86400)
  else .localeDate

end QuestionsTab

namespace Navbar

/-- The function `formatTimeAgo` of `Navbar` (lines 134-144), on the elapsed
seconds. -/
def formatTimeAgo (diffInSeconds : Int) : TimeAgo :=
  if diffInSeconds < 60 then .justNow
  else if diffInSeconds < 3600 then .minutes (diffInSeconds / 60)
  else if diffInSeconds < 86400 then .hours (diffInSeconds / 3600)
  else if diffInSeconds < 604800 then .days (diffInSeconds / 86400)
  else .localeDate

end Navbar

/-! ## Author label and badges (QuestionsTab.js) -/

/-- `s.split(/[._-]/)`: the pieces of `s` between the characters `.`, `_`
and `-`. -/
def splitOnAny (isSep : Nat → Bool) : JSString → List JSString
  | [] => [[]]
  | c :: cs =>
    if isSep c then [] :: splitOnAny isSep cs
    else
      match splitOnAny isSep cs with
      | [] => [[c]]
      | seg :: segs => (c :: seg) :: segs

/-- `pieces.join(' ')`. -/
def joinWithSpace : List JSString → JSString
  | [] => []
  | [p] => p
  | p :: q :: rest => p ++ 32 :: joinWithSpace (q :: rest)

namespace QuestionsTab

/-- The function `getAuthorName` (lines 171-181). The conversion of a value to
a string in a template literal and `toUpperCase` are parameters; `split` on a
truthy `email` that is not a string throws a `TypeError`. -/
def getAuthorName (toStr : JSVal → JSString) (toUpperCase : JSString → JSString)
    (question : JSVal) : Except JSError JSString :=
  if (question.get (js "anonymous")).truthy then .ok (js "Anonymous")
  else
    let author := question.get (js "author")
    let firstname := author.optionalGet (js "firstname")
    let lastname := author.optionalGet (js "lastname")
    if firstname.truthy && lastname.truthy then .ok (toStr firstname ++ 32 :: toStr lastname)
    else
      let email := author.optionalGet (js "email")
      if email.truthy then
        match email with
        | .str address =>
          let nameParts :=
            splitOnAny (fun c => c == 46 || c == 95 || c == 45) ((split 64 address).headD [])
          .ok (joinWithSpace (nameParts.map fun p => toUpperCase (p.take 1) ++ p.drop 1))
        | _ => .error .typeError
      else
        .ok (if strictEquals (author.optionalGet (js "role")) (.str (js "PROFESSOR"))
          then js "Professor" else js "Student")

/-- The function `isProfessorQuestion` (lines 183-185). -/
def isProfessorQuestion (question : JSVal) : Bool :=
  strictEquals ((question.get (js "author")).optionalGet (js "role")) (.str (js "PROFESSOR"))

/-- The condition of the PROFESSOR badge of a question card in the grouped
view (line 367). -/
def groupedQuestionBadge (mainQuestion : JSVal) : Bool := isProfessorQuestion mainQuestion

/-- The condition of the PROFESSOR badge of a question card in the regular
view (line 821). -/
def regularQuestionBadge (question : JSVal) : Bool := isProfessorQuestion question

/-- The condition of the PROFESSOR badge of an answer (lines 688 and 925):
`answer.author?.role === 'PROFESSOR' && !answer.anonymous`. -/
def answerBadge (answer : JSVal) : Bool :=
  strictEquals ((answer.get (js "author")).optionalGet (js "role")) (.str (js "PROFESSOR")) &&
    !(answer.get (js "anonymous")).truthy

end QuestionsTab

/-! ## The registration form (pages/Register.js) -/

/-- The characters `trim` removes: white space and line terminators. -/
def isTrimmed (c : Nat) : Bool :=
  c == 9 || c == 10 || c == 11 || c == 12 || c == 13 || c == 32 || c == 0xA0 || c == 0x1680 ||
    (0x2000 ≤ c && c ≤ 0x200A) || c == 0x2028 || c == 0x2029 || c == 0x202F || c == 0x205F ||
    c == 0x3000 || c == 0xFEFF

/-- `s.trim()`. -/
def trim (s : JSString) : JSString :=
  ((s.dropWhile isTrimmed).reverse.dropWhile isTrimmed).reverse

namespace Register

/-- The state `formData` of the form; its fields hold the values of the
inputs, which are strings. -/
structure FormData where
  email : JSString
  password : JSString
  role : JSString

/-- What `handleSubmit` does with the form: it shows an error and makes no
request, or it calls `register(formData)`. -/
inductive Submission where
  | error (message : JSString)
  | register (formData : FormData)

/-- The validation of `handleSubmit` (lines 36-58). -/
def handleSubmit (formData : FormData) : Submission :=
  if (trim formData.email).isEmpty then .error (js "Email is required")
  else if (trim formData.password).isEmpty then .error (js "Password is required")
  else if formData.password.length < 6 then
    .error (js "Password must be at least 6 characters long")
  else if formData.role.isEmpty then .error (js "Please select a role")
  else .register formData

end Register

/-! ## Notifications (components/Navbar.js, lines 83-132) -/

/-- An entry of the notification list. -/
structure Notification where
  type : JSString
  courseId : JSVal
  courseName : JSVal
  title : JSVal
  createdAt : JSVal
  id : JSVal

/-- The insertion of `a` into a list in the order `le`, before the first
element that `a` may precede. -/
def orderedInsertBy {α : Type} (le : α → α → Bool) (a : α) : List α → List α
  | [] => [a]
  | b :: l => if le a b then a :: b :: l else b :: orderedInsertBy le a l

/-- A stable sort by insertion. `Array.prototype.sort` is stable, and for a
consistent comparator the stable arrangement in its order is unique, so this
is what it returns; for a comparator that is not consistent the standard
leaves the order to the implementation. -/
def stableSortBy {α : Type} (le : α → α → Bool) : List α → List α
  | [] => []
  | a :: l => orderedInsertBy le a (stableSortBy le l)

namespace Navbar

/-- The object built for a question or an announcement `item` of a course
(lines 100-116). -/
def entry (type : JSString) (course item : JSVal) : Notification :=
  { type := type
    courseId := course.get (js "id")
    courseName := course.get (js "name")
    title := item.get (js "title")
    createdAt := item.get (js "createdAt")
    id := item.get (js "id") }

/-- The callback of `map` on an `item`: reading a property of an item that is
null or undefined throws. -/
def toNotification (type : JSString) (course item : JSVal) : Except JSError Notification :=
  if item.isNullish then .error .typeError
  else .ok (entry type course item)

/-- The `map` of a list of items to notifications. -/
def toNotifications (type : JSString) (course : JSVal) :
    List JSVal → Except JSError (List Notification)
  | [] => .ok []
  | item :: rest =>
    match toNotification type course item, toNotifications type course rest with
    | .ok n, .ok ns => .ok (n :: ns)
    | .error e, _ => .error e
    | _, .error e => .error e

/-- A course of the array `courses` with what its two requests gave: nothing
when one of them was rejected, else the arrays of its questions and of its
announcements, in the order of the server. -/
structure CourseFetch where
  course : JSVal
  result : Option (List JSVal × List JSVal)

/-- The entries a course adds to `allNotifications` (lines 94-121): its first
three questions and its first two announcements, or nothing when something
threw inside the `try`. -/
def courseEntries (fetch : CourseFetch) : List Notification :=
  match fetch.result with
  | none => []
  | some (questions, announcements) =>
    match toNotifications (js "question") fetch.course (questions.take 3),
      toNotifications (js "announcement") fetch.course (announcements.take 2) with
    | .ok qs, .ok as => qs ++ as
    | _, _ => []

/-- The array `allNotifications` once every course has settled; the courses
are listed in the order in which their requests settled. -/
def allNotifications (fetches : List CourseFetch) : List Notification :=
  fetches.flatMap courseEntries

/-- The comparator `(a, b) => new Date(b.createdAt) - new Date(a.createdAt)`:
`dateValue` is the time value of `new Date(v)` in milliseconds, `none` for an
invalid date, and the result `none` is NaN. -/
def compareByDate (dateValue : JSVal → Option Int) (a b : Notification) : Option Int :=
  match dateValue b.createdAt, dateValue a.createdAt with
  | some tb, some ta => some (tb - ta)
  | _, _ => none

/-- Whether the sort may leave `a` before `b`: the comparator is not positive
(`sort` takes NaN for zero). -/
def mayPrecede (dateValue : JSVal → Option Int) (a b : Notification) : Bool :=
  match compareByDate dateValue a b with
  | some d => decide (d ≤ 0)
  | none => true

/-- The list handed to `setNotifications` (lines 125-126): the collected
entries sorted by date, cut to ten. No list is handed over when a course of
the array is null or undefined: reading `course.id` throws inside the `try`
of that course and once more inside its `catch`, so `Promise.all` is rejected
and the outer `catch` is entered (lines 93-129). -/
def fetchNotifications (dateValue : JSVal → Option Int) (fetches : List CourseFetch) :
    Option (List Notification) :=
  if fetches.all (fun fetch => !fetch.course.isNullish) then
    some ((stableSortBy (mayPrecede dateValue) (allNotifications fetches)).take 10)
  else none

/-- The time value of `new Date(v)` for a `v` that is `undefined` or a number
written as an integer: `undefined` gives an invalid date, and an integer is
its own time value when it is at most 8.64e15 in absolute value and gives an
invalid date beyond. It stands for `dateValue` in the examples, whose
`createdAt` are such values; it is not meant for the other values. -/
def integerDate : JSVal → Option Int
  | .num neg mant 0 =>
    if mant ≤ 8640000000000000 then some (if neg then -(mant : Int) else (mant : Int)) else none
  | _ => none

/-- An item with the given `id` and `createdAt`, as the examples use them. -/
def item (id createdAt : Nat) : JSVal :=
  .obj [(js "id", .num false id 0), (js "createdAt", .num false createdAt 0)]

/-- An example of what `fetchNotifications` collects from: three courses with
four, three and three questions and with three, two and two announcements,
so that fifteen entries are collected. -/
def threeCourses : List CourseFetch :=
  [{ course := .obj [(js "id", .num false 1 0)]
     result := some ([item 11 1000, item 12 9000, item 13 4000, item 14 99000],
                     [item 15 12000, item 16 2000, item 17 98000]) },
   { course := .obj [(js "id", .num false 2 0)]
     result := some ([item 21 15000, item 22 3000, item 23 8000],
                     [item 24 5000, item 25 14000]) },
   { course := .obj [(js "id", .num false 3 0)]
     result := some ([item 31 7000, item 32 13000, item 33 6000],
                     [item 34 11000, item 35 10000]) }]

end Navbar

/-! ## Batch selection (components/QuestionsTab.js) -/

/-- `new Set(array)`, as the list of its elements in insertion order. -/
def setOfArray {α : Type} [DecidableEq α] (array : List α) : List α :=
  array.foldl (fun acc x => if x ∈ acc then acc else acc ++ [x]) []

/-- The toggle of an element of a set: deleted when present, added at the end
when absent. -/
def setToggle {α : Type} [DecidableEq α] (x : α) (set : List α) : List α :=
  if x ∈ set then set.filter (fun y => y ≠ x) else set ++ [x]

namespace QuestionsTab

/-- A group of the grouped view, by the ids of its questions:
`mainQuestion.id` and the `s.question.id` of its `similarQuestions`. -/
structure Group (α : Type) where
  mainQuestion : α
  similarQuestions : List α

/-- The constant `allGroupQuestionIds` of a group (line 493). -/
def allGroupQuestionIds {α : Type} (group : Group α) : List α :=
  group.mainQuestion :: group.similarQuestions

/-- The states `expandedGroupIds` and `selectedBatchQuestions`, two sets. -/
structure BatchState (α : Type) where
  expandedGroupIds : List α
  selectedBatchQuestions : List α

/-- The click on the accordion of a group (lines 440-447): the group is
toggled in `expandedGroupIds`, and when it was not expanded the selection
becomes the set of all its ids (`initializeBatchSelection`). -/
def clickAccordion {α : Type} [DecidableEq α] (group : Group α) (s : BatchState α) :
    BatchState α :=
  let wasExpanded := decide (group.mainQuestion ∈ s.expandedGroupIds)
  let expanded := setToggle group.mainQuestion s.expandedGroupIds
  if wasExpanded then { s with expandedGroupIds := expanded }
  else
    { expandedGroupIds := expanded
      selectedBatchQuestions := setOfArray (allGroupQuestionIds group) }

/-- The function `toggleBatchQuestion` (lines 211-221), called by a checkbox. -/
def toggleBatchQuestion {α : Type} [DecidableEq α] (questionId : α) (s : BatchState α) :
    BatchState α :=
  { s with selectedBatchQuestions := setToggle questionId s.selectedBatchQuestions }

/-- A click in the grouped view of a professor: on the accordion of a group,
or on the checkbox of a question in the batch panel of a group. -/
inductive BatchClick (α : Type) where
  | accordion (group : Group α)
  | checkbox (group : Group α) (questionId : α)

/-- The state after a click. The accordion is there for a group with similar
questions; a checkbox is there for an id of a group with similar questions
whose panel is expanded. A click on what is not there changes nothing. -/
def click {α : Type} [DecidableEq α] (s : BatchState α) : BatchClick α → BatchState α
  | .accordion group =>
    if group.similarQuestions.length > 0 then clickAccordion group s else s
  | .checkbox group questionId =>
    if group.similarQuestions.length > 0 ∧ group.mainQuestion ∈ s.expandedGroupIds ∧
        questionId ∈ allGroupQuestionIds group then
      toggleBatchQuestion questionId s
    else s

/-- The state after a sequence of clicks from the initial state, in which both
sets are empty. -/
def clicks {α : Type} [DecidableEq α] (sequence : List (BatchClick α)) : BatchState α :=
  sequence.foldl click { expandedGroupIds := [], selectedBatchQuestions := [] }

/-- The constant `selectedCount` of the batch panel of a group (line 495),
which the button shows in `POST TO n QUESTIONS`. -/
def selectedCount {α : Type} [DecidableEq α] (group : Group α) (s : BatchState α) : Nat :=
  ((allGroupQuestionIds group).filter fun id => id ∈ s.selectedBatchQuestions).length

/-- The ids the batch button of any group hands to `handleBatchAnswer`
(lines 635-636): `Array.from(selectedBatchQuestions)`. -/
def selectedIds {α : Type} (s : BatchState α) : List α := s.selectedBatchQuestions

/-! ### The status filter -/

/-- The test `q.answers.length === 0`; the read of `length` throws when
`answers` is null or undefined. -/
def hasNoAnswers (q : JSVal) : Except JSError Bool :=
  match q.get (js "answers") with
  | .undefined => .error .typeError
  | .null => .error .typeError
  | .arr items => .ok (items.length == 0)
  | .str s => .ok (s.length == 0)
  | .obj props => .ok (strictEquals (lookupProp (js "length") props) (.num false 0 0))
  | _ => .ok false

/-- The comparison `v > 0`; `convert` gives it for a string or an object,
which the comparison first converts to a number. -/
def greaterThanZero (convert : JSVal → Bool) : JSVal → Bool
  | .undefined => false
  | .null => false
  | .bool b => b
  | .num neg mant exp => !neg && numNonZero mant exp
  | v => convert v

/-- The test `q.answers.length > 0`. -/
def hasAnswers (convert : JSVal → Bool) (q : JSVal) : Except JSError Bool :=
  match q.get (js "answers") with
  | .undefined => .error .typeError
  | .null => .error .typeError
  | .arr items => .ok (decide (0 < items.length))
  | .str s => .ok (decide (0 < s.length))
  | .obj props => .ok (greaterThanZero convert (lookupProp (js "length") props))
  | _ => .ok false

/-- The number of answers of a question whose `answers` is an array. -/
def answerCount (q : JSVal) : Nat :=
  match q.get (js "answers") with
  | .arr items => items.length
  | _ => 0

/-- `array.filter(callback)` for a callback that may throw. -/
def filterThrowing (callback : JSVal → Except JSError Bool) :
    List JSVal → Except JSError (List JSVal)
  | [] => .ok []
  | q :: rest =>
    match callback q with
    | .error e => .error e
    | .ok keep =>
      match filterThrowing callback rest with
      | .error e => .error e
      | .ok kept => .ok (if keep then q :: kept else kept)

/-- The constant `filteredQuestions` (lines 164-169). -/
def filteredQuestions (convert : JSVal → Bool) (statusFilter : JSString)
    (questions : List JSVal) : Except JSError (List JSVal) :=
  filterThrowing
    (fun q =>
      if statusFilter = js "all" then .ok true
      else if statusFilter = js "unanswered" then hasNoAnswers q
      else if statusFilter = js "answered" then hasAnswers convert q
      else .ok true)
    questions

/-- The constant `unansweredCount` (line 232). -/
def unansweredCount (questions : List JSVal) : Except JSError Nat :=
  match filterThrowing hasNoAnswers questions with
  | .ok kept => .ok kept.length
  | .error e => .error e

/-- The constant `answeredCount` (line 233). -/
def answeredCount (convert : JSVal → Bool) (questions : List JSVal) : Except JSError Nat :=
  match filterThrowing (hasAnswers convert) questions with
  | .ok kept => .ok kept.length
  | .error e => .error e

end QuestionsTab

/-! ## Lemmas on the built-ins and on the session -/

theorem split_ne_nil (sep : Nat) (s : JSString) : split sep s ≠ [] := by
  induction s with
  | nil => simp [split]
  | cons c cs ih =>
    unfold split
    split_ifs
    · simp
    · cases h : split sep cs with
      | nil => simp
      | cons seg segs => simp

theorem split_of_not_mem (sep : Nat) (s : JSString) (h : sep ∉ s) : split sep s = [s] := by
  induction s with
  | nil => rfl
  | cons c cs ih =>
    have hc : c ≠ sep := fun e => h (by simp [e])
    have hcs : sep ∉ cs := fun m => h (List.mem_cons_of_mem _ m)
    simp [split, hc, ih hcs]

theorem split_append_sep (sep : Nat) (h rest : JSString) (hh : sep ∉ h) :
    split sep (h ++ sep :: rest) = h :: split sep rest := by
  induction h with
  | nil => simp [split]
  | cons c cs ih =>
    have hc : c ≠ sep := fun e => hh (by simp [e])
    have hcs : sep ∉ cs := fun m => hh (List.mem_cons_of_mem _ m)
    simp [split, hc, ih hcs]

theorem split_second (h m : JSString) (tail : List JSString) (rest : JSString)
    (hh : 46 ∉ h) (hr : split 46 rest = m :: tail) :
    (split 46 (h ++ 46 :: rest))[1]? = some m := by
  rw [split_append_sep 46 h rest hh, hr]; simp

theorem decodeSextets_encodeSextets (bytes : List Nat) (hb : ∀ b ∈ bytes, b < 256) :
    decodeSextets (encodeSextets bytes) = bytes := by
  induction bytes using encodeSextets.induct with
  | case1 x y z rest ih =>
    have hx : x < 256 := hb x (by simp)
    have hy : y < 256 := hb y (by simp)
    have hz : z < 256 := hb z (by simp)
    have hrest : ∀ b ∈ rest, b < 256 := fun b m => hb b (by simp [m])
    simp only [encodeSextets, decodeSextets, ih hrest]
    congr 1
    · omega
    · congr 1
      · omega
      · congr 1
        omega
  | case2 x y =>
    have hx : x < 256 := hb x (by simp)
    have hy : y < 256 := hb y (by simp)
    simp only [encodeSextets, decodeSextets]
    congr 1
    · omega
    · congr 1
      omega
  | case3 x =>
    have hx : x < 256 := hb x (by simp)
    simp only [encodeSextets, decodeSextets]
    congr 1
    omega
  | case4 => rfl


theorem base64urlChar_facts : ∀ v < 64,
    base64Value (if (if base64urlChar v = 45 then 43 else base64urlChar v) = 95 then 47
      else (if base64urlChar v = 45 then 43 else base64urlChar v)) = some v ∧
    isAsciiWhitespace (if (if base64urlChar v = 45 then 43 else base64urlChar v) = 95 then 47
      else (if base64urlChar v = 45 then 43 else base64urlChar v)) = false ∧
    (if (if base64urlChar v = 45 then 43 else base64urlChar v) = 95 then 47
      else (if base64urlChar v = 45 then 43 else base64urlChar v)) ≠ 61 ∧
    base64urlChar v ≠ 46 ∧ base64urlChar v ≠ 61 := by
  decide

theorem encodeSextets_lt (bytes : List Nat) (hb : ∀ b ∈ bytes, b < 256) :
    ∀ v ∈ encodeSextets bytes, v < 64 := by
  induction bytes using encodeSextets.induct with
  | case1 x y z rest ih =>
    have hx : x < 256 := hb x (by simp)
    have hy : y < 256 := hb y (by simp)
    have hz : z < 256 := hb z (by simp)
    have hrest : ∀ b ∈ rest, b < 256 := fun b m => hb b (by simp [m])
    intro v hv
    simp only [encodeSextets, List.mem_cons] at hv
    rcases hv with rfl | rfl | rfl | rfl | hv
    · omega
    · omega
    · omega
    · omega
    · exact ih hrest v hv
  | case2 x y =>
    have hx : x < 256 := hb x (by simp)
    have hy : y < 256 := hb y (by simp)
    intro v hv
    simp only [encodeSextets, List.mem_cons, List.mem_singleton] at hv
    rcases hv with rfl | rfl | rfl | hv
    · omega
    · omega
    · omega
    · simp at hv
  | case3 x =>
    have hx : x < 256 := hb x (by simp)
    intro v hv
    simp only [encodeSextets, List.mem_cons, List.mem_singleton] at hv
    rcases hv with rfl | rfl | hv
    · omega
    · omega
    · simp at hv
  | case4 => simp [encodeSextets]

theorem encodeSextets_length (bytes : List Nat) : (encodeSextets bytes).length % 4 ≠ 1 := by
  induction bytes using encodeSextets.induct with
  | case1 x y z rest ih =>
    simp only [encodeSextets, List.length_cons]
    omega
  | case2 x y => simp [encodeSextets]
  | case3 x => simp [encodeSextets]
  | case4 => simp [encodeSextets]

theorem stripPadding_of_no_pad (b : JSString) (hb : ∀ c ∈ b, c ≠ 61) : stripPadding b = b := by
  unfold stripPadding
  split_ifs
  · split
    · rename_i r h
      exact absurd rfl (hb 61 (by rw [← List.mem_reverse, h]; simp))
    · rename_i r _ h
      exact absurd rfl (hb 61 (by rw [← List.mem_reverse, h]; simp))
    · rfl
  · rfl

theorem stripPadding_one (b : JSString) (hb : ∀ c ∈ b, c ≠ 61) (hlen : (b.length + 1) % 4 = 0) :
    stripPadding (b ++ [61]) = b := by
  unfold stripPadding
  have hl : (b ++ [61]).length % 4 = 0 := by simpa using hlen
  rw [if_pos hl]
  split
  · rename_i r h
    simp only [List.reverse_append, List.reverse_cons, List.reverse_nil, List.nil_append,
      List.singleton_append, List.cons.injEq, true_and] at h
    exact absurd rfl (hb 61 (by rw [← List.mem_reverse, h]; simp))
  · rename_i r _ h
    simp only [List.reverse_append, List.reverse_cons, List.reverse_nil, List.nil_append,
      List.singleton_append, List.cons.injEq, true_and] at h
    rw [← h, List.reverse_reverse]
  · rename_i h1 h2
    exact absurd (by simp) (h2 b.reverse)

theorem stripPadding_two (b : JSString) (hlen : (b.length + 2) % 4 = 0) :
    stripPadding (b ++ [61, 61]) = b := by
  unfold stripPadding
  have hl : (b ++ [61, 61]).length % 4 = 0 := by simpa using hlen
  have hrev : (b ++ [61, 61]).reverse = 61 :: 61 :: b.reverse := by simp
  rw [if_pos hl, hrev]
  simp


/-- The repair of the alphabet applied to one character. -/
theorem replaceAll_replaceAll (s : JSString) :
    replaceAll 95 47 (replaceAll 45 43 s) =
      s.map fun c => if (if c = 45 then 43 else c) = 95 then 47 else (if c = 45 then 43 else c) := by
  simp [replaceAll, List.map_map, Function.comp_def]

theorem base64Values_map (sx : List Nat) (f : Nat → Nat)
    (hf : ∀ v ∈ sx, base64Value (f v) = some v) : base64Values (sx.map f) = some sx := by
  induction sx with
  | nil => rfl
  | cons v vs ih =>
    have h1 := hf v (by simp)
    have h2 := ih fun w m => hf w (by simp [m])
    simp [base64Values, h1, h2]

theorem atob_base64urlEncode (pad : Bool) (bytes : List Nat) (hb : ∀ b ∈ bytes, b < 256) :
    atob (replaceAll 95 47 (replaceAll 45 43 (base64urlEncode pad bytes))) = .ok bytes := by
  have hlt := encodeSextets_lt bytes hb
  have hlen := encodeSextets_length bytes
  generalize hsx : encodeSextets bytes = sx at hlt hlen
  -- the repaired body and what is known of its characters
  let g : Nat → Nat := fun v =>
    if (if base64urlChar v = 45 then 43 else base64urlChar v) = 95 then 47
    else (if base64urlChar v = 45 then 43 else base64urlChar v)
  have hval : ∀ v ∈ sx, base64Value (g v) = some v := fun v m => (base64urlChar_facts v (hlt v m)).1
  have hws : ∀ c ∈ sx.map g, isAsciiWhitespace c = false := by
    intro c hc
    obtain ⟨v, hv, rfl⟩ := List.mem_map.1 hc
    exact (base64urlChar_facts v (hlt v hv)).2.1
  have hne : ∀ c ∈ sx.map g, c ≠ 61 := by
    intro c hc
    obtain ⟨v, hv, rfl⟩ := List.mem_map.1 hc
    exact (base64urlChar_facts v (hlt v hv)).2.2.1
  have hbody : (sx.map g).length = sx.length := by simp
  -- the data handed to atob is the repaired body followed by its padding
  obtain ⟨k, hk, hdata⟩ : ∃ k, (k = 0 ∨ (k = 1 ∧ (sx.length + 1) % 4 = 0) ∨
      (k = 2 ∧ (sx.length + 2) % 4 = 0)) ∧
      replaceAll 95 47 (replaceAll 45 43 (base64urlEncode pad bytes)) =
        sx.map g ++ List.replicate k 61 := by
    cases pad with
    | false =>
      refine ⟨0, Or.inl rfl, ?_⟩
      simp [base64urlEncode, hsx, replaceAll_replaceAll, List.map_map, Function.comp_def, g]
    | true =>
      refine ⟨(4 - sx.length % 4) % 4, by omega, ?_⟩
      simp [base64urlEncode, hsx, replaceAll_replaceAll, List.map_map, Function.comp_def, g]
  have hfilter : (sx.map g ++ List.replicate k 61).filter (fun c => !isAsciiWhitespace c) =
      sx.map g ++ List.replicate k 61 := by
    rw [List.filter_eq_self]
    intro c hc
    rcases List.mem_append.1 hc with hc | hc
    · simp [hws c hc]
    · rw [List.eq_of_mem_replicate hc]; rfl
  have hstrip : stripPadding (sx.map g ++ List.replicate k 61) = sx.map g := by
    rcases hk with rfl | ⟨rfl, h1⟩ | ⟨rfl, h2⟩
    · simpa using stripPadding_of_no_pad _ hne
    · exact stripPadding_one _ hne (by simpa using h1)
    · exact stripPadding_two _ (by simpa using h2)
  unfold atob
  simp only [hdata, hfilter, hstrip]
  rw [if_neg (by simpa using hlen), base64Values_map sx g hval]
  simp only
  rw [← hsx, decodeSextets_encodeSextets bytes hb]

theorem sliceLast2_toString16 (b : Nat) (hb : b < 256) :
    sliceLast2 (js "00" ++ toString16 b) = [hexDigit (b / 16), hexDigit (b % 16)] := by
  have h00 : js "00" = [48, 48] := rfl
  rw [h00]
  by_cases h : b < 16
  · have h0 : b / 16 = 0 := by omega
    have hm : b % 16 = b := by omega
    simp [toString16, toString16Aux, h, sliceLast2, h0, hm, hexDigit]
  · obtain ⟨n, rfl⟩ : ∃ n, b = n + 1 := ⟨b - 1, by omega⟩
    have h1 : (n + 1) / 16 < 16 := by omega
    simp [toString16, toString16Aux, h, h1, sliceLast2]

theorem hexValue_hexDigit : ∀ d < 16, hexValue (hexDigit d) = some d := by decide

theorem uriLex_percentEscape (bytes : List Nat) (hb : ∀ b ∈ bytes, b < 256) :
    uriLex ((bytes.map percentEscape).flatten) = .ok (bytes.map UriItem.octet) := by
  induction bytes with
  | nil => rfl
  | cons b bs ih =>
    have hlt : b < 256 := hb b (by simp)
    have ih1 := ih fun c m => hb c (by simp [m])
    have h1 := hexValue_hexDigit (b / 16) (by omega)
    have h2 := hexValue_hexDigit (b % 16) (by omega)
    have hb16 : 16 * (b / 16) + b % 16 = b := by omega
    simp [percentEscape, sliceLast2_toString16 b hlt, uriLex, h1, h2, ih1, hb16]


theorem utf8Encode_lt (cp : Nat) (h : IsScalar cp) : ∀ b ∈ utf8Encode cp, b < 256 := by
  unfold IsScalar at h
  intro b hb
  unfold utf8Encode at hb
  split_ifs at hb <;> simp only [List.mem_cons, List.mem_singleton, List.not_mem_nil, or_false] at hb <;>
    omega

theorem isCont_add (x : Nat) (hx : x < 64) : isCont (0x80 + x) = true := by
  simp [isCont]; omega

theorem uriDecodeItems_utf8Encode (cp : Nat) (h : IsScalar cp) (items : List UriItem) :
    uriDecodeItems none ((utf8Encode cp).map UriItem.octet ++ items) =
      emit (utf16Units cp) (uriDecodeItems none items) := by
  unfold IsScalar at h
  by_cases h1 : cp < 0x80
  · have hu : utf16Units cp = [cp] := by simp [utf16Units]; omega
    simp [utf8Encode, h1, uriDecodeItems, hu]
  · by_cases h2 : cp < 0x800
    · have hu : utf16Units cp = [cp] := by simp [utf16Units]; omega
      have e1 : ¬ (0xC0 + cp / 64 < 0x80) := by omega
      have e2 : ¬ (0xC0 + cp / 64 < 0xC0) := by omega
      have e3 : 0xC0 + cp / 64 < 0xE0 := by omega
      have c1 := isCont_add (cp % 64) (by omega)
      have e5 : (0xC0 + cp / 64 - 0xC0) * 64 + (0x80 + cp % 64 - 0x80) = cp := by omega
      have e6 : 0x80 ≤ cp ∧ cp < 0x110000 ∧ ¬ (0xD800 ≤ cp ∧ cp < 0xE000) := by omega
      simp only [utf8Encode, if_neg h1, if_pos h2, List.map_cons, List.map_nil, List.cons_append,
        List.nil_append, uriDecodeItems, if_neg e1, if_neg e2, if_pos e3, c1, if_true, e5,
        le_refl, if_pos e6, hu]
    · by_cases h3 : cp < 0x10000
      · have hu : utf16Units cp = [cp] := by simp [utf16Units]; omega
        have e1 : ¬ (0xE0 + cp / 4096 < 0x80) := by omega
        have e2 : ¬ (0xE0 + cp / 4096 < 0xC0) := by omega
        have e3 : ¬ (0xE0 + cp / 4096 < 0xE0) := by omega
        have e4 : 0xE0 + cp / 4096 < 0xF0 := by omega
        have c1 := isCont_add (cp / 64 % 64) (by omega)
        have c2 := isCont_add (cp % 64) (by omega)
        have e5 : ((0xE0 + cp / 4096 - 0xE0) * 64 + (0x80 + cp / 64 % 64 - 0x80)) * 64 +
            (0x80 + cp % 64 - 0x80) = cp := by omega
        have e6 : 0x800 ≤ cp ∧ cp < 0x110000 ∧ ¬ (0xD800 ≤ cp ∧ cp < 0xE000) := by omega
        have n1 : ¬ (2 ≤ 1) := by omega
        simp only [utf8Encode, if_neg h1, if_neg h2, if_pos h3, List.map_cons, List.map_nil,
          List.cons_append, List.nil_append, uriDecodeItems, if_neg e1, if_neg e2, if_neg e3,
          if_pos e4, c1, c2, if_true, if_neg n1, Nat.add_one_sub_one, Nat.reduceSub, e5,
          le_refl, if_pos e6, hu]
      · have e1 : ¬ (0xF0 + cp / 262144 < 0x80) := by omega
        have e2 : ¬ (0xF0 + cp / 262144 < 0xC0) := by omega
        have e3 : ¬ (0xF0 + cp / 262144 < 0xE0) := by omega
        have e4 : ¬ (0xF0 + cp / 262144 < 0xF0) := by omega
        have e5 : 0xF0 + cp / 262144 < 0xF8 := by omega
        have c1 := isCont_add (cp / 4096 % 64) (by omega)
        have c2 := isCont_add (cp / 64 % 64) (by omega)
        have c3 := isCont_add (cp % 64) (by omega)
        have e6 : (((0xF0 + cp / 262144 - 0xF0) * 64 + (0x80 + cp / 4096 % 64 - 0x80)) * 64 +
            (0x80 + cp / 64 % 64 - 0x80)) * 64 + (0x80 + cp % 64 - 0x80) = cp := by omega
        have e7 : 0x10000 ≤ cp ∧ cp < 0x110000 ∧ ¬ (0xD800 ≤ cp ∧ cp < 0xE000) := by omega
        have n1 : ¬ (3 ≤ 1) := by omega
        have n2 : ¬ (2 ≤ 1) := by omega
        simp only [utf8Encode, if_neg h1, if_neg h2, if_neg h3, List.map_cons, List.map_nil,
          List.cons_append, List.nil_append, uriDecodeItems, if_neg e1, if_neg e2, if_neg e3,
          if_neg e4, if_pos e5, c1, c2, c3, if_true, if_neg n1, if_neg n2, Nat.reduceSub, e6,
          le_refl, if_pos e7]

theorem uriDecodeItems_utf8 (text : List Nat) (h : ∀ cp ∈ text, IsScalar cp) :
    uriDecodeItems none ((text.flatMap utf8Encode).map UriItem.octet) = .ok (toUtf16 text) := by
  induction text with
  | nil => rfl
  | cons cp rest ih =>
    have ih1 := ih fun c m => h c (by simp [m])
    rw [List.flatMap_cons, List.map_append, uriDecodeItems_utf8Encode cp (h cp (by simp)), ih1]
    simp [toUtf16, emit]

theorem utf8_bytes_lt (text : List Nat) (h : ∀ cp ∈ text, IsScalar cp) :
    ∀ b ∈ text.flatMap utf8Encode, b < 256 := by
  intro b hb
  obtain ⟨cp, hcp, hb1⟩ := List.mem_flatMap.1 hb
  exact utf8Encode_lt cp (h cp hcp) b hb1


theorem base64urlEncode_no_dot (pad : Bool) (bytes : List Nat) (hb : ∀ b ∈ bytes, b < 256) :
    46 ∉ base64urlEncode pad bytes := by
  have hlt := encodeSextets_lt bytes hb
  have hbody : 46 ∉ (encodeSextets bytes).map base64urlChar := by
    intro hm
    obtain ⟨v, hv, he⟩ := List.mem_map.1 hm
    exact (base64urlChar_facts v (hlt v hv)).2.2.2.1 he
  cases pad with
  | false => simpa [base64urlEncode] using hbody
  | true =>
    intro hm
    simp only [base64urlEncode, if_true, List.mem_append] at hm
    rcases hm with hm | hm
    · exact hbody hm
    · have := List.eq_of_mem_replicate hm
      omega

theorem decodeTokenTry_credential (parse : JSString → Except JSError JSVal) (pad : Bool)
    (header : JSString) (text : List Nat) (signature : JSString)
    (hh : 46 ∉ header) (ht : ∀ cp ∈ text, IsScalar cp) :
    decodeTokenTry parse (credential pad header text signature) = parse (toUtf16 text) := by
  have hb := utf8_bytes_lt text ht
  have hdot := base64urlEncode_no_dot pad _ hb
  have hsplit : (split 46 (credential pad header text signature))[1]? =
      some (base64urlEncode pad (text.flatMap utf8Encode)) := by
    unfold credential
    exact split_second header _ (split 46 signature) _ hh (split_append_sep 46 _ signature hdot)
  unfold decodeTokenTry
  simp only [hsplit, atob_base64urlEncode pad _ hb, decodeURIComponent,
    uriLex_percentEscape _ hb, uriDecodeItems_utf8 text ht]

theorem decodeToken_total (parse : JSString → Except JSError JSVal) (token : JSString) :
    ∃ v, decodeToken parse token = .ok v := by
  unfold decodeToken
  cases decodeTokenTry parse token with
  | ok v => exact ⟨v, rfl⟩
  | error e => exact ⟨.null, rfl⟩

theorem decodeToken_of_error (parse : JSString → Except JSError JSVal) (token : JSString)
    (e : JSError) (h : decodeTokenTry parse token = .error e) :
    decodeToken parse token = .ok .null := by
  simp [decodeToken, h]

theorem decodeTokenTry_of_failure (parse : JSString → Except JSError JSVal) (token : JSString)
    (h : DecodeFailure parse token) : ∃ e, decodeTokenTry parse token = .error e := by
  cases h with
  | split h1 => exact ⟨.typeError, by simp [decodeTokenTry, h1]⟩
  | base64 seg e h1 h2 => exact ⟨e, by simp [decodeTokenTry, h1, h2]⟩
  | utf8 seg binary e h1 h2 h3 => exact ⟨e, by simp [decodeTokenTry, h1, h2, h3]⟩
  | json seg binary text e h1 h2 h3 h4 => exact ⟨e, by simp [decodeTokenTry, h1, h2, h3, h4]⟩


theorem effect_spec (parse : JSString → Except JSError JSVal) (s : AppState) :
    ∃ s1, effect parse s = .ok s1 ∧ s1.loading = false ∧ s1.token = s.token ∧
      s1.stored = s.stored ∧ s1.href = s.href ∧
      (passesGuard parse s.token = true → s1.user.isSome = true) ∧
      (passesGuard parse s.token = false → s1.user = s.user) := by
  unfold effect passesGuard
  cases ht : s.token with
  | none => exact ⟨_, rfl, rfl, rfl, rfl, rfl, by simp, by simp⟩
  | some token =>
    obtain ⟨v, hv⟩ := decodeToken_total parse token
    simp only [hv]
    by_cases h1 : truthyString (some token) = true
    · by_cases h2 : (v.truthy && (v.get (js "sub")).truthy) = true
      · simp only [h1, h2, if_true]
        exact ⟨_, rfl, rfl, rfl, rfl, rfl, by simp, by simp⟩
      · simp only [h1, h2, if_true, if_false]
        exact ⟨_, rfl, rfl, rfl, rfl, rfl, by simp [h2], by simp⟩
    · simp only [h1, if_false]
      exact ⟨_, rfl, rfl, rfl, rfl, rfl, by simp, by simp⟩

theorem responseInterceptor_login (response : Option ErrorResponse) (s : AppState) :
    responseInterceptor (postError (js "/auth/login") response) s = s := by
  have h : includesStr (js "/auth/") (js "/auth/login") = true := by decide
  simp [responseInterceptor, postError, h]

theorem responseInterceptor_register (response : Option ErrorResponse) (s : AppState) :
    responseInterceptor (postError (js "/auth/register") response) s = s := by
  have h : includesStr (js "/auth/") (js "/auth/register") = true := by decide
  simp [responseInterceptor, postError, h]

theorem step_spec (parse : JSString → Except JSError JSVal) (s : AppState) (a : Action) :
    ∃ s1, step parse s a = .ok s1 ∧
      ((passesGuard parse s.token = true → s.user.isSome = true) →
        (passesGuard parse s1.token = true → s1.user.isSome = true)) ∧
      (a.isLoginSuccess = false →
        (s.user.isSome = true → passesGuard parse s.token = true) →
        (s1.user.isSome = true → passesGuard parse s1.token = true)) := by
  cases a with
  | login outcome =>
    cases outcome with
    | fulfilled data =>
      simp only [step, loginState, afterUpdate]
      split_ifs with h
      · exact ⟨_, rfl, fun _ _ => rfl, by simp [Action.isLoginSuccess]⟩
      · obtain ⟨s1, h1, -, -, -, -, h5, h6⟩ := effect_spec parse
          { s with token := some data.token
                   user := some { id := data.id, email := data.email, role := data.role }
                   stored := some data.token }
        refine ⟨s1, h1, fun _ _ => ?_, by simp [Action.isLoginSuccess]⟩
        cases hg : passesGuard parse (some data.token) with
        | true => exact h5 hg
        | false => rw [h6 hg]; rfl
    | rejected response =>
      simp only [step, loginState, responseInterceptor_login]
      exact ⟨s, rfl, id, fun _ => id⟩
  | register outcome =>
    cases outcome with
    | fulfilled data => exact ⟨s, rfl, id, fun _ => id⟩
    | rejected response =>
      simp only [step, registerState, responseInterceptor_register]
      exact ⟨s, rfl, id, fun _ => id⟩
  | logout =>
    simp only [step, logoutState, afterUpdate]
    split_ifs with h
    · exact ⟨_, rfl, by simp [passesGuard], by simp⟩
    · obtain ⟨s1, h1, -, h3, -, -, -, h6⟩ := effect_spec parse
        { s with user := none, token := none, stored := none }
      have hu : s1.user = none := h6 rfl
      refine ⟨s1, h1, ?_, ?_⟩
      · intro _ hg
        rw [h3] at hg
        simp [passesGuard] at hg
      · intro _ _ hs
        rw [hu] at hs
        simp at hs

theorem run_spec (parse : JSString → Except JSError JSVal) (actions : List Action) :
    ∀ s : AppState, ∃ s1, run parse s actions = .ok s1 ∧
      ((passesGuard parse s.token = true → s.user.isSome = true) →
        (passesGuard parse s1.token = true → s1.user.isSome = true)) ∧
      (actions.all (fun a => !a.isLoginSuccess) = true →
        (s.user.isSome = true → passesGuard parse s.token = true) →
        (s1.user.isSome = true → passesGuard parse s1.token = true)) := by
  induction actions with
  | nil => exact fun s => ⟨s, rfl, id, fun _ => id⟩
  | cons a rest ih =>
    intro s
    obtain ⟨s1, h1, ha, hb⟩ := step_spec parse s a
    obtain ⟨s2, h2, hc, hd⟩ := ih s1
    refine ⟨s2, by simp [run, h1, h2], fun h => hc (ha h), fun hall h => ?_⟩
    simp only [List.all_cons, Bool.and_eq_true, Bool.not_eq_true', ] at hall
    exact hd hall.2 (hb hall.1 h)

theorem mount_spec (parse : JSString → Except JSError JSVal) (stored : Option JSString)
    (href : JSString) :
    ∃ s, mount parse stored href = .ok s ∧ s.loading = false ∧
      (passesGuard parse s.token = true → s.user.isSome = true) ∧
      (s.user.isSome = true → passesGuard parse s.token = true) := by
  obtain ⟨s, h1, h2, h3, -, -, h5, h6⟩ := effect_spec parse (initialState stored href)
  refine ⟨s, h1, h2, ?_, ?_⟩
  · intro hg
    rw [h3] at hg
    exact h5 hg
  · intro hu
    rw [h3]
    cases hg : passesGuard parse (initialState stored href).token with
    | true => rfl
    | false =>
      rw [h6 hg] at hu
      simp [initialState] at hu


theorem lookupProp_single (key k : JSString) (v : JSVal) :
    lookupProp key [(k, v)] = if k = key then v else .undefined := rfl

theorem claims_get (sub role userId : JSVal) :
    (JSVal.obj [(js "sub", sub), (js "role", role), (js "userId", userId)]).get (js "sub") = sub ∧
    (JSVal.obj [(js "sub", sub), (js "role", role), (js "userId", userId)]).get (js "role") = role ∧
    (JSVal.obj [(js "sub", sub), (js "role", role), (js "userId", userId)]).get (js "userId") =
      userId := by
  have h1 : js "role" ≠ js "sub" := by decide
  have h2 : js "userId" ≠ js "sub" := by decide
  have h3 : js "sub" ≠ js "role" := by decide
  have h4 : js "userId" ≠ js "role" := by decide
  have h5 : js "sub" ≠ js "userId" := by decide
  have h6 : js "role" ≠ js "userId" := by decide
  refine ⟨?_, ?_, ?_⟩
  · simp [JSVal.get, lookupProp, h1, h2]
  · cases role <;> simp [JSVal.get, lookupProp, h3, h4]
  · cases userId <;> simp [JSVal.get, lookupProp, h5, h6]

theorem credential_truthy (pad : Bool) (header : JSString) (text : List Nat)
    (signature : JSString) :
    truthyString (some (credential pad header text signature)) = true := by
  simp [truthyString, credential]

theorem mount_of_guard (parse : JSString → Except JSError JSVal) (token : JSString)
    (href : JSString) (decoded : JSVal) (ht : truthyString (some token) = true)
    (hd : decodeToken parse token = .ok decoded)
    (hg : (decoded.truthy && (decoded.get (js "sub")).truthy) = true) :
    mount parse (some token) href =
      .ok { user := some { email := decoded.get (js "sub")
                           role := decoded.get (js "role")
                           id := decoded.get (js "userId") }
            token := some token
            loading := false
            stored := some token
            href := href } := by
  simp [mount, initialState, effect, ht, hd, hg]

theorem mount_of_not_guard (parse : JSString → Except JSError JSVal) (stored : Option JSString)
    (href : JSString) (hg : passesGuard parse stored = false) :
    mount parse stored href =
      .ok { user := none
            token := if truthyString stored then stored else none
            loading := false
            stored := stored
            href := href } := by
  obtain ⟨s, h1, h2, h3, h4, h5, -, h7⟩ := effect_spec parse (initialState stored href)
  have hg1 : passesGuard parse (initialState stored href).token = false := by
    simp only [initialState]
    split_ifs with h
    · exact hg
    · rfl
  have hu := h7 hg1
  rw [mount, h1]
  cases s
  simp only [initialState] at h2 h3 h4 h5 hu
  simp [h2, h3, h4, h5, hu]

/-- A failed login returns `{ success: false, message }` with the message of
`parseErrorMessage`, whenever `parseErrorMessage` returns one. -/
theorem login_failure_result (response : Option ErrorResponse) (message : JSVal)
    (h : parseErrorMessage (postError (js "/auth/login") response) = .ok message) :
    loginResult (.rejected response) = .ok { success := false, message := some message } := by
  simp [loginResult, failureResult, h]

/-- Restore fails closed on a credential that does not pass the guard: the
session has no identity. This covers a credential that `decodeToken` cannot
decode and one decoded to an object without a truthy `sub`. -/
theorem restore_without_identity (parse : JSString → Except JSError JSVal) (token href : JSString)
    (h : DecodeFailure parse token ∨
      ∃ props, decodeToken parse token = .ok (.obj props) ∧
        (lookupProp (js "sub") props).truthy = false) :
    ∃ s, mount parse (some token) href = .ok s ∧ s.user = none := by
  have hg : passesGuard parse (some token) = false := by
    rcases h with h | ⟨props, h1, h2⟩
    · obtain ⟨e, he⟩ := decodeTokenTry_of_failure parse token h
      simp [passesGuard, decodeToken_of_error parse token e he, JSVal.truthy]
    · simp [passesGuard, h1, JSVal.get, h2]
  exact ⟨_, mount_of_not_guard parse (some token) href hg, rfl⟩

/-- An accepted login settles with the identity of the response when the
token does not pass the guard of the effect. -/
theorem login_success_identity (parse : JSString → Except JSError JSVal) (data : LoginData)
    (s : AppState) (hg : passesGuard parse (some data.token) = false) :
    ∃ s1, loginState parse (.fulfilled data) s = .ok s1 ∧
      s1.user = some { id := data.id, email := data.email, role := data.role } ∧
      s1.token = some data.token ∧ s1.stored = some data.token := by
  simp only [loginState, afterUpdate]
  split_ifs with h
  · exact ⟨_, rfl, rfl, rfl, rfl⟩
  · obtain ⟨s1, h1, -, h3, h4, -, -, h6⟩ := effect_spec parse
      { s with token := some data.token
               user := some { id := data.id, email := data.email, role := data.role }
               stored := some data.token }
    exact ⟨s1, h1, h6 hg, h3, h4⟩

theorem passesGuard_eq (parse : JSString → Except JSError JSVal) (token : Option JSString) :
    passesGuard parse token = (hasSubClaim parse token || hasTextPayload parse token) := by
  cases token with
  | none => rfl
  | some t =>
    cases t with
    | nil => rfl
    | cons c cs =>
      obtain ⟨v, hv⟩ := decodeToken_total parse (c :: cs)
      simp only [passesGuard, hasSubClaim, hasTextPayload, hv, truthyString]
      cases v <;> simp [JSVal.truthy, JSVal.get]

theorem loginState_fulfilled (parse : JSString → Except JSError JSVal) (data : LoginData)
    (s : AppState) :
    ∃ s1, loginState parse (.fulfilled data) s = .ok s1 ∧ s1.token = some data.token ∧
      s1.user.isSome = true := by
  simp only [loginState, afterUpdate]
  split_ifs with h
  · exact ⟨_, rfl, rfl, rfl⟩
  · obtain ⟨s1, h1, -, h3, -, -, h5, h6⟩ := effect_spec parse
      { s with token := some data.token
               user := some { id := data.id, email := data.email, role := data.role }
               stored := some data.token }
    refine ⟨s1, h1, h3, ?_⟩
    cases hg : passesGuard parse (some data.token) with
    | true => exact h5 hg
    | false => rw [h6 hg]; rfl

theorem logoutState_cleared (parse : JSString → Except JSError JSVal) (s : AppState) :
    ∃ s1, logoutState parse s = .ok s1 ∧ s1.user = none ∧ s1.token = none := by
  simp only [logoutState, afterUpdate]
  split_ifs with h
  · exact ⟨_, rfl, rfl, rfl⟩
  · obtain ⟨s1, h1, -, h3, -, -, -, h6⟩ := effect_spec parse
      { s with user := none, token := none, stored := none }
    exact ⟨s1, h1, h6 rfl, h3⟩

theorem run_loginInForce (parse : JSString → Except JSError JSVal) (actions : List Action) :
    ∀ (current : Option LoginData) (s : AppState),
      (∀ data, current = some data → s.token = some data.token ∧ s.user.isSome = true) →
      (current = none → (s.user.isSome = true ↔ passesGuard parse s.token = true)) →
      ∃ s1, run parse s actions = .ok s1 ∧
        (∀ data, loginInForce current actions = some data →
          s1.token = some data.token ∧ s1.user.isSome = true) ∧
        (loginInForce current actions = none →
          (s1.user.isSome = true ↔ passesGuard parse s1.token = true)) := by
  induction actions with
  | nil => exact fun current s h1 h2 => ⟨s, rfl, h1, h2⟩
  | cons a rest ih =>
    intro current s h1 h2
    have key : ∃ s1, step parse s a = .ok s1 ∧
        (∀ data, a.loginInForce current = some data →
          s1.token = some data.token ∧ s1.user.isSome = true) ∧
        (a.loginInForce current = none →
          (s1.user.isSome = true ↔ passesGuard parse s1.token = true)) := by
      cases a with
      | login outcome =>
        cases outcome with
        | fulfilled data =>
          obtain ⟨s1, hs1, ht, hu⟩ := loginState_fulfilled parse data s
          refine ⟨s1, hs1, ?_, ?_⟩
          · intro d hd
            simp only [Action.loginInForce, Option.some.injEq] at hd
            subst hd
            exact ⟨ht, hu⟩
          · intro hn
            simp [Action.loginInForce] at hn
        | rejected response =>
          exact ⟨s, by simp [step, loginState, responseInterceptor_login], h1, h2⟩
      | register outcome =>
        cases outcome with
        | fulfilled data => exact ⟨s, rfl, h1, h2⟩
        | rejected response =>
          exact ⟨s, by simp [step, registerState, responseInterceptor_register], h1, h2⟩
      | logout =>
        obtain ⟨s1, hs1, hu, ht⟩ := logoutState_cleared parse s
        refine ⟨s1, hs1, ?_, ?_⟩
        · intro d hd
          simp [Action.loginInForce] at hd
        · intro _
          rw [hu, ht]
          simp [passesGuard]
    obtain ⟨s1, hs1, k1, k2⟩ := key
    obtain ⟨s2, hs2, k3, k4⟩ := ih (a.loginInForce current) s1 k1 k2
    exact ⟨s2, by simp [run, hs1, hs2], k3, k4⟩

theorem session_loginInForce (parse : JSString → Except JSError JSVal)
    (stored : Option JSString) (href : JSString) (actions : List Action) :
    ∃ s, session parse stored href actions = .ok s ∧
      (∀ data, loginInForce none actions = some data →
        s.token = some data.token ∧ s.user.isSome = true) ∧
      (loginInForce none actions = none →
        (s.user.isSome = true ↔ passesGuard parse s.token = true)) := by
  obtain ⟨s0, h0, -, ha, hb⟩ := mount_spec parse stored href
  obtain ⟨s1, h1, hc, hd⟩ := run_loginInForce parse actions none s0 (by simp)
    (fun _ => ⟨hb, ha⟩)
  exact ⟨s1, by simp [session, h0, h1], hc, hd⟩

/-- An accepted login is in force only if it is one of the operations. -/
theorem loginInForce_mem (actions : List Action) :
    ∀ (current : Option LoginData) (data : LoginData),
      loginInForce current actions = some data →
      current = some data ∨ Action.login (.fulfilled data) ∈ actions := by
  induction actions with
  | nil => exact fun current data h => Or.inl h
  | cons a rest ih =>
    intro current data h
    rcases ih (a.loginInForce current) data h with h1 | h1
    · cases a with
      | login outcome =>
        cases outcome with
        | fulfilled d =>
          simp only [Action.loginInForce, Option.some.injEq] at h1
          subst h1
          exact Or.inr (List.mem_cons_self _ _)
        | rejected response => exact Or.inl h1
      | register outcome => exact Or.inl h1
      | logout => simp [Action.loginInForce] at h1
    · exact Or.inr (List.mem_cons_of_mem _ h1)

/-- In a session in which every login that the server accepted came with a
token that has a `sub` claim, an identity is present exactly when the
credential is present and has a `sub` claim (a credential that decodes to a
non-empty string aside). -/
theorem session_identity_of_accepted (parse : JSString → Except JSError JSVal)
    (stored : Option JSString) (href : JSString) (actions : List Action)
    (hall : ∀ data, Action.login (.fulfilled data) ∈ actions →
      hasSubClaim parse (some data.token) = true) :
    ∃ s, session parse stored href actions = .ok s ∧
      (hasTextPayload parse s.token = false →
        (s.user.isSome = true ↔ hasSubClaim parse s.token = true)) := by
  obtain ⟨s1, h1, hc, hd⟩ := session_loginInForce parse stored href actions
  refine ⟨s1, h1, fun htext => ?_⟩
  cases hl : loginInForce none actions with
  | some data =>
    obtain ⟨ht, hu⟩ := hc data hl
    have hmem : Action.login (.fulfilled data) ∈ actions := by
      rcases loginInForce_mem actions none data hl with h | h
      · simp at h
      · exact h
    rw [ht]
    exact ⟨fun _ => hall data hmem, fun _ => hu⟩
  | none =>
    rw [hd hl, passesGuard_eq, htext, Bool.or_false]

/-! ## The claims -/

/-- C1, as stated, fails in both directions. After a login that the server
accepted with the token `x`, which `decodeToken` cannot decode, an identity is
present. And restoring from the stored credential with the claims
`{"sub":"","role":"STUDENT","userId":1}`, on which `decodeToken` succeeds with
a `sub` claim, leaves the session without an identity, that `sub` being
falsy. -/
theorem session_identity_iff_counterexample :
    (session jsonParse none (js "/")
        [Action.login (.fulfilled
          { token := js "x", id := .num false 9 0, email := .str (js "b@x.io"),
            role := .str (js "ADMIN") })] =
      .ok { user := some { id := .num false 9 0, email := .str (js "b@x.io"),
                           role := .str (js "ADMIN") }
            token := some (js "x")
            loading := false
            stored := some (js "x")
            href := js "/" } ∧
      decodeToken jsonParse (js "x") = .ok .null ∧
      hasSubClaim jsonParse (some (js "x")) = false) ∧
    (session jsonParse (some (js "h.eyJzdWIiOiIiLCJyb2xlIjoiU1RVREVOVCIsInVzZXJJZCI6MX0.s"))
        (js "/") [] =
      .ok { user := none
            token := some (js "h.eyJzdWIiOiIiLCJyb2xlIjoiU1RVREVOVCIsInVzZXJJZCI6MX0.s")
            loading := false
            stored := some (js "h.eyJzdWIiOiIiLCJyb2xlIjoiU1RVREVOVCIsInVzZXJJZCI6MX0.s")
            href := js "/" } ∧
      decodeToken jsonParse (js "h.eyJzdWIiOiIiLCJyb2xlIjoiU1RVREVOVCIsInVzZXJJZCI6MX0.s") =
        .ok (.obj [(js "sub", .str []), (js "role", .str (js "STUDENT")),
          (js "userId", .num false 1 0)]) ∧
      hasSubClaim jsonParse
        (some (js "h.eyJzdWIiOiIiLCJyb2xlIjoiU1RVREVOVCIsInVzZXJJZCI6MX0.s")) = false) :=
  ⟨⟨rfl, rfl, rfl⟩, ⟨rfl, rfl, rfl⟩⟩

/-- C1, amended: every sequence of login, register and logout from application
start reaches a settled state, in which a credential that is present and
decoded to an object with a truthy `sub` comes with an identity. Conversely
an identity comes only with such a credential, that is, the two are
equivalent, in every session but those in which an accepted login is in force
(the most recent one, no logout after it) whose token is not such a
credential: `login` takes the identity from the response without decoding
the token, so while an accepted login is in force the credential is its token
and an identity is present, whatever the token. The equivalence is stated for
a credential that `decodeToken` does not turn into a non-empty string. -/
theorem session_identity_invariant (parse : JSString → Except JSError JSVal)
    (stored : Option JSString) (href : JSString) (actions : List Action) :
    ∃ s, session parse stored href actions = .ok s ∧
      (hasSubClaim parse s.token = true → s.user.isSome = true) ∧
      (hasTextPayload parse s.token = false →
        (∀ data, loginInForce none actions = some data →
          hasSubClaim parse (some data.token) = true) →
        (s.user.isSome = true ↔ hasSubClaim parse s.token = true)) ∧
      (∀ data, loginInForce none actions = some data →
        s.token = some data.token ∧ s.user.isSome = true) := by
  obtain ⟨s1, h1, hc, hd⟩ := session_loginInForce parse stored href actions
  refine ⟨s1, h1, ?_, ?_, hc⟩
  · intro hsub
    cases hl : loginInForce none actions with
    | some data => exact (hc data hl).2
    | none =>
      refine (hd hl).2 ?_
      rw [passesGuard_eq, hsub]
      rfl
  · intro htext hall
    cases hl : loginInForce none actions with
    | some data =>
      obtain ⟨ht, hu⟩ := hc data hl
      rw [ht]
      exact ⟨fun _ => hall data hl, fun _ => hu⟩
    | none =>
      rw [hd hl, passesGuard_eq, htext, Bool.or_false]

/-- C1, amended, at a session that starts without a stored credential: a login
accepted with the token `x`, a logout, a login accepted with a token whose
claims are `{"sub":"a@x.io","role":"STUDENT","userId":7}`, a registration and a
failed login. The second accepted login is in force, its token has a `sub`
claim, and the settled state has that token and an identity. -/
theorem session_identity_invariant_witness :
    loginInForce none
        [Action.login (.fulfilled
          { token := js "x", id := .num false 9 0, email := .str (js "b@x.io"),
            role := .str (js "ADMIN") }),
         Action.logout,
         Action.login (.fulfilled
          { token := js "h.eyJzdWIiOiJhQHguaW8iLCJyb2xlIjoiU1RVREVOVCIsInVzZXJJZCI6N30.s"
            id := .num false 7 0, email := .str (js "a@x.io"), role := .str (js "STUDENT") }),
         Action.register (.fulfilled ()), Action.login (.rejected none)] =
      some { token := js "h.eyJzdWIiOiJhQHguaW8iLCJyb2xlIjoiU1RVREVOVCIsInVzZXJJZCI6N30.s"
             id := .num false 7 0, email := .str (js "a@x.io"), role := .str (js "STUDENT") } ∧
    ∃ s, session jsonParse none (js "/")
        [Action.login (.fulfilled
          { token := js "x", id := .num false 9 0, email := .str (js "b@x.io"),
            role := .str (js "ADMIN") }),
         Action.logout,
         Action.login (.fulfilled
          { token := js "h.eyJzdWIiOiJhQHguaW8iLCJyb2xlIjoiU1RVREVOVCIsInVzZXJJZCI6N30.s"
            id := .num false 7 0, email := .str (js "a@x.io"), role := .str (js "STUDENT") }),
         Action.register (.fulfilled ()), Action.login (.rejected none)] = .ok s ∧
      s.token = some (js "h.eyJzdWIiOiJhQHguaW8iLCJyb2xlIjoiU1RVREVOVCIsInVzZXJJZCI6N30.s") ∧
      hasTextPayload jsonParse s.token = false ∧
      hasSubClaim jsonParse s.token = true ∧
      (s.user.isSome = true ↔ hasSubClaim jsonParse s.token = true) := by
  refine ⟨rfl, ?_⟩
  obtain ⟨s, hs, -, h2, h3⟩ := session_identity_invariant jsonParse none (js "/")
    [Action.login (.fulfilled
      { token := js "x", id := .num false 9 0, email := .str (js "b@x.io"),
        role := .str (js "ADMIN") }),
     Action.logout,
     Action.login (.fulfilled
      { token := js "h.eyJzdWIiOiJhQHguaW8iLCJyb2xlIjoiU1RVREVOVCIsInVzZXJJZCI6N30.s"
        id := .num false 7 0, email := .str (js "a@x.io"), role := .str (js "STUDENT") }),
     Action.register (.fulfilled ()), Action.login (.rejected none)]
  obtain ⟨ht, -⟩ := h3 _ rfl
  have htext : hasTextPayload jsonParse s.token = false := by
    rw [ht]
    rfl
  have hsub : hasSubClaim jsonParse s.token = true := by
    rw [ht]
    rfl
  refine ⟨s, hs, ht, htext, hsub, h2 htext ?_⟩
  intro data hd
  have he : data.token =
      js "h.eyJzdWIiOiJhQHguaW8iLCJyb2xlIjoiU1RVREVOVCIsInVzZXJJZCI6N30.s" := by
    have hd1 : some
        ({ token := js "h.eyJzdWIiOiJhQHguaW8iLCJyb2xlIjoiU1RVREVOVCIsInVzZXJJZCI6N30.s",
           id := .num false 7 0, email := .str (js "a@x.io"), role := .str (js "STUDENT") } :
          LoginData) = some data := hd
    injection hd1 with hd1
    rw [← hd1]
  rw [he]
  rfl

/-- C2 at a failing input: from an empty session, a login accepted with the
identity `{id: 9, email: "b@x.io", role: "ADMIN"}` and a token whose claims are
`{"sub":"a@x.io","role":"STUDENT","userId":7}` returns `{success: true}` and
settles with the identity of the token, not that of the response: the effect
that runs on the change of `token` overwrites what `login` has set. -/
theorem login_identity_from_token :
    loginResult (.fulfilled
        { token := js "h.eyJzdWIiOiJhQHguaW8iLCJyb2xlIjoiU1RVREVOVCIsInVzZXJJZCI6N30.s"
          id := .num false 9 0, email := .str (js "b@x.io"), role := .str (js "ADMIN") }) =
      .ok { success := true, message := none } ∧
    session jsonParse none (js "/")
        [Action.login (.fulfilled
          { token := js "h.eyJzdWIiOiJhQHguaW8iLCJyb2xlIjoiU1RVREVOVCIsInVzZXJJZCI6N30.s"
            id := .num false 9 0, email := .str (js "b@x.io"), role := .str (js "ADMIN") })] =
      .ok { user := some { id := .num false 7 0, email := .str (js "a@x.io"),
                           role := .str (js "STUDENT") }
            token := some (js "h.eyJzdWIiOiJhQHguaW8iLCJyb2xlIjoiU1RVREVOVCIsInVzZXJJZCI6N30.s")
            loading := false
            stored := some (js "h.eyJzdWIiOiJhQHguaW8iLCJyb2xlIjoiU1RVREVOVCIsInVzZXJJZCI6N30.s")
            href := js "/" } :=
  ⟨rfl, rfl⟩

/-- C3 at a failing input: the stored credential `a.Ingi.b` has the payload
`"x"`, a JSON string, which has no `sub` claim; `decoded.sub` is then the
method `String.prototype.sub`, the guard passes, and restore sets an identity
whose email is that function and whose role and id are undefined. -/
theorem restore_string_payload :
    decodeToken jsonParse (js "a.Ingi.b") = .ok (.str (js "x")) ∧
    mount jsonParse (some (js "a.Ingi.b")) (js "/") =
      .ok { user := some { email := .fn (js "String.prototype.sub"), role := .undefined,
                           id := .undefined }
            token := some (js "a.Ingi.b")
            loading := false
            stored := some (js "a.Ingi.b")
            href := js "/" } :=
  ⟨rfl, rfl⟩

/-- C4, as stated, fails: the well-formed credential with the claims
`{"sub":"","role":"STUDENT","userId":1}` decodes to them, and restore leaves
the session without an identity, the `sub` claim being falsy. -/
theorem restore_falsy_sub_counterexample :
    decodeToken jsonParse (js "h.eyJzdWIiOiIiLCJyb2xlIjoiU1RVREVOVCIsInVzZXJJZCI6MX0.s") =
      .ok (.obj [(js "sub", .str []), (js "role", .str (js "STUDENT")),
        (js "userId", .num false 1 0)]) ∧
    mount jsonParse (some (js "h.eyJzdWIiOiIiLCJyb2xlIjoiU1RVREVOVCIsInVzZXJJZCI6MX0.s")) (js "/") =
      .ok { user := none
            token := some (js "h.eyJzdWIiOiIiLCJyb2xlIjoiU1RVREVOVCIsInVzZXJJZCI6MX0.s")
            loading := false
            stored := some (js "h.eyJzdWIiOiIiLCJyb2xlIjoiU1RVREVOVCIsInVzZXJJZCI6MX0.s")
            href := js "/" } :=
  ⟨rfl, rfl⟩

/-- C4, amended: restoring from a stored three-segment credential whose middle
segment is the base64url encoding (padded or not) of the UTF-8 encoding of a
text that parses to the claims `{sub, role, userId}` yields the identity
`{email: sub, role: role, id: userId}`, for every truthy `sub` and every `role`
and `userId`. -/
theorem restore_identity_of_claims (parse : JSString → Except JSError JSVal) (pad : Bool)
    (header : JSString) (text : List Nat) (signature href : JSString) (sub role userId : JSVal)
    (hh : 46 ∉ header) (ht : ∀ cp ∈ text, IsScalar cp)
    (hparse : parse (toUtf16 text) =
      .ok (.obj [(js "sub", sub), (js "role", role), (js "userId", userId)]))
    (hsub : sub.truthy = true) :
    mount parse (some (credential pad header text signature)) href =
      .ok { user := some { email := sub, role := role, id := userId }
            token := some (credential pad header text signature)
            loading := false
            stored := some (credential pad header text signature)
            href := href } := by
  have hd : decodeToken parse (credential pad header text signature) =
      .ok (.obj [(js "sub", sub), (js "role", role), (js "userId", userId)]) := by
    simp [decodeToken, decodeTokenTry_credential parse pad header text signature hh ht, hparse]
  obtain ⟨g1, g2, g3⟩ := claims_get sub role userId
  have hm := mount_of_guard parse _ href _ (credential_truthy pad header text signature) hd
    (by rw [g1, hsub]; rfl)
  rw [g1, g2, g3] at hm
  exact hm

/-- C4, amended, at the claims `{"sub":"é","role":"STUDENT","userId":3}`. -/
theorem restore_identity_of_claims_witness :
    mount jsonParse
        (some (credential false (js "h")
          (codePoints "\x7b\"sub\":\"é\",\"role\":\"STUDENT\",\"userId\":3\x7d") (js "s")))
        (js "/") =
      .ok { user := some { email := .str (js "é"), role := .str (js "STUDENT"),
                           id := .num false 3 0 }
            token := some (credential false (js "h")
              (codePoints "\x7b\"sub\":\"é\",\"role\":\"STUDENT\",\"userId\":3\x7d") (js "s"))
            loading := false
            stored := some (credential false (js "h")
              (codePoints "\x7b\"sub\":\"é\",\"role\":\"STUDENT\",\"userId\":3\x7d") (js "s"))
            href := js "/" } :=
  restore_identity_of_claims jsonParse false (js "h")
    (codePoints "\x7b\"sub\":\"é\",\"role\":\"STUDENT\",\"userId\":3\x7d") (js "s") (js "/")
    (.str (js "é")) (.str (js "STUDENT")) (.num false 3 0) (by decide) (by decide) rfl rfl


/-- C5, as stated, fails: an input of two segments and an input of four
segments decode to the claims of their second segment, and restore derives an
identity from the two-segment one. -/
theorem decodeToken_segment_count_counterexample :
    (split 46 (js "h.eyJzdWIiOiJhIn0")).length = 2 ∧
    decodeToken jsonParse (js "h.eyJzdWIiOiJhIn0") = .ok (.obj [(js "sub", .str (js "a"))]) ∧
    (split 46 (js "h.eyJzdWIiOiJhIn0.s.t")).length = 4 ∧
    decodeToken jsonParse (js "h.eyJzdWIiOiJhIn0.s.t") =
      .ok (.obj [(js "sub", .str (js "a"))]) ∧
    mount jsonParse (some (js "h.eyJzdWIiOiJhIn0")) (js "/") =
      .ok { user := some { email := .str (js "a"), role := .undefined, id := .undefined }
            token := some (js "h.eyJzdWIiOiJhIn0")
            loading := false
            stored := some (js "h.eyJzdWIiOiJhIn0")
            href := js "/" } :=
  ⟨rfl, rfl, rfl, rfl, rfl⟩

/-- C5, amended: `decodeToken` returns null for every input without a dot (a
single segment); for any other input the result is that of its second segment,
whatever the number of segments: two inputs with the same second segment
decode alike. -/
theorem decodeToken_segments (parse : JSString → Except JSError JSVal) (token : JSString) :
    (46 ∉ token → decodeToken parse token = .ok .null) ∧
    (∀ other : JSString, (split 46 other)[1]? = (split 46 token)[1]? →
      decodeToken parse other = decodeToken parse token) := by
  constructor
  · intro h
    apply decodeToken_of_error parse token .typeError
    simp [decodeTokenTry, split_of_not_mem 46 token h]
  · intro other h
    simp only [decodeToken, decodeTokenTry, h]

/-- C5, amended, at the single segment `abc` and at the inputs `x.e30` and
`h.e30.s`, of two and of three segments. -/
theorem decodeToken_segments_witness :
    decodeToken jsonParse (js "abc") = .ok .null ∧
    decodeToken jsonParse (js "x.e30") = decodeToken jsonParse (js "h.e30.s") :=
  ⟨(decodeToken_segments jsonParse (js "abc")).1 (by decide),
    (decodeToken_segments jsonParse (js "h.e30.s")).2 (js "x.e30") rfl⟩

/-- C6: `decodeToken` never throws: for every parser and every input it
returns a value, and it returns null whenever the `try` block fails, be it at
the read of the second segment, in `atob`, in the UTF-8 decoding of
`decodeURIComponent` or in `JSON.parse`. -/
theorem decodeToken_never_throws (parse : JSString → Except JSError JSVal) (token : JSString) :
    (∃ v, decodeToken parse token = .ok v) ∧
    (DecodeFailure parse token → decodeToken parse token = .ok .null) := by
  refine ⟨decodeToken_total parse token, fun h => ?_⟩
  obtain ⟨e, he⟩ := decodeTokenTry_of_failure parse token h
  exact decodeToken_of_error parse token e he

/-- C6 at four inputs, one for each stage that fails: `abc` has no second
segment, `a.!.c` is not base64, the segment of `a._w.c` is the byte 0xFF,
which is not UTF-8, and that of `a.e3.c` is the text `{`, which is not JSON. -/
theorem decodeToken_never_throws_witness :
    decodeToken jsonParse (js "abc") = .ok .null ∧
    decodeToken jsonParse (js "a.!.c") = .ok .null ∧
    decodeToken jsonParse (js "a._w.c") = .ok .null ∧
    decodeToken jsonParse (js "a.e3.c") = .ok .null :=
  ⟨(decodeToken_never_throws jsonParse (js "abc")).2 (.split rfl),
    (decodeToken_never_throws jsonParse (js "a.!.c")).2
      (.base64 (js "!") .invalidCharacterError rfl rfl),
    (decodeToken_never_throws jsonParse (js "a._w.c")).2
      (.utf8 (js "_w") [255] .uriError rfl rfl rfl),
    (decodeToken_never_throws jsonParse (js "a.e3.c")).2
      (.json (js "e3") [123] [123] .syntaxError rfl rfl rfl rfl)⟩

/-- C7: round trip. For every claims value and every text that `JSON.parse`
maps to it, the credential whose middle segment is the base64url encoding
(alphabet with `-` and `_`, padded or not) of the UTF-8 encoding of the text
decodes to the claims, whatever code points the text has, multi-byte ones
included. -/
theorem decodeToken_roundtrip (parse : JSString → Except JSError JSVal) (pad : Bool)
    (header : JSString) (text : List Nat) (signature : JSString) (claims : JSVal)
    (hh : 46 ∉ header) (ht : ∀ cp ∈ text, IsScalar cp)
    (hparse : parse (toUtf16 text) = .ok claims) :
    decodeToken parse (credential pad header text signature) = .ok claims := by
  have htry : decodeTokenTry parse (credential pad header text signature) = .ok claims := by
    rw [decodeTokenTry_credential parse pad header text signature hh ht]
    exact hparse
  unfold decodeToken
  rw [htry]

/-- C7 at claims with characters of two, three and four bytes in UTF-8. -/
theorem decodeToken_roundtrip_witness :
    decodeToken jsonParse
        (credential true (js "eyJhbGciOiJIUzI1NiJ9")
          (codePoints "\x7b\"sub\":\"zoé@x.io\",\"name\":\"€😀\",\"userId\":12\x7d") (js "sig")) =
      .ok (.obj [(js "sub", .str (js "zoé@x.io")), (js "name", .str (js "€😀")),
        (js "userId", .num false 12 0)]) :=
  decodeToken_roundtrip jsonParse true (js "eyJhbGciOiJIUzI1NiJ9")
    (codePoints "\x7b\"sub\":\"zoé@x.io\",\"name\":\"€😀\",\"userId\":12\x7d") (js "sig") _
    (by decide) (by decide) rfl

/-- C8: whatever the stored credential (absent, undecodable, decodable
without `sub`, decodable with `sub`), restore runs to its end and leaves
`loading` false. -/
theorem restore_loading_false (parse : JSString → Except JSError JSVal)
    (stored : Option JSString) (href : JSString) :
    ∃ s, mount parse stored href = .ok s ∧ s.loading = false := by
  obtain ⟨s, h1, h2, -⟩ := mount_spec parse stored href
  exact ⟨s, h1, h2⟩

/-- A failed login leaves the whole state as it was: the response interceptor
does nothing on the URL `/auth/login`, and the `catch` block sets nothing. -/
theorem login_failure_state (parse : JSString → Except JSError JSVal)
    (response : Option ErrorResponse) (s : AppState) :
    loginState parse (.rejected response) s = .ok s := by
  simp [loginState, responseInterceptor_login]

/-- C9 at a failing input: the login request fails with status 400 and the
body `{"message": {"email": "Email is invalid"}}`. `data.message` is truthy
and has no method `includes`, so `parseErrorMessage` throws a `TypeError`
inside the `catch` block of `login`, and `login` rejects instead of returning
`{success: false, message}`. -/
theorem login_failure_rejects :
    parseErrorMessage (postError (js "/auth/login")
        (some { status := 400
                data := .obj [(js "message",
                  .obj [(js "email", .str (js "Email is invalid"))])] })) =
      .error .typeError ∧
    loginResult (.rejected
        (some { status := 400
                data := .obj [(js "message",
                  .obj [(js "email", .str (js "Email is invalid"))])] })) =
      .error .typeError :=
  ⟨rfl, rfl⟩

/-- C10: `register` never mutates the session: whatever the state and the
outcome of the request, the state after it is the state before it, so the
token, the identity and the stored credential are the same. -/
theorem register_preserves_session (outcome : Outcome Unit) (s : AppState) :
    registerState outcome s = s ∧
    (registerState outcome s).token = s.token ∧
    (registerState outcome s).user = s.user ∧
    (registerState outcome s).stored = s.stored := by
  have h : registerState outcome s = s := by
    cases outcome with
    | fulfilled data => rfl
    | rejected response => simp [registerState, responseInterceptor_register]
  simp [h]

/-! ## Logout, interception, the views and the route guard -/

theorem strictEquals_str (v : JSVal) (s : JSString) :
    strictEquals v (.str s) = true ↔ v = .str s := by
  cases v <;> simp [strictEquals]

theorem lookupProp_of_absent (key : JSString) (props : List (JSString × JSVal))
    (h : ∀ p ∈ props, p.1 ≠ key) : lookupProp key props = .undefined := by
  induction props with
  | nil => rfl
  | cons p rest ih =>
    obtain ⟨k, v⟩ := p
    have hk : k ≠ key := h (k, v) (by simp)
    simp [lookupProp, ih fun q hq => h q (by simp [hq]), hk]

theorem lookupProp_cons (key : JSString) (p : JSString × JSVal)
    (rest : List (JSString × JSVal)) :
    lookupProp key (p :: rest) =
      match lookupProp key rest with
      | .undefined => if p.1 = key then p.2 else .undefined
      | w => w := by
  cases p
  rfl

theorem lookupProp_setProp_self (key : JSString) (t : JSString)
    (props : List (JSString × JSVal)) :
    lookupProp key (setProp key (.str t) props) = .str t := by
  unfold setProp
  split_ifs with hany
  · induction props with
    | nil => simp at hany
    | cons p rest ih =>
      by_cases hrest : rest.any (fun p => p.1 == key) = true
      · rw [List.map_cons, lookupProp_cons, ih hrest]
      · have habsent : ∀ q ∈ rest.map (fun p => if p.1 = key then (key, JSVal.str t) else p),
            q.1 ≠ key := by
          intro q hq
          obtain ⟨p, hp, rfl⟩ := List.mem_map.1 hq
          have hpk : p.1 ≠ key := by
            intro e
            exact hrest (List.any_eq_true.2 ⟨p, hp, by simp [e]⟩)
          simp [hpk]
        have hk : p.1 = key := by
          simp only [List.any_cons, Bool.or_eq_true, beq_iff_eq] at hany
          rcases hany with h | h
          · exact h
          · exact absurd h hrest
        rw [List.map_cons, lookupProp_cons, lookupProp_of_absent key _ habsent, if_pos hk]
        simp
  · clear hany
    induction props with
    | nil => simp [lookupProp]
    | cons p rest ih =>
      rw [List.cons_append, lookupProp_cons, ih]

theorem filter_setProp (key : JSString) (value : JSVal) (props : List (JSString × JSVal)) :
    (setProp key value props).filter (fun p => p.1 != key) =
      props.filter (fun p => p.1 != key) := by
  unfold setProp
  split_ifs with hany
  · clear hany
    induction props with
    | nil => rfl
    | cons p rest ih =>
      by_cases hp : p.1 = key
      · simp [hp, ih]
      · simp [hp, ih]
  · simp

theorem lookupProp_setProp_of_ne (key k : JSString) (value : JSVal)
    (props : List (JSString × JSVal)) (hk : k ≠ key) :
    lookupProp k (setProp key value props) = lookupProp k props := by
  have hkk : ¬ key = k := fun e => hk e.symm
  unfold setProp
  split_ifs with hany
  · clear hany
    induction props with
    | nil => rfl
    | cons p rest ih =>
      rw [List.map_cons, lookupProp_cons, lookupProp_cons, ih]
      by_cases hp : p.1 = key
      · have hpk : ¬ p.1 = k := fun e => hkk (hp.symm.trans e)
        rw [if_pos hp]
        simp only [if_neg hkk, if_neg hpk]
      · rw [if_neg hp]
  · clear hany
    induction props with
    | nil => simp [lookupProp, hkk]
    | cons p rest ih =>
      rw [List.cons_append, lookupProp_cons, lookupProp_cons, ih]

theorem logoutState_spec (parse : JSString → Except JSError JSVal) (s : AppState) :
    ∃ s1, logoutState parse s = .ok s1 ∧ s1.user = none ∧ s1.token = none ∧
      s1.stored = none ∧ s1.href = s.href := by
  simp only [logoutState, afterUpdate]
  split_ifs with h
  · exact ⟨_, rfl, rfl, rfl, rfl, rfl⟩
  · obtain ⟨s1, h1, -, h3, h4, h5, -, h6⟩ := effect_spec parse
      { s with user := none, token := none, stored := none }
    exact ⟨s1, h1, h6 rfl, h3, h4, h5⟩


/-- C11: `logout` is total and idempotent: from every state it settles in a
state with no identity, no token and no stored credential, and a second
`logout` from that state settles in the very same state. -/
theorem logout_idempotent (parse : JSString → Except JSError JSVal) (s : AppState) :
    ∃ s1, logoutState parse s = .ok s1 ∧ s1.user = none ∧ s1.token = none ∧
      s1.stored = none ∧ logoutState parse s1 = .ok s1 := by
  obtain ⟨s1, h1, hu, ht, hs, -⟩ := logoutState_spec parse s
  refine ⟨s1, h1, hu, ht, hs, ?_⟩
  cases s1
  simp only at hu ht hs
  subst hu ht hs
  simp [logoutState, afterUpdate]

/-- C12: outbound interception. With a stored credential `t` (a non-empty
string) the returned config has the header `Authorization` equal to
`Bearer ` followed by `t`, its other headers are those of the input, in their
order, and its other properties are those of the input; without a stored
credential (none, or the empty string, which is falsy) the config is returned
as it is. -/
theorem requestInterceptor_spec (stored : Option JSString) (config : RequestConfig) :
    (∀ t, stored = some t → t ≠ [] →
      lookupProp (js "Authorization") (requestInterceptor stored config).headers =
        .str (js "Bearer " ++ t) ∧
      (requestInterceptor stored config).headers.filter (fun p => p.1 != js "Authorization") =
        config.headers.filter (fun p => p.1 != js "Authorization") ∧
      (∀ k, k ≠ js "Authorization" →
        lookupProp k (requestInterceptor stored config).headers = lookupProp k config.headers) ∧
      (requestInterceptor stored config).rest = config.rest) ∧
    (truthyString stored = false → requestInterceptor stored config = config) := by
  constructor
  · intro t ht hne
    subst ht
    have htruthy : truthyString (some t) = true := by
      cases t with
      | nil => exact absurd rfl hne
      | cons c cs => rfl
    have hr : requestInterceptor (some t) config =
        { config with
          headers := setProp (js "Authorization") (.str (js "Bearer " ++ t)) config.headers } := by
      simp [requestInterceptor, htruthy]
    rw [hr]
    exact ⟨lookupProp_setProp_self _ _ _, filter_setProp _ _ _,
      fun k hk => lookupProp_setProp_of_ne _ k _ _ hk, rfl⟩
  · intro h
    cases stored with
    | none => rfl
    | some t => simp [requestInterceptor, h]

/-- C12 at the stored credential `abc` and a config with a content type
header, and at an empty tab storage. -/
theorem requestInterceptor_spec_witness :
    lookupProp (js "Authorization")
        (requestInterceptor (some (js "abc"))
          { headers := [(js "Content-Type", .str (js "application/json"))]
            rest := [(js "url", .str (js "/courses"))] }).headers =
      .str (js "Bearer abc") ∧
    requestInterceptor none
        { headers := [(js "Content-Type", .str (js "application/json"))]
          rest := [(js "url", .str (js "/courses"))] } =
      { headers := [(js "Content-Type", .str (js "application/json"))]
        rest := [(js "url", .str (js "/courses"))] } :=
  ⟨((requestInterceptor_spec (some (js "abc"))
      { headers := [(js "Content-Type", .str (js "application/json"))]
        rest := [(js "url", .str (js "/courses"))] }).1 (js "abc") rfl (by decide)).1,
    (requestInterceptor_spec none
      { headers := [(js "Content-Type", .str (js "application/json"))]
        rest := [(js "url", .str (js "/courses"))] }).2 rfl⟩

/-- C13 at a failing input: a 401 in answer to `api.get('/courses/auth/1')`,
with the credential `t` stored. The URL is neither the login nor the register
endpoint, yet it contains `/auth/`, so the test `url.includes('/auth/')` takes
it for an authentication endpoint: the stored credential and the location
stay as they were. The comment above the test (api.js 30-31) exempts only
login and register. -/
theorem response_401_nested_auth_url :
    includesStr (js "/auth/") (js "/courses/auth/1") = true ∧
    js "/courses/auth/1" ≠ js "/auth/login" ∧
    js "/courses/auth/1" ≠ js "/auth/register" ∧
    responseInterceptor
        { url := some (js "/courses/auth/1"), response := some { status := 401, data := .str [] } }
        { user := none, token := some (js "t"), loading := false, stored := some (js "t"),
          href := js "/dashboard" } =
      { user := none, token := some (js "t"), loading := false, stored := some (js "t"),
        href := js "/dashboard" } :=
  ⟨by decide, by decide, by decide, rfl⟩

/-- A failed response with status 401 whose request URL does not contain
`/auth/` (or whose error carries no URL) removes the stored credential and sets
the location to `/login`. Every URL that `services.js` builds for something
other than login and register is such a URL. -/
theorem response_401_teardown (error : RequestError) (response : ErrorResponse) (s : AppState)
    (hresponse : error.response = some response) (hstatus : response.status = 401)
    (hurl : ∀ url, error.url = some url → includesStr (js "/auth/") url = false) :
    responseInterceptor error s = { s with stored := none, href := js "/login" } ∧
    (responseInterceptor error s).stored = none ∧
    (responseInterceptor error s).href = js "/login" := by
  have h : responseInterceptor error s = { s with stored := none, href := js "/login" } := by
    unfold responseInterceptor
    cases hu : error.url with
    | none => simp [hresponse, hstatus]
    | some url => simp [hresponse, hstatus, hurl url hu]
  rw [h]
  exact ⟨rfl, rfl, rfl⟩

/-- The teardown at a 401 from `/courses/student`. -/
theorem response_401_teardown_witness :
    responseInterceptor
        { url := some (js "/courses/student")
          response := some { status := 401, data := .str [] } }
        { user := none, token := some (js "t"), loading := false, stored := some (js "t"),
          href := js "/dashboard" } =
      { user := none, token := some (js "t"), loading := false, stored := none,
        href := js "/login" } :=
  (response_401_teardown
    { url := some (js "/courses/student"), response := some { status := 401, data := .str [] } }
    { status := 401, data := .str [] }
    { user := none, token := some (js "t"), loading := false, stored := some (js "t"),
      href := js "/dashboard" }
    rfl rfl (fun url h => by cases h; decide)).1

/-- C14: a 401 (as any failure) from `/auth/login` or `/auth/register` leaves
the whole state as it was, the stored credential and the location included, so
a failed login settles in the state it started from. -/
theorem auth_endpoint_no_teardown (parse : JSString → Except JSError JSVal) (data : JSVal)
    (s : AppState) :
    responseInterceptor
        { url := some (js "/auth/login"), response := some { status := 401, data := data } } s =
      s ∧
    responseInterceptor
        { url := some (js "/auth/register"), response := some { status := 401, data := data } }
        s = s ∧
    loginState parse (.rejected (some { status := 401, data := data })) s = .ok s ∧
    registerState (.rejected (some { status := 401, data := data })) s = s := by
  have h1 := responseInterceptor_login (some { status := 401, data := data }) s
  have h2 := responseInterceptor_register (some { status := 401, data := data }) s
  refine ⟨h1, h2, ?_, ?_⟩
  · simp only [loginState, h1]
  · simp only [registerState, h2]

/-- C15: the error handler of the response interceptor rejects with the very
error it received, whatever the error; and when the error has no response, or
a response whose status is not 401, it leaves the state as it was, the stored
credential and the location included. -/
theorem response_error_passthrough (error : RequestError) (s : AppState) :
    (responseErrorHandler error s).1 = error ∧
    ((∀ response, error.response = some response → response.status ≠ 401) →
      (responseErrorHandler error s).2 = s ∧
      (responseErrorHandler error s).2.stored = s.stored ∧
      (responseErrorHandler error s).2.href = s.href) := by
  refine ⟨rfl, fun h => ?_⟩
  have hs : responseInterceptor error s = s := by
    unfold responseInterceptor
    cases hr : error.response with
    | none => simp
    | some response => simp [h response hr]
  simp [responseErrorHandler, hs]

/-- C15 at a 500 from `/courses/student` and at a failure without a response. -/
theorem response_error_passthrough_witness :
    (responseErrorHandler
        { url := some (js "/courses/student")
          response := some { status := 500, data := .str [] } }
        { user := none, token := some (js "t"), loading := false, stored := some (js "t"),
          href := js "/dashboard" }).2.stored = some (js "t") ∧
    (responseErrorHandler { url := some (js "/courses/student"), response := none }
        { user := none, token := some (js "t"), loading := false, stored := some (js "t"),
          href := js "/dashboard" }).2.href = js "/dashboard" :=
  ⟨((response_error_passthrough
      { url := some (js "/courses/student"), response := some { status := 500, data := .str [] } }
      { user := none, token := some (js "t"), loading := false, stored := some (js "t"),
        href := js "/dashboard" }).2
      (fun response h => by cases h; decide)).2.1,
    ((response_error_passthrough { url := some (js "/courses/student"), response := none }
      { user := none, token := some (js "t"), loading := false, stored := some (js "t"),
        href := js "/dashboard" }).2
      (fun response h => by cases h)).2.2⟩


theorem strictEquals_undefined (v : JSVal) :
    strictEquals v .undefined = true ↔ v = .undefined := by
  cases v <;> simp [strictEquals]

theorem looseEquals_undefined (mixed : JSVal → JSVal → Bool) (v : JSVal)
    (hv : v.isNullish = false) : looseEquals mixed v .undefined = false := by
  cases v <;> simp_all [looseEquals, JSVal.type, JSVal.isNullish]

theorem strictEquals_authorId (id entity : JSVal) (hid : id.isNullish = false) :
    strictEquals id (authorId entity) = true ↔
      (entity.get (js "author")).isNullish = false ∧
        strictEquals id ((entity.get (js "author")).get (js "id")) = true := by
  have hne : ¬ id = .undefined := by
    intro e
    rw [e] at hid
    exact absurd hid (by decide)
  unfold authorId JSVal.optionalGet
  cases entity.get (js "author") <;> simp [JSVal.isNullish, strictEquals_undefined, hne]

theorem looseEquals_authorId (mixed : JSVal → JSVal → Bool) (id entity : JSVal)
    (hid : id.isNullish = false) :
    looseEquals mixed id (authorId entity) = true ↔
      (entity.get (js "author")).isNullish = false ∧
        looseEquals mixed id ((entity.get (js "author")).get (js "id")) = true := by
  unfold authorId JSVal.optionalGet
  cases entity.get (js "author") <;>
    simp [JSVal.isNullish, looseEquals_undefined mixed id hid]

theorem get_id_of_falsy (author : JSVal) (h : author.truthy = false) :
    author.get (js "id") = .undefined := by
  have hk : js "id" ≠ js "sub" := by decide
  cases author <;> simp_all [JSVal.get, JSVal.truthy]

theorem isProfessor_iff (user : Option User) :
    strictEquals (userRole user) (.str (js "PROFESSOR")) = true ↔
      ∃ u, user = some u ∧ u.role = .str (js "PROFESSOR") := by
  rw [strictEquals_str]
  cases user with
  | none => simp [userRole]
  | some u => simp [userRole]

/-- C16 at a failing input: with no identity, and with the identity of a
student whose `id` is undefined, the delete control of a question that has no
author is offered in the grouped and in the regular view, `user?.id` and
`question.author?.id` being both undefined and so equal. The component
`Answer` does guard the comparison with `user && answer.author`. -/
theorem delete_question_without_identity (mixed : JSVal → JSVal → Bool) :
    QuestionsTab.groupedDeleteQuestion none
        (.obj [(js "id", .num false 7 0), (js "anonymous", .bool true), (js "author", .null)]) =
      true ∧
    QuestionsTab.regularDeleteQuestion mixed none
        (.obj [(js "id", .num false 7 0), (js "anonymous", .bool true), (js "author", .null)]) =
      true ∧
    QuestionsTab.groupedDeleteQuestion
        (some { id := .undefined, email := .str (js "a@x.io"), role := .str (js "STUDENT") })
        (.obj [(js "id", .num false 7 0), (js "anonymous", .bool true), (js "author", .null)]) =
      true ∧
    QuestionsTab.regularDeleteQuestion mixed
        (some { id := .undefined, email := .str (js "a@x.io"), role := .str (js "STUDENT") })
        (.obj [(js "id", .num false 7 0), (js "anonymous", .bool true), (js "author", .null)]) =
      true :=
  ⟨rfl, rfl, rfl, rfl⟩

/-- With an identity whose `id` is neither null nor undefined, the delete
control of a question is offered, in the grouped and in the regular view,
exactly when the question has an author whose `id` equals that of the identity
(`===` in the grouped view, `==` in the regular one), or the role is PROFESSOR
or ADMIN. -/
theorem delete_question_with_identity (mixed : JSVal → JSVal → Bool) (u : User)
    (question : JSVal) (hid : u.id.isNullish = false) :
    (QuestionsTab.groupedDeleteQuestion (some u) question = true ↔
      ((question.get (js "author")).isNullish = false ∧
        strictEquals u.id ((question.get (js "author")).get (js "id")) = true) ∨
      u.role = .str (js "PROFESSOR") ∨ u.role = .str (js "ADMIN")) ∧
    (QuestionsTab.regularDeleteQuestion mixed (some u) question = true ↔
      ((question.get (js "author")).isNullish = false ∧
        looseEquals mixed u.id ((question.get (js "author")).get (js "id")) = true) ∨
      u.role = .str (js "PROFESSOR") ∨ u.role = .str (js "ADMIN")) := by
  constructor
  · simp only [QuestionsTab.groupedDeleteQuestion, QuestionsTab.isProfessor,
      QuestionsTab.isAdmin, userId, userRole, Bool.or_eq_true, strictEquals_str,
      strictEquals_authorId u.id question hid, or_assoc]
  · simp only [QuestionsTab.regularDeleteQuestion, QuestionsTab.isProfessor,
      QuestionsTab.isAdmin, userId, userRole, Bool.or_eq_true, strictEquals_str,
      looseEquals_authorId mixed u.id question hid, or_assoc]

/-- C17, as stated, fails: for an ADMIN who is not the author of the answer,
`QuestionsTab` offers the delete control and the component `Answer`, given
`onDelete`, does not. -/
theorem delete_answer_admin_counterexample :
    Answer.deleteOffered
        (some { id := .num false 1 0, email := .str (js "root@x.io"), role := .str (js "ADMIN") })
        (.obj [(js "id", .num false 3 0),
          (js "author", .obj [(js "id", .num false 2 0), (js "role", .str (js "STUDENT"))])])
        true = false ∧
    QuestionsTab.groupedDeleteAnswer
        (some { id := .num false 1 0, email := .str (js "root@x.io"), role := .str (js "ADMIN") })
        (.obj [(js "id", .num false 3 0),
          (js "author", .obj [(js "id", .num false 2 0), (js "role", .str (js "STUDENT"))])]) =
      true :=
  ⟨rfl, rfl⟩

/-- C17, amended: with an identity whose `id` is neither null nor undefined,
`QuestionsTab` offers the delete control of an answer, in the grouped and in
the regular view, exactly when the answer has an author whose `id` equals that
of the identity (`===` in the grouped view, `==` in the regular one), or the
role is PROFESSOR or ADMIN; the component `Answer` offers it exactly when it
was given `onDelete` and the answer has an author whose `id` is `===` that of
the identity, or the role is PROFESSOR, so not to an ADMIN who is not the
author; and without an identity the component `Answer` never offers it. -/
theorem delete_answer_rules (mixed : JSVal → JSVal → Bool) (u : User) (answer : JSVal)
    (onDelete : Bool) (hid : u.id.isNullish = false) :
    (QuestionsTab.groupedDeleteAnswer (some u) answer = true ↔
      ((answer.get (js "author")).isNullish = false ∧
        strictEquals u.id ((answer.get (js "author")).get (js "id")) = true) ∨
      u.role = .str (js "PROFESSOR") ∨ u.role = .str (js "ADMIN")) ∧
    (QuestionsTab.regularDeleteAnswer mixed (some u) answer = true ↔
      ((answer.get (js "author")).isNullish = false ∧
        looseEquals mixed u.id ((answer.get (js "author")).get (js "id")) = true) ∨
      u.role = .str (js "PROFESSOR") ∨ u.role = .str (js "ADMIN")) ∧
    (Answer.deleteOffered (some u) answer onDelete = true ↔
      onDelete = true ∧
        (((answer.get (js "author")).isNullish = false ∧
          strictEquals u.id ((answer.get (js "author")).get (js "id")) = true) ∨
        u.role = .str (js "PROFESSOR"))) ∧
    Answer.deleteOffered none answer onDelete = false := by
  refine ⟨?_, ?_, ?_, ?_⟩
  · simp only [QuestionsTab.groupedDeleteAnswer, QuestionsTab.isProfessor,
      QuestionsTab.isAdmin, userId, userRole, Bool.or_eq_true, strictEquals_str,
      strictEquals_authorId u.id answer hid, or_assoc]
  · simp only [QuestionsTab.regularDeleteAnswer, QuestionsTab.isProfessor,
      QuestionsTab.isAdmin, userId, userRole, Bool.or_eq_true, strictEquals_str,
      looseEquals_authorId mixed u.id answer hid, or_assoc]
  · have hne : ¬ u.id = .undefined := by
      intro e
      rw [e] at hid
      exact absurd hid (by decide)
    have hauthor : ((answer.get (js "author")).truthy = true ∧
          strictEquals u.id ((answer.get (js "author")).get (js "id")) = true) ↔
        ((answer.get (js "author")).isNullish = false ∧
          strictEquals u.id ((answer.get (js "author")).get (js "id")) = true) := by
      constructor
      · rintro ⟨h1, h2⟩
        refine ⟨?_, h2⟩
        cases h : answer.get (js "author") <;> simp_all [JSVal.truthy, JSVal.isNullish]
      · rintro ⟨h1, h2⟩
        refine ⟨?_, h2⟩
        by_contra hf
        have hf1 : (answer.get (js "author")).truthy = false := by simpa using hf
        rw [get_id_of_falsy _ hf1, strictEquals_undefined] at h2
        exact hne h2
    simp only [Answer.deleteOffered, Answer.isAuthor, Answer.isProfessor, Bool.and_eq_true,
      Bool.or_eq_true, strictEquals_str, hauthor]
    tauto
  · simp [Answer.deleteOffered, Answer.isAuthor, Answer.isProfessor]

/-- C17, amended, at a student with the id 5 and an answer whose author has
the id 5: the three places offer the delete control. -/
theorem delete_answer_rules_witness :
    QuestionsTab.groupedDeleteAnswer
        (some { id := .num false 5 0, email := .str (js "s@x.io"), role := .str (js "STUDENT") })
        (.obj [(js "id", .num false 3 0), (js "author", .obj [(js "id", .num false 5 0)])]) =
      true ∧
    Answer.deleteOffered
        (some { id := .num false 5 0, email := .str (js "s@x.io"), role := .str (js "STUDENT") })
        (.obj [(js "id", .num false 3 0), (js "author", .obj [(js "id", .num false 5 0)])])
        true = true :=
  ⟨(delete_answer_rules (fun _ _ => false)
      { id := .num false 5 0, email := .str (js "s@x.io"), role := .str (js "STUDENT") }
      (.obj [(js "id", .num false 3 0), (js "author", .obj [(js "id", .num false 5 0)])])
      true rfl).1.2 (Or.inl ⟨rfl, rfl⟩),
    (delete_answer_rules (fun _ _ => false)
      { id := .num false 5 0, email := .str (js "s@x.io"), role := .str (js "STUDENT") }
      (.obj [(js "id", .num false 3 0), (js "author", .obj [(js "id", .num false 5 0)])])
      true rfl).2.2.1.2 ⟨rfl, Or.inl ⟨rfl, rfl⟩⟩⟩


/-- C18: the verify control of an answer is offered only to an identity whose
role is PROFESSOR, in the grouped view, in the regular view and in the
component `Answer` (so never without an identity, nor to a STUDENT or an
ADMIN); and in `QuestionsTab`, where the condition takes the answer, it is the
same whatever the author of the answer is set to. -/
theorem verify_answer_professor_only (user : Option User) (answer : JSVal) (onVerify : Bool)
    (props : List (JSString × JSVal)) (author : JSVal) :
    (QuestionsTab.groupedVerifyAnswer user answer = true →
      ∃ u, user = some u ∧ u.role = .str (js "PROFESSOR")) ∧
    (QuestionsTab.regularVerifyAnswer user answer = true →
      ∃ u, user = some u ∧ u.role = .str (js "PROFESSOR")) ∧
    (Answer.verifyOffered user onVerify = true →
      ∃ u, user = some u ∧ u.role = .str (js "PROFESSOR")) ∧
    QuestionsTab.groupedVerifyAnswer user (.obj (setProp (js "author") author props)) =
      QuestionsTab.groupedVerifyAnswer user (.obj props) ∧
    QuestionsTab.regularVerifyAnswer user (.obj (setProp (js "author") author props)) =
      QuestionsTab.regularVerifyAnswer user (.obj props) := by
  have hkey : js "verified" ≠ js "author" := by decide
  have hget : (JSVal.obj (setProp (js "author") author props)).get (js "verified") =
      (JSVal.obj props).get (js "verified") := by
    simp only [JSVal.get]
    exact lookupProp_setProp_of_ne _ _ _ _ hkey
  refine ⟨?_, ?_, ?_, ?_, ?_⟩
  · intro h
    simp only [QuestionsTab.groupedVerifyAnswer, QuestionsTab.isProfessor,
      Bool.and_eq_true] at h
    exact (isProfessor_iff user).1 h.1
  · intro h
    simp only [QuestionsTab.regularVerifyAnswer, QuestionsTab.isProfessor,
      Bool.and_eq_true] at h
    exact (isProfessor_iff user).1 h.1
  · intro h
    simp only [Answer.verifyOffered, Bool.and_eq_true] at h
    cases user with
    | none => simp [Answer.isProfessor] at h
    | some u =>
      refine ⟨u, rfl, ?_⟩
      exact (strictEquals_str _ _).1 (by simpa [Answer.isProfessor] using h.1)
  · simp only [QuestionsTab.groupedVerifyAnswer, hget]
  · simp only [QuestionsTab.regularVerifyAnswer, hget]

/-- C18 at a professor and an answer that is not verified, where the control
is offered; for a student, an admin and no identity it is not. -/
theorem verify_answer_professor_only_witness :
    (∃ u : User,
      some ({ id := .num false 4 0, email := .str (js "p@x.io"),
              role := .str (js "PROFESSOR") } : User) = some u ∧
        u.role = .str (js "PROFESSOR")) ∧
    QuestionsTab.groupedVerifyAnswer
        (some { id := .num false 5 0, email := .str (js "s@x.io"), role := .str (js "STUDENT") })
        (.obj [(js "id", .num false 3 0), (js "verified", .bool false)]) = false ∧
    QuestionsTab.groupedVerifyAnswer
        (some { id := .num false 1 0, email := .str (js "root@x.io"), role := .str (js "ADMIN") })
        (.obj [(js "id", .num false 3 0), (js "verified", .bool false)]) = false ∧
    QuestionsTab.groupedVerifyAnswer none
        (.obj [(js "id", .num false 3 0), (js "verified", .bool false)]) = false :=
  ⟨(verify_answer_professor_only
      (some { id := .num false 4 0, email := .str (js "p@x.io"), role := .str (js "PROFESSOR") })
      (.obj [(js "id", .num false 3 0), (js "verified", .bool false)]) true [] .null).1 rfl,
    rfl, rfl, rfl⟩

/-- C19: the delete control of `CourseCard` and the edit control of the
grading guide in `GuideTab` are offered only to an identity whose role is
PROFESSOR (so never without an identity, nor to a STUDENT or an ADMIN), and
the decision is the same for every course. -/
theorem manage_course_professor_only (user : Option User) (course other : JSVal)
    (onDelete isEditing : Bool) :
    (CourseCard.deleteOffered user course onDelete = true →
      ∃ u, user = some u ∧ u.role = .str (js "PROFESSOR")) ∧
    (GuideTab.editOffered user course isEditing = true →
      ∃ u, user = some u ∧ u.role = .str (js "PROFESSOR")) ∧
    CourseCard.deleteOffered user course onDelete = CourseCard.deleteOffered user other onDelete ∧
    GuideTab.editOffered user course isEditing = GuideTab.editOffered user other isEditing := by
  refine ⟨?_, ?_, rfl, rfl⟩
  · intro h
    simp only [CourseCard.deleteOffered, CourseCard.isOwner, Bool.and_eq_true] at h
    exact (isProfessor_iff user).1 h.1
  · intro h
    simp only [GuideTab.editOffered, GuideTab.isProfessor, Bool.and_eq_true] at h
    exact (isProfessor_iff user).1 h.1

/-- C19 at a professor and a course of another professor, where both controls
are offered; for an admin, a student and no identity they are not. -/
theorem manage_course_professor_only_witness :
    (∃ u : User,
      some ({ id := .num false 4 0, email := .str (js "p@x.io"),
              role := .str (js "PROFESSOR") } : User) = some u ∧
        u.role = .str (js "PROFESSOR")) ∧
    CourseCard.deleteOffered
        (some { id := .num false 1 0, email := .str (js "root@x.io"), role := .str (js "ADMIN") })
        (.obj [(js "id", .num false 2 0), (js "professor", .obj [(js "id", .num false 9 0)])])
        true = false ∧
    GuideTab.editOffered
        (some { id := .num false 5 0, email := .str (js "s@x.io"), role := .str (js "STUDENT") })
        (.obj [(js "id", .num false 2 0), (js "professor", .obj [(js "id", .num false 9 0)])])
        false = false ∧
    CourseCard.deleteOffered none
        (.obj [(js "id", .num false 2 0), (js "professor", .obj [(js "id", .num false 9 0)])])
        true = false :=
  ⟨(manage_course_professor_only
      (some { id := .num false 4 0, email := .str (js "p@x.io"), role := .str (js "PROFESSOR") })
      (.obj [(js "id", .num false 2 0), (js "professor", .obj [(js "id", .num false 9 0)])])
      .null true false).1 rfl,
    rfl, rfl, rfl⟩

/-- C20: the guard is pending whenever the session is loading, whatever the
identity; once it is not, denied-unauthenticated without an identity; with an
identity, allowed when the view declares no roles or the role of the identity
is among them, and denied-forbidden when it declares roles and the role is not
among them. -/
theorem roleGate_decision (user : Option User) (u : User) (roles : Option (List JSString))
    (required : List JSString) :
    roleGate true user roles = .pending ∧
    roleGate false none roles = .deniedUnauthenticated ∧
    roleGate false (some u) none = .allowed ∧
    (u.role ∈ required.map JSVal.str → roleGate false (some u) (some required) = .allowed) ∧
    (u.role ∉ required.map JSVal.str →
      roleGate false (some u) (some required) = .deniedForbidden) := by
  have hany : required.any (fun r => strictEquals u.role (.str r)) = true ↔
      u.role ∈ required.map JSVal.str := by
    simp only [List.any_eq_true, strictEquals_str, List.mem_map]
    constructor
    · rintro ⟨r, hr, e⟩
      exact ⟨r, hr, e.symm⟩
    · rintro ⟨r, hr, e⟩
      exact ⟨r, hr, e.symm⟩
  refine ⟨rfl, rfl, rfl, ?_, ?_⟩
  · intro h
    simp [roleGate, hany.2 h]
  · intro h
    have hf : ¬ required.any (fun r => strictEquals u.role (.str r)) = true := fun e => h (hany.1 e)
    simp [roleGate, hf]

/-- C20 on the route `/admin` of `App.js`, which declares the role ADMIN: a
STUDENT is denied as forbidden and an ADMIN is allowed. -/
theorem roleGate_decision_witness :
    protectedRoutes.lookup (js "/admin") = some (some [js "ADMIN"]) ∧
    roleGate false
        (some { id := .num false 5 0, email := .str (js "s@x.io"), role := .str (js "STUDENT") })
        (some [js "ADMIN"]) = .deniedForbidden ∧
    roleGate false
        (some { id := .num false 1 0, email := .str (js "root@x.io"), role := .str (js "ADMIN") })
        (some [js "ADMIN"]) = .allowed :=
  ⟨rfl,
    (roleGate_decision none
      { id := .num false 5 0, email := .str (js "s@x.io"), role := .str (js "STUDENT") }
      none [js "ADMIN"]).2.2.2.2 (by simp [js, utf16Units]),
    (roleGate_decision none
      { id := .num false 1 0, email := .str (js "root@x.io"), role := .str (js "ADMIN") }
      none [js "ADMIN"]).2.2.2.1 (by simp)⟩

/-! ## Error messages, the forms and the lists of the views -/

theorem getErrorMessageByStatus_ne_nil (status : Nat) : getErrorMessageByStatus status ≠ [] := by
  unfold getErrorMessageByStatus
  split_ifs <;> decide

theorem parseStringBodyMessage_ne_nil (data : JSString) (h : data ≠ []) :
    parseStringBodyMessage data ≠ [] := by
  unfold parseStringBodyMessage
  split_ifs
  · decide
  · decide
  · decide
  · exact h

theorem truthy_str (m : JSString) : (JSVal.str m).truthy = true ↔ m ≠ [] := by
  cases m <;> simp [JSVal.truthy]

/-- When the `message` of the body, if truthy, is a string, `parseErrorMessage`
returns, and what it returns is a non-empty string. -/
theorem parseErrorMessage_of_text (error : RequestError)
    (h : ∀ response, error.response = some response →
      (optionalMessage response.data).truthy = true →
      ∃ m, optionalMessage response.data = .str m) :
    ∃ m, parseErrorMessage error = .ok (.str m) ∧ m ≠ [] := by
  unfold parseErrorMessage
  cases hr : error.response with
  | none => exact ⟨_, rfl, by decide⟩
  | some response =>
    have hvia : ∃ m,
        (if (optionalMessage response.data).truthy = true then
          match (optionalMessage response.data).includes (js "not found") with
          | .error e => .error e
          | .ok true => .ok (.str ERROR_MESSAGES.COURSE_NOT_FOUND)
          | .ok false =>
            match (optionalMessage response.data).includes (js "Invalid credentials") with
            | .error e => .error e
            | .ok true => .ok (.str ERROR_MESSAGES.INVALID_CREDENTIALS)
            | .ok false =>
              match (optionalMessage response.data).includes (js "already enrolled") with
              | .error e => .error e
              | .ok true => .ok (.str ERROR_MESSAGES.ALREADY_ENROLLED)
              | .ok false => .ok (optionalMessage response.data)
        else (.ok (.str (getErrorMessageByStatus response.status)) : Except JSError JSVal)) =
          .ok (.str m) ∧ m ≠ [] := by
      by_cases ht : (optionalMessage response.data).truthy = true
      · obtain ⟨m, hm⟩ := h response hr ht
        rw [hm] at ht
        have hne : m ≠ [] := (truthy_str m).1 ht
        simp only [hm, ht, if_true, JSVal.includes]
        cases includesStr (js "not found") m
        · cases includesStr (js "Invalid credentials") m
          · cases includesStr (js "already enrolled") m
            · exact ⟨m, rfl, hne⟩
            · exact ⟨_, rfl, by decide⟩
          · exact ⟨_, rfl, by decide⟩
        · exact ⟨_, rfl, by decide⟩
      · simp only [ht, Bool.false_eq_true, if_false]
        exact ⟨_, rfl, getErrorMessageByStatus_ne_nil _⟩
    simp only []
    cases hd : response.data with
    | str data =>
      by_cases hlen : 0 < data.length
      · simp only [hlen, if_true]
        exact ⟨_, rfl, parseStringBodyMessage_ne_nil data (by
          intro e
          rw [e] at hlen
          exact absurd hlen (by decide))⟩
      · rw [hd] at hvia
        simpa only [hlen, if_false] using hvia
    | undefined => rw [hd] at hvia; simpa using hvia
    | null => rw [hd] at hvia; simpa using hvia
    | bool b => rw [hd] at hvia; simpa using hvia
    | num n m e => rw [hd] at hvia; simpa using hvia
    | arr xs => rw [hd] at hvia; simpa using hvia
    | obj ps => rw [hd] at hvia; simpa using hvia
    | fn name => rw [hd] at hvia; simpa using hvia


/-- C21 at failing inputs: the request fails with status 400 and the body
`{"message": 42}`. `data.message` is truthy and has no method `includes`, so
`parseErrorMessage` throws a `TypeError` inside the `catch` block, and
`register` and `login` reject. With the body `{"message": ["Email is invalid"]}`
`login` returns, and the message it returns is an array, not a string. -/
theorem auth_failure_not_resolved :
    registerResult (.rejected
        (some { status := 400, data := .obj [(js "message", .num false 42 0)] })) =
      .error .typeError ∧
    loginResult (.rejected
        (some { status := 400, data := .obj [(js "message", .num false 42 0)] })) =
      .error .typeError ∧
    loginResult (.rejected
        (some { status := 400
                data := .obj [(js "message", .arr [.str (js "Email is invalid")])] })) =
      .ok { success := false, message := some (.arr [.str (js "Email is invalid")]) } :=
  ⟨rfl, rfl, rfl⟩

/-- When the `message` of the error body, if truthy, is a string, `login` and
`register` resolve to `{ success: false, message }` with a non-empty string. -/
theorem auth_failure_resolved_of_text (response : Option ErrorResponse)
    (h : ∀ r, response = some r → (optionalMessage r.data).truthy = true →
      ∃ m, optionalMessage r.data = .str m) :
    (∃ m, loginResult (.rejected response) = .ok { success := false, message := some (.str m) } ∧
      m ≠ []) ∧
    (∃ m, registerResult (.rejected response) =
      .ok { success := false, message := some (.str m) } ∧ m ≠ []) := by
  constructor
  · obtain ⟨m, hm, hne⟩ := parseErrorMessage_of_text (postError (js "/auth/login") response) h
    exact ⟨m, by simp [loginResult, failureResult, hm], hne⟩
  · obtain ⟨m, hm, hne⟩ := parseErrorMessage_of_text (postError (js "/auth/register") response) h
    exact ⟨m, by simp [registerResult, failureResult, hm], hne⟩

/-- C22 at a failing input: a 404 whose body is
`{"message": {"code": "NOT_FOUND"}}`. `data.message` is truthy, so the third
source applies, and `data.message.includes` is not callable: `parseErrorMessage`
throws a `TypeError` and returns neither a friendly text nor the message. -/
theorem parseErrorMessage_throws :
    parseErrorMessage
        { url := some (js "/courses/7")
          response := some
            { status := 404
              data := .obj [(js "message", .obj [(js "code", .str (js "NOT_FOUND"))])] } } =
      .error .typeError :=
  rfl

/-- The order of the sources of `parseErrorMessage`, for a `message` that,
when truthy, is a string: no response; a non-empty string body; a truthy
`message`; the status. -/
theorem parseErrorMessage_order (url : Option JSString) (status : Nat) (data : JSVal)
    (body message : JSString) :
    parseErrorMessage { url := url, response := none } =
      .ok (.str ERROR_MESSAGES.NETWORK_ERROR) ∧
    (body ≠ [] →
      parseErrorMessage { url := url, response := some { status := status, data := .str body } } =
        .ok (.str
          (if includesStr (js "Invalid email or password") body then
            ERROR_MESSAGES.INVALID_CREDENTIALS
          else if includesStr (js "Email already exists") body then
            js "An account with this email already exists. Please sign in instead."
          else if includesStr (js "Registration failed") body then
            js "Registration failed. Please check your information and try again."
          else body))) ∧
    ((∀ s, data = .str s → s = []) → optionalMessage data = .str message → message ≠ [] →
      parseErrorMessage { url := url, response := some { status := status, data := data } } =
        .ok (.str
          (if includesStr (js "not found") message then ERROR_MESSAGES.COURSE_NOT_FOUND
          else if includesStr (js "Invalid credentials") message then
            ERROR_MESSAGES.INVALID_CREDENTIALS
          else if includesStr (js "already enrolled") message then
            ERROR_MESSAGES.ALREADY_ENROLLED
          else message))) ∧
    ((∀ s, data = .str s → s = []) → (optionalMessage data).truthy = false →
      parseErrorMessage { url := url, response := some { status := status, data := data } } =
        .ok (.str (getErrorMessageByStatus status))) ∧
    (status ∉ [400, 401, 403, 404, 408, 500, 502, 503] →
      getErrorMessageByStatus status = ERROR_MESSAGES.UNKNOWN_ERROR) := by
  refine ⟨rfl, ?_, ?_, ?_, ?_⟩
  · intro hb
    have hlen : 0 < body.length := List.length_pos.2 hb
    simp only [parseErrorMessage, hlen, if_true, parseStringBodyMessage]
  · intro hdata hm hne
    have ht : (JSVal.str message).truthy = true := (truthy_str message).2 hne
    cases data with
    | str s =>
      have hs := hdata s rfl
      subst hs
      simp [optionalMessage, JSVal.get] at hm
      split_ifs at hm
    | undefined => simp [optionalMessage] at hm
    | null => simp [optionalMessage] at hm
    | bool b =>
      simp only [parseErrorMessage, hm, ht, if_true, JSVal.includes]
      cases includesStr (js "not found") message <;>
        cases includesStr (js "Invalid credentials") message <;>
          cases includesStr (js "already enrolled") message <;> rfl
    | num n m e =>
      simp only [parseErrorMessage, hm, ht, if_true, JSVal.includes]
      cases includesStr (js "not found") message <;>
        cases includesStr (js "Invalid credentials") message <;>
          cases includesStr (js "already enrolled") message <;> rfl
    | arr xs =>
      simp only [parseErrorMessage, hm, ht, if_true, JSVal.includes]
      cases includesStr (js "not found") message <;>
        cases includesStr (js "Invalid credentials") message <;>
          cases includesStr (js "already enrolled") message <;> rfl
    | obj ps =>
      simp only [parseErrorMessage, hm, ht, if_true, JSVal.includes]
      cases includesStr (js "not found") message <;>
        cases includesStr (js "Invalid credentials") message <;>
          cases includesStr (js "already enrolled") message <;> rfl
    | fn name =>
      simp only [parseErrorMessage, hm, ht, if_true, JSVal.includes]
      cases includesStr (js "not found") message <;>
        cases includesStr (js "Invalid credentials") message <;>
          cases includesStr (js "already enrolled") message <;> rfl
  · intro hdata hf
    cases data with
    | str s =>
      have hs := hdata s rfl
      subst hs
      simp [parseErrorMessage, hf]
    | undefined => simp [parseErrorMessage, hf]
    | null => simp [parseErrorMessage, hf]
    | bool b => simp [parseErrorMessage, hf]
    | num n m e => simp [parseErrorMessage, hf]
    | arr xs => simp [parseErrorMessage, hf]
    | obj ps => simp [parseErrorMessage, hf]
    | fn name => simp [parseErrorMessage, hf]
  · intro h
    simp only [List.mem_cons, List.mem_singleton, List.not_mem_nil, or_false, not_or] at h
    simp [getErrorMessageByStatus, h]


theorem step_token_stored (parse : JSString → Except JSError JSVal) (s s1 : AppState)
    (a : Action) (h : step parse s a = .ok s1)
    (hs : s.token = s.stored ∨ (s.token = none ∧ s.stored = some [])) :
    s1.token = s1.stored ∨ (s1.token = none ∧ s1.stored = some []) := by
  cases a with
  | login outcome =>
    cases outcome with
    | fulfilled data =>
      simp only [step, loginState, afterUpdate] at h
      split_ifs at h with hsame
      · injection h with h
        subst h
        exact Or.inl rfl
      · obtain ⟨s2, h2, -, h3, h4, -⟩ := effect_spec parse
          { s with token := some data.token
                   user := some { id := data.id, email := data.email, role := data.role }
                   stored := some data.token }
        rw [h2] at h
        injection h with h
        subst h
        exact Or.inl (h3.trans h4.symm)
    | rejected response =>
      simp only [step, loginState, responseInterceptor_login] at h
      injection h with h
      subst h
      exact hs
  | register outcome =>
    have hr : registerState outcome s = s := by
      cases outcome with
      | fulfilled data => rfl
      | rejected response => simp [registerState, responseInterceptor_register]
    simp only [step, hr] at h
    injection h with h
    subst h
    exact hs
  | logout =>
    obtain ⟨s2, h2, -, h3, h4, -⟩ := logoutState_spec parse s
    simp only [step, h2] at h
    injection h with h
    subst h
    exact Or.inl (h3.trans h4.symm)

theorem run_token_stored (parse : JSString → Except JSError JSVal) (actions : List Action) :
    ∀ s s1 : AppState, run parse s actions = .ok s1 →
      (s.token = s.stored ∨ (s.token = none ∧ s.stored = some [])) →
      (s1.token = s1.stored ∨ (s1.token = none ∧ s1.stored = some [])) := by
  induction actions with
  | nil =>
    intro s s1 h hs
    simp only [run] at h
    injection h with h
    subst h
    exact hs
  | cons a rest ih =>
    intro s s1 h hs
    obtain ⟨s2, h2, -⟩ := step_spec parse s a
    simp only [run, h2] at h
    exact ih s2 s1 h (step_token_stored parse s s2 a h2 hs)

theorem initialState_token_stored (stored : Option JSString) (href : JSString) :
    (initialState stored href).token = (initialState stored href).stored ∨
      ((initialState stored href).token = none ∧
        (initialState stored href).stored = some []) := by
  cases stored with
  | none => exact Or.inl rfl
  | some t =>
    cases t with
    | nil => exact Or.inr ⟨rfl, rfl⟩
    | cons c cs => exact Or.inl rfl

/-- C30: the token of the state and the stored credential stay in step. In
the initial state of the provider, and in the settled state after every
sequence of login (accepted or failed), register and logout from application
start, the token equals the stored value, or the token is null and the stored
value is the empty string (an absent stored value goes with a null token by
the first case). -/
theorem token_in_step (parse : JSString → Except JSError JSVal) (stored : Option JSString)
    (href : JSString) (actions : List Action) :
    ((initialState stored href).token = (initialState stored href).stored ∨
      ((initialState stored href).token = none ∧
        (initialState stored href).stored = some [])) ∧
    ∃ s, session parse stored href actions = .ok s ∧
      (s.token = s.stored ∨ (s.token = none ∧ s.stored = some [])) := by
  have hinit := initialState_token_stored stored href
  refine ⟨hinit, ?_⟩
  obtain ⟨s0, h0, -, h3, h4, -⟩ := effect_spec parse (initialState stored href)
  have hs0 : s0.token = s0.stored ∨ (s0.token = none ∧ s0.stored = some []) := by
    rw [h3, h4]
    exact hinit
  obtain ⟨s1, h1, -⟩ := run_spec parse actions s0
  refine ⟨s1, by simp [session, mount, h0, h1], ?_⟩
  exact run_token_stored parse actions s0 s1 h1 hs0

/-- C26: the three formatters agree on every integer number of elapsed
seconds, negative ones included: they choose the same case and print the same
number. -/
theorem timeAgo_agree (seconds : Int) :
    Answer.getTimeAgo seconds = QuestionsTab.formatTimeAgo seconds ∧
    Answer.getTimeAgo seconds = Navbar.formatTimeAgo seconds ∧
    QuestionsTab.formatTimeAgo seconds = Navbar.formatTimeAgo seconds := by
  have h : Answer.getTimeAgo seconds = QuestionsTab.formatTimeAgo seconds := by
    unfold Answer.getTimeAgo QuestionsTab.formatTimeAgo
    by_cases h1 : seconds < 60
    · simp only [h1, if_true]
    · by_cases h2 : seconds < 3600
      · have e2 : seconds / 60 < 60 := by omega
        simp only [h1, h2, e2, if_true, if_false]
      · have e2 : ¬ seconds / 60 < 60 := by omega
        have ea : seconds / 60 / 60 = seconds / 3600 := by omega
        have eb : seconds / 3600 / 24 = seconds / 86400 := by omega
        simp only [h1, h2, e2, ea, eb, if_false]
        by_cases h3 : seconds < 86400
        · have e3 : seconds / 3600 < 24 := by omega
          simp only [h3, e3, if_true]
        · have e3 : ¬ seconds / 3600 < 24 := by omega
          by_cases h4 : seconds < 604800
          · have e5 : seconds / 86400 < 7 := by omega
            simp only [h3, h4, e3, e5, if_true, if_false]
          · have e5 : ¬ seconds / 86400 < 7 := by omega
            simp only [h3, h4, e3, e5, if_false]
  exact ⟨h, h, rfl⟩

/-- C27: for every question whose `anonymous` is truthy `getAuthorName`
returns `Anonymous`, whatever the conversions of the platform; so the label
of an anonymous question is the same whatever its author is set to. -/
theorem anonymous_author_label (toStr : JSVal → JSString) (toUpperCase : JSString → JSString)
    (question : JSVal) (props : List (JSString × JSVal)) (author other : JSVal) :
    ((question.get (js "anonymous")).truthy = true →
      QuestionsTab.getAuthorName toStr toUpperCase question = .ok (js "Anonymous")) ∧
    ((lookupProp (js "anonymous") props).truthy = true →
      QuestionsTab.getAuthorName toStr toUpperCase (.obj (setProp (js "author") author props)) =
        QuestionsTab.getAuthorName toStr toUpperCase
          (.obj (setProp (js "author") other props))) := by
  have hfirst : ∀ q : JSVal, (q.get (js "anonymous")).truthy = true →
      QuestionsTab.getAuthorName toStr toUpperCase q = .ok (js "Anonymous") := by
    intro q hq
    simp [QuestionsTab.getAuthorName, hq]
  refine ⟨hfirst question, fun h => ?_⟩
  have hkey : js "anonymous" ≠ js "author" := by decide
  have hget : ∀ a : JSVal,
      ((JSVal.obj (setProp (js "author") a props)).get (js "anonymous")).truthy = true := by
    intro a
    simp only [JSVal.get]
    rw [lookupProp_setProp_of_ne _ _ _ _ hkey]
    exact h
  rw [hfirst _ (hget author), hfirst _ (hget other)]

/-- C27 at two anonymous questions with different authors. -/
theorem anonymous_author_label_witness :
    QuestionsTab.getAuthorName (fun _ => []) id
        (.obj [(js "id", .num false 7 0), (js "anonymous", .bool true),
          (js "author", .obj [(js "firstname", .str (js "Ada")),
            (js "lastname", .str (js "Byron")), (js "role", .str (js "PROFESSOR"))])]) =
      .ok (js "Anonymous") ∧
    QuestionsTab.getAuthorName (fun _ => []) id
        (.obj [(js "id", .num false 8 0), (js "anonymous", .bool true),
          (js "author", .obj [(js "email", .str (js "bob.stone@x.io")),
            (js "role", .str (js "STUDENT"))])]) =
      .ok (js "Anonymous") :=
  ⟨(anonymous_author_label (fun _ => []) id
      (.obj [(js "id", .num false 7 0), (js "anonymous", .bool true),
        (js "author", .obj [(js "firstname", .str (js "Ada")),
          (js "lastname", .str (js "Byron")), (js "role", .str (js "PROFESSOR"))])])
      [] .null .null).1 rfl,
    (anonymous_author_label (fun _ => []) id
      (.obj [(js "id", .num false 8 0), (js "anonymous", .bool true),
        (js "author", .obj [(js "email", .str (js "bob.stone@x.io")),
          (js "role", .str (js "STUDENT"))])])
      [] .null .null).1 rfl⟩

/-- C28 at a failing input: for the anonymous question of a professor,
`{"id": 7, "anonymous": true, "author": {"id": 4, "role": "PROFESSOR"}}`, the
question card shows the PROFESSOR badge in the grouped and in the regular
view: `isProfessorQuestion` does not read `anonymous`. For an answer with the
same fields the badge is not shown, its condition having `!answer.anonymous`. -/
theorem anonymous_question_badge :
    QuestionsTab.groupedQuestionBadge
        (.obj [(js "id", .num false 7 0), (js "anonymous", .bool true),
          (js "author", .obj [(js "id", .num false 4 0), (js "role", .str (js "PROFESSOR"))])]) =
      true ∧
    QuestionsTab.regularQuestionBadge
        (.obj [(js "id", .num false 7 0), (js "anonymous", .bool true),
          (js "author", .obj [(js "id", .num false 4 0), (js "role", .str (js "PROFESSOR"))])]) =
      true ∧
    QuestionsTab.answerBadge
        (.obj [(js "id", .num false 7 0), (js "anonymous", .bool true),
          (js "author", .obj [(js "id", .num false 4 0), (js "role", .str (js "PROFESSOR"))])]) =
      false :=
  ⟨rfl, rfl, rfl⟩

/-- The PROFESSOR badge of an answer is never shown for an anonymous answer. -/
theorem anonymous_answer_badge (answer : JSVal)
    (h : (answer.get (js "anonymous")).truthy = true) :
    QuestionsTab.answerBadge answer = false := by
  simp [QuestionsTab.answerBadge, h]

/-- C23, as stated, fails: the password `😀😀😀` has three characters, each
of them two UTF-16 code units, so its `length` is 6 and the form calls
`register(formData)` with a password of fewer than six characters. -/
theorem register_validation_counterexample :
    (codePoints "😀😀😀").length = 3 ∧
    (js "😀😀😀").length = 6 ∧
    Register.handleSubmit
        { email := js "ada@x.io", password := js "😀😀😀", role := js "STUDENT" } =
      .register { email := js "ada@x.io", password := js "😀😀😀", role := js "STUDENT" } :=
  ⟨by decide, by decide, rfl⟩

/-- C23, amended: the form calls `register(formData)` exactly when the email
and the password are not blank after `trim`, the `length` of the password, its
number of UTF-16 code units, is at least six and the role is not empty;
otherwise it makes no request and shows the error of the first check that
fails, in the order email, password, length, role. -/
theorem register_validation (formData : Register.FormData) :
    (Register.handleSubmit formData = .register formData ↔
      trim formData.email ≠ [] ∧ trim formData.password ≠ [] ∧
        6 ≤ formData.password.length ∧ formData.role ≠ []) ∧
    (trim formData.email = [] →
      Register.handleSubmit formData = .error (js "Email is required")) ∧
    (trim formData.email ≠ [] → trim formData.password = [] →
      Register.handleSubmit formData = .error (js "Password is required")) ∧
    (trim formData.email ≠ [] → trim formData.password ≠ [] → formData.password.length < 6 →
      Register.handleSubmit formData =
        .error (js "Password must be at least 6 characters long")) ∧
    (trim formData.email ≠ [] → trim formData.password ≠ [] → 6 ≤ formData.password.length →
      formData.role = [] →
      Register.handleSubmit formData = .error (js "Please select a role")) := by
  have hempty : ∀ l : JSString, l.isEmpty = true ↔ l = [] := fun l => List.isEmpty_iff
  unfold Register.handleSubmit
  refine ⟨?_, ?_, ?_, ?_, ?_⟩
  · by_cases h1 : trim formData.email = []
    · simp [h1]
    · by_cases h2 : trim formData.password = []
      · simp [h1, h2]
      · by_cases h3 : formData.password.length < 6
        · have h3' : ¬ 6 ≤ formData.password.length := by omega
          simp [h1, h2, h3, h3']
        · have h3' : 6 ≤ formData.password.length := by omega
          by_cases h4 : formData.role = []
          · simp [h1, h2, h3, h4]
          · simp [h1, h2, h3, h3', h4]
  · intro h1
    simp [h1]
  · intro h1 h2
    simp [h1, h2]
  · intro h1 h2 h3
    simp [h1, h2, h3]
  · intro h1 h2 h3 h4
    have h3' : ¬ formData.password.length < 6 := by omega
    simp [h1, h2, h3', h4]

/-- C23, amended, at a complete form, and at forms that fail each check in
turn. -/
theorem register_validation_witness :
    Register.handleSubmit
        { email := js "ada@x.io", password := js "secret", role := js "STUDENT" } =
      .register { email := js "ada@x.io", password := js "secret", role := js "STUDENT" } ∧
    Register.handleSubmit { email := js "  ", password := js "secret", role := js "STUDENT" } =
      .error (js "Email is required") ∧
    Register.handleSubmit { email := js "ada@x.io", password := js "   ", role := js "STUDENT" } =
      .error (js "Password is required") ∧
    Register.handleSubmit { email := js "ada@x.io", password := js "abc", role := js "STUDENT" } =
      .error (js "Password must be at least 6 characters long") ∧
    Register.handleSubmit { email := js "ada@x.io", password := js "secret", role := [] } =
      .error (js "Please select a role") :=
  ⟨(register_validation
      { email := js "ada@x.io", password := js "secret", role := js "STUDENT" }).1.2
      ⟨by decide, by decide, by decide, by decide⟩,
    (register_validation
      { email := js "  ", password := js "secret", role := js "STUDENT" }).2.1 (by decide),
    (register_validation
      { email := js "ada@x.io", password := js "   ", role := js "STUDENT" }).2.2.1
      (by decide) (by decide),
    (register_validation
      { email := js "ada@x.io", password := js "abc", role := js "STUDENT" }).2.2.2.1
      (by decide) (by decide) (by decide),
    (register_validation
      { email := js "ada@x.io", password := js "secret", role := [] }).2.2.2.2
      (by decide) (by decide) (by decide) rfl⟩


theorem perm_orderedInsertBy {α : Type} (le : α → α → Bool) (a : α) (l : List α) :
    (orderedInsertBy le a l).Perm (a :: l) := by
  induction l with
  | nil => exact List.Perm.refl _
  | cons b l ih =>
    unfold orderedInsertBy
    split_ifs
    · exact List.Perm.refl _
    · exact (List.Perm.cons b ih).trans (List.Perm.swap a b l)

theorem perm_stableSortBy {α : Type} (le : α → α → Bool) (l : List α) :
    (stableSortBy le l).Perm l := by
  induction l with
  | nil => exact List.Perm.refl _
  | cons a l ih =>
    exact (perm_orderedInsertBy le a (stableSortBy le l)).trans (List.Perm.cons a ih)

theorem pairwise_orderedInsertBy {α : Type} (le : α → α → Bool) (a : α) (l : List α)
    (htotal : ∀ x ∈ l, le a x = false → le x a = true)
    (htrans : ∀ x ∈ l, ∀ y ∈ l, le a x = true → le x y = true → le a y = true)
    (hl : l.Pairwise fun x y => le x y = true) :
    (orderedInsertBy le a l).Pairwise fun x y => le x y = true := by
  induction l with
  | nil => simp [orderedInsertBy]
  | cons b l ih =>
    have hb := List.pairwise_cons.1 hl
    unfold orderedInsertBy
    by_cases hab : le a b = true
    · rw [if_pos hab]
      refine List.pairwise_cons.2 ⟨?_, hl⟩
      intro y hy
      rcases List.mem_cons.1 hy with rfl | hy
      · exact hab
      · exact htrans b (by simp) y (by simp [hy]) hab (hb.1 y hy)
    · rw [if_neg hab]
      refine List.pairwise_cons.2 ⟨?_, ?_⟩
      · intro y hy
        rcases List.mem_cons.1 ((perm_orderedInsertBy le a l).mem_iff.1 hy) with rfl | hy
        · exact htotal b (by simp) (by simpa using hab)
        · exact hb.1 y hy
      · exact ih (fun x hx => htotal x (by simp [hx]))
          (fun x hx y hy => htrans x (by simp [hx]) y (by simp [hy])) hb.2

theorem pairwise_stableSortBy {α : Type} (le : α → α → Bool) (l : List α)
    (htotal : ∀ x ∈ l, ∀ y ∈ l, le x y = false → le y x = true)
    (htrans : ∀ x ∈ l, ∀ y ∈ l, ∀ z ∈ l, le x y = true → le y z = true → le x z = true) :
    (stableSortBy le l).Pairwise fun x y => le x y = true := by
  induction l with
  | nil => simp [stableSortBy]
  | cons a l ih =>
    have hmem : ∀ x, x ∈ stableSortBy le l → x ∈ a :: l := fun x hx =>
      List.mem_cons_of_mem _ ((perm_stableSortBy le l).mem_iff.1 hx)
    unfold stableSortBy
    apply pairwise_orderedInsertBy
    · exact fun x hx => htotal a (by simp) x (hmem x hx)
    · exact fun x hx y hy => htrans a (by simp) x (hmem x hx) y (hmem y hy)
    · exact ih (fun x hx y hy => htotal x (by simp [hx]) y (by simp [hy]))
        (fun x hx y hy z hz => htrans x (by simp [hx]) y (by simp [hy]) z (by simp [hz]))

theorem mayPrecede_of_valid (dateValue : JSVal → Option Int) (a b : Notification) (ta tb : Int)
    (ha : dateValue a.createdAt = some ta) (hb : dateValue b.createdAt = some tb) :
    Navbar.mayPrecede dateValue a b = true ↔ tb ≤ ta := by
  simp only [Navbar.mayPrecede, Navbar.compareByDate, ha, hb, decide_eq_true_eq]
  omega

theorem toNotifications_spec (type : JSString) (course : JSVal) (items : List JSVal)
    (ns : List Notification) (h : Navbar.toNotifications type course items = .ok ns) :
    ns.length = items.length ∧ ∀ n ∈ ns, n.type = type := by
  induction items generalizing ns with
  | nil =>
    simp only [Navbar.toNotifications] at h
    injection h with h
    subst h
    simp
  | cons item rest ih =>
    unfold Navbar.toNotifications at h
    cases h1 : Navbar.toNotification type course item with
    | error e => simp [h1] at h
    | ok n =>
      cases h2 : Navbar.toNotifications type course rest with
      | error e => simp [h1, h2] at h
      | ok ms =>
        simp only [h1, h2] at h
        injection h with h
        subst h
        obtain ⟨hlen, htype⟩ := ih ms h2
        have hn : n.type = type := by
          unfold Navbar.toNotification at h1
          split_ifs at h1
          injection h1 with h1
          subst h1
          rfl
        refine ⟨by simp [hlen], ?_⟩
        intro m hm
        rcases List.mem_cons.1 hm with rfl | hm
        · exact hn
        · exact htype m hm

theorem toNotifications_of_items (type : JSString) (course : JSVal) (items : List JSVal)
    (h : ∀ item ∈ items, item.isNullish = false) :
    Navbar.toNotifications type course items = .ok (items.map (Navbar.entry type course)) := by
  induction items with
  | nil => rfl
  | cons item rest ih =>
    have h1 : Navbar.toNotification type course item = .ok (Navbar.entry type course item) := by
      simp [Navbar.toNotification, h item (List.mem_cons_self _ _)]
    have h2 := ih (fun x hx => h x (List.mem_cons_of_mem _ hx))
    simp [Navbar.toNotifications, h1, h2]

theorem toNotifications_of_nullish (type : JSString) (course : JSVal) (items : List JSVal)
    (h : ∃ item ∈ items, item.isNullish = true) :
    ∃ e, Navbar.toNotifications type course items = .error e := by
  induction items with
  | nil => simp at h
  | cons item rest ih =>
    unfold Navbar.toNotifications
    cases h1 : Navbar.toNotification type course item with
    | error e => cases Navbar.toNotifications type course rest <;> exact ⟨e, rfl⟩
    | ok n =>
      have hitem : item.isNullish = false := by
        unfold Navbar.toNotification at h1
        split_ifs at h1 with hn
        simpa using hn
      obtain ⟨x, hx, hxn⟩ := h
      rcases List.mem_cons.1 hx with rfl | hx
      · rw [hitem] at hxn
        cases hxn
      · obtain ⟨e, he⟩ := ih ⟨x, hx, hxn⟩
        exact ⟨e, by simp [he]⟩

theorem courseEntries_bounds (fetch : Navbar.CourseFetch) :
    ((Navbar.courseEntries fetch).filter fun n => n.type == js "question").length ≤ 3 ∧
    ((Navbar.courseEntries fetch).filter fun n => n.type == js "announcement").length ≤ 2 := by
  have hne : (js "announcement" == js "question") = false := by decide
  have hne2 : (js "question" == js "announcement") = false := by decide
  unfold Navbar.courseEntries
  cases fetch.result with
  | none => simp
  | some result =>
    obtain ⟨questions, announcements⟩ := result
    simp only []
    cases h1 : Navbar.toNotifications (js "question") fetch.course (questions.take 3) with
    | error e => simp
    | ok qs =>
      cases h2 : Navbar.toNotifications (js "announcement") fetch.course
          (announcements.take 2) with
      | error e => simp
      | ok as =>
        obtain ⟨hq, hqt⟩ := toNotifications_spec _ _ _ _ h1
        obtain ⟨ha, hat⟩ := toNotifications_spec _ _ _ _ h2
        have hqa : as.filter (fun n => n.type == js "question") = [] := by
          rw [List.filter_eq_nil_iff]
          intro n hn
          rw [hat n hn, hne]
          simp
        have haq : qs.filter (fun n => n.type == js "announcement") = [] := by
          rw [List.filter_eq_nil_iff]
          intro n hn
          rw [hqt n hn, hne2]
          simp
        have hql : qs.length ≤ 3 := by
          rw [hq, List.length_take]
          omega
        have hal : as.length ≤ 2 := by
          rw [ha, List.length_take]
          omega
        simp only [List.filter_append, hqa, haq, List.append_nil, List.nil_append]
        exact ⟨le_trans (List.length_filter_le _ _) hql, le_trans (List.length_filter_le _ _) hal⟩

theorem courseEntries_of_items (fetch : Navbar.CourseFetch) (questions announcements : List JSVal)
    (hresult : fetch.result = some (questions, announcements))
    (hitems : ∀ item ∈ questions.take 3 ++ announcements.take 2, item.isNullish = false) :
    Navbar.courseEntries fetch =
      (questions.take 3).map (Navbar.entry (js "question") fetch.course) ++
        (announcements.take 2).map (Navbar.entry (js "announcement") fetch.course) := by
  have h1 := toNotifications_of_items (js "question") fetch.course (questions.take 3)
    (fun x hx => hitems x (List.mem_append_left _ hx))
  have h2 := toNotifications_of_items (js "announcement") fetch.course (announcements.take 2)
    (fun x hx => hitems x (List.mem_append_right _ hx))
  simp only [Navbar.courseEntries, hresult, h1, h2]

theorem courseEntries_of_nullish (fetch : Navbar.CourseFetch)
    (questions announcements : List JSVal)
    (hresult : fetch.result = some (questions, announcements))
    (hitem : ∃ item ∈ questions.take 3 ++ announcements.take 2, item.isNullish = true) :
    Navbar.courseEntries fetch = [] := by
  obtain ⟨x, hx, hxn⟩ := hitem
  simp only [Navbar.courseEntries, hresult]
  rcases List.mem_append.1 hx with hx | hx
  · obtain ⟨e, he⟩ := toNotifications_of_nullish (js "question") fetch.course _ ⟨x, hx, hxn⟩
    rw [he]
  · obtain ⟨e, he⟩ := toNotifications_of_nullish (js "announcement") fetch.course _
      ⟨x, hx, hxn⟩
    rw [he]
    cases Navbar.toNotifications (js "question") fetch.course (questions.take 3) <;> rfl

theorem length_allNotifications (fetches : List Navbar.CourseFetch) :
    (Navbar.allNotifications fetches).length =
      (fetches.map fun fetch => (Navbar.courseEntries fetch).length).sum := by
  induction fetches with
  | nil => rfl
  | cons fetch rest ih =>
    simp only [Navbar.allNotifications, List.flatMap_cons, List.length_append, List.map_cons,
      List.sum_cons] at ih ⊢
    rw [ih]

theorem sorted_of_valid (dateValue : JSVal → Option Int) (l : List Notification)
    (hvalid : ∀ n ∈ l, ∃ t, dateValue n.createdAt = some t) :
    (stableSortBy (Navbar.mayPrecede dateValue) l).Pairwise
      (fun a b => ∀ ta tb, dateValue a.createdAt = some ta →
        dateValue b.createdAt = some tb → tb ≤ ta) := by
  have hsorted : (stableSortBy (Navbar.mayPrecede dateValue) l).Pairwise
      (fun a b => Navbar.mayPrecede dateValue a b = true) := by
    apply pairwise_stableSortBy
    · intro x hx y hy hxy
      obtain ⟨tx, htx⟩ := hvalid x hx
      obtain ⟨ty, hty⟩ := hvalid y hy
      rw [mayPrecede_of_valid dateValue y x ty tx hty htx]
      have hn : ¬ Navbar.mayPrecede dateValue x y = true := by simp [hxy]
      rw [mayPrecede_of_valid dateValue x y tx ty htx hty] at hn
      omega
    · intro x hx y hy z hz hxy hyz
      obtain ⟨tx, htx⟩ := hvalid x hx
      obtain ⟨ty, hty⟩ := hvalid y hy
      obtain ⟨tz, htz⟩ := hvalid z hz
      rw [mayPrecede_of_valid dateValue x y tx ty htx hty] at hxy
      rw [mayPrecede_of_valid dateValue y z ty tz hty htz] at hyz
      rw [mayPrecede_of_valid dateValue x z tx tz htx htz]
      omega
  refine hsorted.imp ?_
  intro a b hab ta tb hta htb
  exact (mayPrecede_of_valid dateValue a b ta tb hta htb).1 hab

/-- The entries are collected before they are sorted: of a course with the
questions q1 to q5 (`createdAt` 1000 to 5000) and the announcements a1 to a3
(10000 to 30000), each array listed from the oldest to the newest, the list is
a2, a1, q3, q2, q1; the newest items a3, q5 and q4 are not collected. -/
theorem notifications_first_items :
    (Navbar.fetchNotifications Navbar.integerDate
        [{ course := .obj [(js "id", .num false 1 0)]
           result := some
            ([Navbar.item 1 1000, Navbar.item 2 2000, Navbar.item 3 3000, Navbar.item 4 4000,
              Navbar.item 5 5000],
             [Navbar.item 6 10000, Navbar.item 7 20000, Navbar.item 8 30000]) }]).map
      (List.map fun n => (n.type, n.id, n.createdAt)) =
    some [(js "announcement", .num false 7 0, .num false 20000 0),
          (js "announcement", .num false 6 0, .num false 10000 0),
          (js "question", .num false 3 0, .num false 3000 0),
          (js "question", .num false 2 0, .num false 2000 0),
          (js "question", .num false 1 0, .num false 1000 0)] :=
  rfl

/-- C24, as stated, fails: a course with three questions, the second of them
without `createdAt`. `new Date(undefined)` is an invalid date, the comparator
gives NaN on every pair with that question, which `sort` takes for zero, and
the list keeps the order of the server: the question of time 1000 stands
before the newer question of time 3000. -/
theorem notifications_order_counterexample :
    Navbar.integerDate .undefined = none ∧
    Navbar.integerDate (.num false 1000 0) = some 1000 ∧
    Navbar.integerDate (.num false 3000 0) = some 3000 ∧
    Navbar.fetchNotifications Navbar.integerDate
        [{ course := .obj [(js "id", .num false 1 0)]
           result := some
            ([Navbar.item 1 1000, .obj [(js "id", .num false 2 0)], Navbar.item 3 3000],
             []) }] =
      some
        [{ type := js "question", courseId := .num false 1 0, courseName := .undefined,
           title := .undefined, createdAt := .num false 1000 0, id := .num false 1 0 },
         { type := js "question", courseId := .num false 1 0, courseName := .undefined,
           title := .undefined, createdAt := .undefined, id := .num false 2 0 },
         { type := js "question", courseId := .num false 1 0, courseName := .undefined,
           title := .undefined, createdAt := .num false 3000 0, id := .num false 3 0 }] :=
  ⟨rfl, rfl, rfl, rfl⟩

/-- C24, amended. A list is handed over whenever no course of the array is
null or undefined, and it has ten entries, or all the collected entries when
they are fewer than ten; the list and the entries left out are together the
collected entries. When the `createdAt` of every collected entry is a valid
date, the list is in the order of the dates from the newest to the oldest and
no entry left out is newer than an entry of the list. The collected entries
are those of the courses, each course adding at most three questions and two
announcements: its first three questions and its first two announcements as
the server lists them, and nothing when one of its requests was rejected or
one of those items is null or undefined. An entry has the type of its array,
the `id` and the `name` of its course and the `title`, the `createdAt` and the
`id` of its item. -/
theorem notifications_most_recent (dateValue : JSVal → Option Int)
    (fetches : List Navbar.CourseFetch) :
    (fetches.all (fun fetch => !fetch.course.isNullish) = true →
      ∃ list, Navbar.fetchNotifications dateValue fetches = some list) ∧
    (∀ list, Navbar.fetchNotifications dateValue fetches = some list →
      list.length = min 10 (Navbar.allNotifications fetches).length ∧
      list.length ≤ 10 ∧
      ∃ leftOut : List Notification,
        (list ++ leftOut).Perm (Navbar.allNotifications fetches) ∧
        ((∀ n ∈ Navbar.allNotifications fetches, ∃ t, dateValue n.createdAt = some t) →
          list.Pairwise
            (fun a b => ∀ ta tb, dateValue a.createdAt = some ta →
              dateValue b.createdAt = some tb → tb ≤ ta) ∧
          ∀ kept ∈ list, ∀ out ∈ leftOut,
            ∀ tk tl, dateValue kept.createdAt = some tk → dateValue out.createdAt = some tl →
              tl ≤ tk)) ∧
    (∀ n, n ∈ Navbar.allNotifications fetches ↔
      ∃ fetch ∈ fetches, n ∈ Navbar.courseEntries fetch) ∧
    (Navbar.allNotifications fetches).length =
      (fetches.map fun fetch => (Navbar.courseEntries fetch).length).sum ∧
    (∀ fetch : Navbar.CourseFetch,
      ((Navbar.courseEntries fetch).filter fun n => n.type == js "question").length ≤ 3 ∧
      ((Navbar.courseEntries fetch).filter fun n => n.type == js "announcement").length ≤ 2) ∧
    (∀ (fetch : Navbar.CourseFetch) (questions announcements : List JSVal),
      fetch.result = some (questions, announcements) →
      (∀ item ∈ questions.take 3 ++ announcements.take 2, item.isNullish = false) →
      Navbar.courseEntries fetch =
        (questions.take 3).map (Navbar.entry (js "question") fetch.course) ++
          (announcements.take 2).map (Navbar.entry (js "announcement") fetch.course)) ∧
    (∀ fetch : Navbar.CourseFetch, fetch.result = none → Navbar.courseEntries fetch = []) ∧
    (∀ (fetch : Navbar.CourseFetch) (questions announcements : List JSVal),
      fetch.result = some (questions, announcements) →
      (∃ item ∈ questions.take 3 ++ announcements.take 2, item.isNullish = true) →
      Navbar.courseEntries fetch = []) ∧
    (∀ (type : JSString) (course item : JSVal),
      (Navbar.entry type course item).type = type ∧
      (Navbar.entry type course item).courseId = course.get (js "id") ∧
      (Navbar.entry type course item).courseName = course.get (js "name") ∧
      (Navbar.entry type course item).title = item.get (js "title") ∧
      (Navbar.entry type course item).createdAt = item.get (js "createdAt") ∧
      (Navbar.entry type course item).id = item.get (js "id")) := by
  refine ⟨fun hall => ?_, ?_, ?_, length_allNotifications fetches, courseEntries_bounds,
    courseEntries_of_items, ?_, courseEntries_of_nullish,
    fun _ _ _ => ⟨rfl, rfl, rfl, rfl, rfl, rfl⟩⟩
  · unfold Navbar.fetchNotifications
    rw [if_pos hall]
    exact ⟨_, rfl⟩
  · intro list hlist
    unfold Navbar.fetchNotifications at hlist
    split_ifs at hlist
    injection hlist with hlist
    subst hlist
    have hperm := perm_stableSortBy (Navbar.mayPrecede dateValue) (Navbar.allNotifications fetches)
    refine ⟨?_, ?_, (stableSortBy (Navbar.mayPrecede dateValue)
      (Navbar.allNotifications fetches)).drop 10, ?_, fun hvalid => ?_⟩
    · rw [List.length_take, hperm.length_eq]
    · rw [List.length_take]
      omega
    · rw [List.take_append_drop]
      exact hperm
    · have hdates := sorted_of_valid dateValue (Navbar.allNotifications fetches) hvalid
      refine ⟨hdates.sublist (List.take_sublist _ _), ?_⟩
      have happ := hdates
      rw [← List.take_append_drop 10 (stableSortBy (Navbar.mayPrecede dateValue)
        (Navbar.allNotifications fetches)), List.pairwise_append] at happ
      intro kept hk out ho tk tl htk htl
      exact happ.2.2 kept hk out ho tk tl htk htl
  · intro n
    simp only [Navbar.allNotifications, List.mem_flatMap]
  · intro fetch hresult
    simp only [Navbar.courseEntries, hresult]


/-- C25 at a failing input: two groups, of the questions 1, 2 and of the
questions 3, 4. The professor expands the first and then the second, which
makes the selection the set of 3 and 4, and ticks the checkbox of question 1
in the panel of the first group, still expanded. The button of the first
group then shows the count 1 and hands over the ids 3, 4 and 1: two of them
are not of the group, and their number is not the count shown. -/
theorem batch_sends_other_group :
    (QuestionsTab.clicks
        [.accordion { mainQuestion := 1, similarQuestions := [2] },
          .accordion { mainQuestion := 3, similarQuestions := [4] },
          .checkbox { mainQuestion := 1, similarQuestions := [2] } 1] :
        QuestionsTab.BatchState Nat).expandedGroupIds = [1, 3] ∧
    QuestionsTab.selectedCount { mainQuestion := 1, similarQuestions := [2] }
        (QuestionsTab.clicks
          [.accordion { mainQuestion := 1, similarQuestions := [2] },
            .accordion { mainQuestion := 3, similarQuestions := [4] },
            .checkbox { mainQuestion := 1, similarQuestions := [2] } 1] :
          QuestionsTab.BatchState Nat) = 1 ∧
    QuestionsTab.selectedIds
        (QuestionsTab.clicks
          [.accordion { mainQuestion := 1, similarQuestions := [2] },
            .accordion { mainQuestion := 3, similarQuestions := [4] },
            .checkbox { mainQuestion := 1, similarQuestions := [2] } 1] :
          QuestionsTab.BatchState Nat) = [3, 4, 1] ∧
    3 ∉ QuestionsTab.allGroupQuestionIds
      ({ mainQuestion := 1, similarQuestions := [2] } : QuestionsTab.Group Nat) := by
  refine ⟨by decide, by decide, by decide, by decide⟩

/-- When every selected id is an id of the group (as after expanding that
group and ticking its checkboxes only), the ids the button hands over are the
ids of the group that are selected, and their number is the count shown. -/
theorem batch_ids_within_group {α : Type} [DecidableEq α] (group : QuestionsTab.Group α)
    (s : QuestionsTab.BatchState α)
    (hsub : ∀ id ∈ s.selectedBatchQuestions, id ∈ QuestionsTab.allGroupQuestionIds group)
    (hs : s.selectedBatchQuestions.Nodup)
    (hg : (QuestionsTab.allGroupQuestionIds group).Nodup) :
    (QuestionsTab.selectedIds s).length = QuestionsTab.selectedCount group s ∧
    ∀ id, id ∈ QuestionsTab.selectedIds s ↔
      id ∈ QuestionsTab.allGroupQuestionIds group ∧ id ∈ s.selectedBatchQuestions := by
  constructor
  · have hperm : ((QuestionsTab.allGroupQuestionIds group).filter
        fun id => id ∈ s.selectedBatchQuestions).Perm s.selectedBatchQuestions := by
      rw [List.perm_ext_iff_of_nodup (hg.filter _) hs]
      intro id
      simp only [List.mem_filter, decide_eq_true_eq]
      exact ⟨fun h => h.2, fun h => ⟨hsub id h, h⟩⟩
    simp only [QuestionsTab.selectedIds, QuestionsTab.selectedCount]
    exact hperm.length_eq.symm
  · intro id
    simp only [QuestionsTab.selectedIds]
    exact ⟨fun h => ⟨hsub id h, h⟩, fun h => h.2⟩

theorem filterThrowing_of_ok (callback : JSVal → Except JSError Bool) (p : JSVal → Bool)
    (questions : List JSVal) (h : ∀ q ∈ questions, callback q = .ok (p q)) :
    QuestionsTab.filterThrowing callback questions = .ok (questions.filter p) := by
  induction questions with
  | nil => rfl
  | cons q rest ih =>
    have hq := h q (by simp)
    have hrest := ih fun x hx => h x (by simp [hx])
    simp only [QuestionsTab.filterThrowing, hq, hrest, List.filter_cons]

theorem hasNoAnswers_of_array (q : JSVal) (items : List JSVal)
    (h : q.get (js "answers") = .arr items) :
    QuestionsTab.hasNoAnswers q = .ok (QuestionsTab.answerCount q == 0) := by
  simp [QuestionsTab.hasNoAnswers, QuestionsTab.answerCount, h]

theorem hasAnswers_of_array (convert : JSVal → Bool) (q : JSVal) (items : List JSVal)
    (h : q.get (js "answers") = .arr items) :
    QuestionsTab.hasAnswers convert q = .ok (decide (0 < QuestionsTab.answerCount q)) := by
  simp [QuestionsTab.hasAnswers, QuestionsTab.answerCount, h]

theorem length_filter_partition (questions : List JSVal) :
    (questions.filter fun q => QuestionsTab.answerCount q == 0).length +
      (questions.filter fun q => decide (0 < QuestionsTab.answerCount q)).length =
        questions.length := by
  induction questions with
  | nil => rfl
  | cons q rest ih =>
    by_cases hq : QuestionsTab.answerCount q = 0
    · have e1 : (QuestionsTab.answerCount q == 0) = true := by simp [hq]
      have e2 : decide (0 < QuestionsTab.answerCount q) = false := by simp [hq]
      rw [List.filter_cons, List.filter_cons, e1, e2]
      simp only [if_true, Bool.false_eq_true, if_false, List.length_cons]
      omega
    · have e1 : (QuestionsTab.answerCount q == 0) = false := by simp [hq]
      have e2 : decide (0 < QuestionsTab.answerCount q) = true := by
        simp only [decide_eq_true_eq]
        omega
      rw [List.filter_cons, List.filter_cons, e1, e2]
      simp only [if_true, Bool.false_eq_true, if_false, List.length_cons]
      omega

/-- C29: for every list of questions whose `answers` are arrays, the filter
`unanswered` keeps exactly the questions without answers and the filter
`answered` exactly those with at least one, in the order of the list; no
question passes both tests and every question passes one; the two counts add
up to the length of the list; and the filter `all`, as any other value of the
filter, returns the list as it is. -/
theorem status_filter_partition (convert : JSVal → Bool) (questions : List JSVal)
    (statusFilter : JSString)
    (harrays : ∀ q ∈ questions, ∃ items, q.get (js "answers") = .arr items) :
    QuestionsTab.filteredQuestions convert (js "unanswered") questions =
      .ok (questions.filter fun q => QuestionsTab.answerCount q == 0) ∧
    QuestionsTab.filteredQuestions convert (js "answered") questions =
      .ok (questions.filter fun q => decide (0 < QuestionsTab.answerCount q)) ∧
    (∀ q, ¬ (QuestionsTab.answerCount q = 0 ∧ 0 < QuestionsTab.answerCount q)) ∧
    (∀ q, QuestionsTab.answerCount q = 0 ∨ 0 < QuestionsTab.answerCount q) ∧
    (∃ unanswered answered,
      QuestionsTab.unansweredCount questions = .ok unanswered ∧
      QuestionsTab.answeredCount convert questions = .ok answered ∧
      unanswered + answered = questions.length) ∧
    QuestionsTab.filteredQuestions convert (js "all") questions = .ok questions ∧
    (statusFilter ≠ js "unanswered" → statusFilter ≠ js "answered" →
      QuestionsTab.filteredQuestions convert statusFilter questions = .ok questions) := by
  have hno : ∀ q ∈ questions,
      QuestionsTab.hasNoAnswers q = .ok (QuestionsTab.answerCount q == 0) := by
    intro q hq
    obtain ⟨items, hi⟩ := harrays q hq
    exact hasNoAnswers_of_array q items hi
  have hsome : ∀ q ∈ questions,
      QuestionsTab.hasAnswers convert q = .ok (decide (0 < QuestionsTab.answerCount q)) := by
    intro q hq
    obtain ⟨items, hi⟩ := harrays q hq
    exact hasAnswers_of_array convert q items hi
  have h1 : js "unanswered" ≠ js "all" := by decide
  have h2 : js "answered" ≠ js "all" := by decide
  have h3 : js "answered" ≠ js "unanswered" := by decide
  have hall : ∀ f : JSString, f ≠ js "unanswered" → f ≠ js "answered" →
      QuestionsTab.filteredQuestions convert f questions = .ok questions := by
    intro f hf1 hf2
    have := filterThrowing_of_ok
      (fun q =>
        if f = js "all" then .ok true
        else if f = js "unanswered" then QuestionsTab.hasNoAnswers q
        else if f = js "answered" then QuestionsTab.hasAnswers convert q
        else .ok true) (fun _ => true) questions (by intro q _; simp [hf1, hf2])
    simpa [QuestionsTab.filteredQuestions] using this
  refine ⟨?_, ?_, fun q h => by omega, fun q => by omega, ?_,
    hall (js "all") (by decide) (by decide), hall statusFilter⟩
  · unfold QuestionsTab.filteredQuestions
    simp only [h1, if_false, if_true]
    exact filterThrowing_of_ok _ _ questions hno
  · unfold QuestionsTab.filteredQuestions
    simp only [h2, h3, if_false, if_true]
    exact filterThrowing_of_ok _ _ questions hsome
  · refine ⟨_, _, ?_, ?_, length_filter_partition questions⟩
    · simp only [QuestionsTab.unansweredCount, filterThrowing_of_ok _ _ questions hno]
    · simp only [QuestionsTab.answeredCount, filterThrowing_of_ok _ _ questions hsome]

/-- C29 at a list of three questions, the second of which has an answer. -/
theorem status_filter_partition_witness :
    QuestionsTab.filteredQuestions (fun _ => false) (js "unanswered")
        [.obj [(js "id", .num false 1 0), (js "answers", .arr [])],
          .obj [(js "id", .num false 2 0),
            (js "answers", .arr [.obj [(js "id", .num false 9 0)]])],
          .obj [(js "id", .num false 3 0), (js "answers", .arr [])]] =
      .ok [.obj [(js "id", .num false 1 0), (js "answers", .arr [])],
        .obj [(js "id", .num false 3 0), (js "answers", .arr [])]] :=
  (status_filter_partition (fun _ => false)
    [.obj [(js "id", .num false 1 0), (js "answers", .arr [])],
      .obj [(js "id", .num false 2 0), (js "answers", .arr [.obj [(js "id", .num false 9 0)]])],
      .obj [(js "id", .num false 3 0), (js "answers", .arr [])]]
    (js "all")
    (by
      intro q hq
      simp only [List.mem_cons, List.mem_singleton, List.not_mem_nil, or_false] at hq
      rcases hq with rfl | rfl | rfl
      · exact ⟨_, rfl⟩
      · exact ⟨_, rfl⟩
      · exact ⟨_, rfl⟩)).1

/-- C24, amended, at three courses from which fifteen entries are collected,
all with valid dates: the list is the ten newest of them, from the newest to
the oldest, and the five left out are older. The first course adds its first
three questions and its first two announcements. -/
theorem notifications_most_recent_witness :
    (Navbar.allNotifications Navbar.threeCourses).length = 15 ∧
    ∃ list, Navbar.fetchNotifications Navbar.integerDate Navbar.threeCourses = some list ∧
      list.length = 10 ∧
      list.map (fun n => n.id) =
        [.num false 21 0, .num false 25 0, .num false 32 0, .num false 15 0, .num false 34 0,
          .num false 35 0, .num false 12 0, .num false 23 0, .num false 31 0,
          .num false 33 0] ∧
      list.Pairwise
        (fun a b => ∀ ta tb, Navbar.integerDate a.createdAt = some ta →
          Navbar.integerDate b.createdAt = some tb → tb ≤ ta) ∧
      (∃ leftOut : List Notification,
        (list ++ leftOut).Perm (Navbar.allNotifications Navbar.threeCourses) ∧
        ∀ kept ∈ list, ∀ out ∈ leftOut,
          ∀ tk tl, Navbar.integerDate kept.createdAt = some tk →
            Navbar.integerDate out.createdAt = some tl → tl ≤ tk) ∧
      Navbar.courseEntries
          { course := .obj [(js "id", .num false 1 0)]
            result := some
              ([Navbar.item 11 1000, Navbar.item 12 9000, Navbar.item 13 4000,
                Navbar.item 14 99000],
               [Navbar.item 15 12000, Navbar.item 16 2000, Navbar.item 17 98000]) } =
        [Navbar.entry (js "question") (.obj [(js "id", .num false 1 0)]) (Navbar.item 11 1000),
          Navbar.entry (js "question") (.obj [(js "id", .num false 1 0)]) (Navbar.item 12 9000),
          Navbar.entry (js "question") (.obj [(js "id", .num false 1 0)]) (Navbar.item 13 4000),
          Navbar.entry (js "announcement") (.obj [(js "id", .num false 1 0)])
            (Navbar.item 15 12000),
          Navbar.entry (js "announcement") (.obj [(js "id", .num false 1 0)])
            (Navbar.item 16 2000)] := by
  have hthm := notifications_most_recent Navbar.integerDate Navbar.threeCourses
  obtain ⟨hbuilt, hlist, -, -, -, hitems, -, -⟩ := hthm
  obtain ⟨list, hl⟩ := hbuilt rfl
  obtain ⟨hlen, -, leftOut, hperm, horder⟩ := hlist list hl
  have hvalid : ∀ n ∈ Navbar.allNotifications Navbar.threeCourses,
      ∃ t, Navbar.integerDate n.createdAt = some t := by
    have hall : (Navbar.allNotifications Navbar.threeCourses).all
        (fun n => (Navbar.integerDate n.createdAt).isSome) = true := rfl
    intro n hn
    exact Option.isSome_iff_exists.1 (List.all_eq_true.1 hall n hn)
  obtain ⟨hpair, hout⟩ := horder hvalid
  have hids : Navbar.fetchNotifications Navbar.integerDate Navbar.threeCourses =
      some list →
      list.map (fun n => n.id) =
        [.num false 21 0, .num false 25 0, .num false 32 0, .num false 15 0, .num false 34 0,
          .num false 35 0, .num false 12 0, .num false 23 0, .num false 31 0,
          .num false 33 0] := by
    intro h
    have h2 : (Navbar.fetchNotifications Navbar.integerDate Navbar.threeCourses).map
        (List.map fun n => n.id) =
        some [.num false 21 0, .num false 25 0, .num false 32 0, .num false 15 0,
          .num false 34 0, .num false 35 0, .num false 12 0, .num false 23 0, .num false 31 0,
          .num false 33 0] := rfl
    rw [h] at h2
    exact Option.some.inj h2
  refine ⟨rfl, list, hl, ?_, hids hl, hpair, ⟨leftOut, hperm, hout⟩, ?_⟩
  · rw [hlen]
    rfl
  · have hnot : ([Navbar.item 11 1000, Navbar.item 12 9000, Navbar.item 13 4000,
        Navbar.item 14 99000].take 3 ++
        [Navbar.item 15 12000, Navbar.item 16 2000, Navbar.item 17 98000].take 2).all
        (fun item => !item.isNullish) = true := rfl
    exact hitems
      { course := .obj [(js "id", .num false 1 0)]
        result := some
          ([Navbar.item 11 1000, Navbar.item 12 9000, Navbar.item 13 4000,
            Navbar.item 14 99000],
           [Navbar.item 15 12000, Navbar.item 16 2000, Navbar.item 17 98000]) }
      [Navbar.item 11 1000, Navbar.item 12 9000, Navbar.item 13 4000, Navbar.item 14 99000]
      [Navbar.item 15 12000, Navbar.item 16 2000, Navbar.item 17 98000] rfl
      (fun x hx => by simpa using List.all_eq_true.1 hnot x hx)

end Askademy
